import Mathlib

/-!
# MLX90632 driver: shallow embedding and verified properties

Embedding of `src/src/melexis/mlx90632.c`, `src/src/melexis/mlx90632_drv.c` and the
macros of `src/inc/melexis/mlx90632.h`.

* C `double` values are elements of a linearly ordered field `K`; the temperature formulas
  (`mlx90632_calc_temp_ambient`, `mlx90632_calc_temp_object`) are evaluated in exact
  arithmetic and `sqrt` is a parameter of the functions that call it.
* The fields of `MLXCalib_s` are C `float`s: every value assigned to one of them is rounded by
  `toFloat` (IEEE-754 binary32, round to nearest even). The scaled getters
  `mlx90632_getTempAmb` and `mlx90632_getTempObj` evaluate `(T + 40) * 10` in `double`: each of
  the two operations is rounded by `toDouble` (binary64) before the `(uint16_t)` cast.
* `uintN_t` values are `Nat` reduced modulo `2^N` where a wrap can happen; `int` is `Int`.
* The two-wire bus is an oracle `Bus = Nat → Option Nat`: the answer of the `k`-th
  `i2c_transfer` of the run (`none`: the transfer failed, `some b`: it succeeded and, for
  a read, left the two received bytes `b` in the buffer). Every bus operation and every
  sleep is appended to the trace of the driver state.
* `while` loops whose exit depends on the bus take a fuel argument and return `none`
  when it is exhausted.
-/

namespace MLX90632

/-! ## Macros of `mlx90632.h` and `common.h` -/

def ETIMEDOUT : Int := 110
def EPROTONOSUPPORT : Int := 93
def ERANGE : Int := 34

def BITS_PER_LONG : Nat := 64

/-- Macro `BIT(x) = 1UL << x`. -/
def BIT (x : Nat) : Nat := (1 <<< x) % 2 ^ BITS_PER_LONG

/-- Macro `GENMASK(h, l) = ((~0UL) << l) & (~0UL >> (BITS_PER_LONG - 1 - h))`. -/
def GENMASK (h l : Nat) : Nat :=
  (((2 ^ BITS_PER_LONG - 1) <<< l) % 2 ^ BITS_PER_LONG) &&&
    ((2 ^ BITS_PER_LONG - 1) >>> (BITS_PER_LONG - 1 - h))

def MLX90632_ADDR_RAM : Nat := 0x4000
def MLX90632_EE_I2C_ADDRESS : Nat := 0x24d5
def MLX90632_EE_VERSION : Nat := 0x240b
def MLX90632_EE_P_R : Nat := 0x240c
def MLX90632_EE_P_G : Nat := 0x240e
def MLX90632_EE_P_T : Nat := 0x2410
def MLX90632_EE_P_O : Nat := 0x2412
def MLX90632_EE_Ea : Nat := 0x2424
def MLX90632_EE_Eb : Nat := 0x2426
def MLX90632_EE_Fa : Nat := 0x2428
def MLX90632_EE_Fb : Nat := 0x242a
def MLX90632_EE_Ga : Nat := 0x242c
def MLX90632_EE_Gb : Nat := 0x242e
def MLX90632_EE_Ka : Nat := 0x242f
def MLX90632_EE_Ha : Nat := 0x2481
def MLX90632_EE_Hb : Nat := 0x2482
def MLX90632_EE_MEDICAL_MEAS1 : Nat := 0x24E1

def MLX90632_MEAS_HZ_ERROR : Int := -1
def MLX90632_EE_REFRESH_RATE_START : Nat := 10
def MLX90632_EE_REFRESH_RATE_SHIFT : Nat := 8
def MLX90632_EE_REFRESH_RATE_MASK : Nat :=
  GENMASK MLX90632_EE_REFRESH_RATE_START MLX90632_EE_REFRESH_RATE_SHIFT
def MLX90632_REFRESH_RATE (ee_val : Nat) : Nat :=
  (ee_val &&& MLX90632_EE_REFRESH_RATE_MASK) >>> MLX90632_EE_REFRESH_RATE_SHIFT

def MLX90632_REG_CTRL : Nat := 0x3001
def MLX90632_CFG_SOC_SHIFT : Nat := 3
def MLX90632_CFG_SOC_MASK : Nat := BIT MLX90632_CFG_SOC_SHIFT
def MLX90632_CFG_PWR_MASK : Nat := GENMASK 2 1
def MLX90632_PWR_STATUS (ctrl_val : Nat) : Nat := ctrl_val <<< 1
def MLX90632_PWR_STATUS_SLEEP_STEP : Nat := MLX90632_PWR_STATUS 1
def MLX90632_PWR_STATUS_STEP : Nat := MLX90632_PWR_STATUS 2

def MLX90632_REG_STATUS : Nat := 0x3fff
def MLX90632_STAT_EE_BUSY : Nat := BIT 9
def MLX90632_STAT_CYCLE_POS : Nat := GENMASK 6 2
def MLX90632_STAT_DATA_RDY : Nat := BIT 0

def MLX90632_RAM_1 (meas_num : Nat) : Nat := MLX90632_ADDR_RAM + 3 * meas_num
def MLX90632_RAM_2 (meas_num : Nat) : Nat := MLX90632_ADDR_RAM + 3 * meas_num + 1
def MLX90632_RAM_3 (meas_num : Nat) : Nat := MLX90632_ADDR_RAM + 3 * meas_num + 2

def MLX90632_DSPv5 : Nat := 0x05
def MLX90632_RESET_CMD : Nat := 0x0006
def MLX90632_XTD_RNG_KEY : Nat := 0x0500
def MLX90632_MAX_NUMBER_MESUREMENT_READ_TRIES : Nat := 100
def MLX90632_MAX_NUM_CHECK_MEAS : Nat := 50
def MLX90632_STEP_WAIT_TIME : Nat := 250
def MLX90632_MAX_WAIT_TIME : Nat := 5000

def ERROR_MLX_READ : Nat := BIT 0
def ERROR_MLX_WRITE : Nat := BIT 1

/-- Complement of `m` in a `uint16_t` (`x & ~m` stored back into 16 bits). -/
def not16 (m : Nat) : Nat := 0xFFFF ^^^ (m % 2 ^ 16)

/-- Complement of `m` in a `uint8_t`. -/
def not8 (m : Nat) : Nat := 0xFF ^^^ (m % 2 ^ 8)

/-- Value of a 32-bit two's complement pattern as a C `int`. -/
def toInt32 (x : Nat) : Int :=
  if x % 2 ^ 32 < 2 ^ 31 then ((x % 2 ^ 32 : Nat) : Int) else ((x % 2 ^ 32 : Nat) : Int) - 2 ^ 32

/-- Cast `(int16_t)` of a 16-bit word. -/
def toInt16 (x : Nat) : Int :=
  if x % 2 ^ 16 < 2 ^ 15 then ((x % 2 ^ 16 : Nat) : Int) else ((x % 2 ^ 16 : Nat) : Int) - 2 ^ 16

/-! ## Data model (`mlx90632.h`, globals of `mlx90632.c`) -/

structure MLXCalib_s (K : Type) where
  P_R : K
  P_G : K
  P_T : K
  P_O : K
  Ea : K
  Eb : K
  Fa : K
  Fb : K
  Ga : K
  Gb : K
  Ka : K
  Ha : K
  Hb : K
  deriving DecidableEq

structure MLXTempRaw_s where
  ambient_ram_6 : Int
  ambient_ram_9 : Int
  object_ram_4_7 : Int
  object_ram_5_8 : Int
  deriving DecidableEq

structure MLXTemp_s (K : Type) where
  ambient : K
  object : K
  deriving DecidableEq

structure MLXStatus_s where
  refresh : Nat
  comm_sts : Bool
  wait_time_meas : Nat
  count_check_meas : Nat
  deriving DecidableEq

/-- What the driver does to the outside world, in order. -/
inductive Event where
  | read (register_address : Nat)
  | write (register_address value : Nat)
  | usleep (min_range max_range : Int)
  deriving DecidableEq

/-- The `k`-th `i2c_transfer`: `none` on failure, `some b` with the raw buffer on success. -/
abbrev Bus := Nat → Option Nat

/-- Globals of the driver together with the history of its bus traffic. -/
structure Driver (K : Type) where
  MLX_K : MLXCalib_s K
  MLX_T_RAW : MLXTempRaw_s
  MLX_T : MLXTemp_s K
  MLX_STS : MLXStatus_s
  emissivity : K
  error_melexis90632 : Nat
  /-- Number of `i2c_transfer` calls made so far (cursor into the bus oracle). -/
  nops : Nat
  trace : List Event
  deriving DecidableEq

section Model

variable {K : Type} [LinearOrderedField K] [FloorRing K]

/-- Static initialisers of `MLX_K`, `MLX_T_RAW`, `MLX_T`, `MLX_STS`, `emissivity`,
`error_melexis90632`. -/
def Driver.initial : Driver K where
  MLX_K := ⟨0, 0, 0, 0, 0, 0, 0, 0, 0, 0, 0, 0, 0⟩
  MLX_T_RAW := ⟨0, 0, 0, 0⟩
  MLX_T := ⟨0, 0⟩
  MLX_STS := { comm_sts := false, count_check_meas := 0, refresh := 0, wait_time_meas := 1000 }
  emissivity := 0
  error_melexis90632 := 0
  nops := 0
  trace := []

/-! ## `mlx90632_drv.c` -/

/-- Byte swap `(buf_read >> 8) | ((buf_read & 0x00FF) << 8)` done by `mlx90632_i2c_read` on the
received `uint16_t`: the register value handed to the caller. -/
def swap16 (b : Nat) : Nat :=
  let buf_read := b % 2 ^ 16
  (buf_read >>> 8) ||| (((buf_read &&& 0x00FF) <<< 8) % 2 ^ 16)

/-- Function `mlx90632_i2c_read(register_address, &value)`: returns `(ret, *value, state)`.
On failure `*value` keeps the value it had; on success the two bytes are swapped. -/
def mlx90632_i2c_read (bus : Bus) (register_address : Nat) (value : Nat) (st : Driver K) :
    Int × Nat × Driver K :=
  let st1 := { st with nops := st.nops + 1, trace := st.trace ++ [Event.read register_address] }
  match bus st.nops with
  | none =>
    (-1, value,
      { st1 with error_melexis90632 := (st.error_melexis90632 ||| ERROR_MLX_READ) % 2 ^ 8 })
  | some b =>
    (0, swap16 b,
      { st1 with error_melexis90632 := (st.error_melexis90632 &&& not8 ERROR_MLX_READ) % 2 ^ 8 })

/-- Function `mlx90632_i2c_write(register_address, value)`: returns `(ret, state)`. -/
def mlx90632_i2c_write (bus : Bus) (register_address : Nat) (value : Nat) (st : Driver K) :
    Int × Driver K :=
  let st1 :=
    { st with nops := st.nops + 1, trace := st.trace ++ [Event.write register_address value] }
  match bus st.nops with
  | none =>
    (-1, { st1 with error_melexis90632 := (st.error_melexis90632 ||| ERROR_MLX_WRITE) % 2 ^ 8 })
  | some _ =>
    (0, { st1 with error_melexis90632 := (st.error_melexis90632 &&& not8 ERROR_MLX_WRITE) % 2 ^ 8 })

/-- Function `get_melexis_error()`. -/
def get_melexis_error (st : Driver K) : Nat := st.error_melexis90632

/-- Function `usleep(min_range, max_range)`: blocks; only its occurrence is recorded. -/
def usleep (min_range max_range : Int) (st : Driver K) : Driver K :=
  { st with trace := st.trace ++ [Event.usleep min_range max_range] }

/-! ## `mlx90632.c`: register helpers -/

/-- Function `i2c_melexis_getStsReg()`: `reg_value` starts at 0 and stays 0 if the read fails. -/
def i2c_melexis_getStsReg (bus : Bus) (st : Driver K) : Nat × Driver K :=
  let reg_value := 0
  match mlx90632_i2c_read bus MLX90632_REG_STATUS reg_value st with
  | (_, reg_value, st) => (reg_value, st)

/-- Function `i2c_melexis_getCtrlReg()`: `0xFFFF` if the read fails. -/
def i2c_melexis_getCtrlReg (bus : Bus) (st : Driver K) : Nat × Driver K :=
  match mlx90632_i2c_read bus MLX90632_REG_CTRL 0 st with
  | (ret, reg_value, st) => if ret < 0 then (0xFFFF, st) else (reg_value, st)

/-- Function `i2c_melexis_e2busy()`. The source tests
`reg_value & ((uint32_t)1 << MLX90632_STAT_EE_BUSY)` where `MLX90632_STAT_EE_BUSY` is
`BIT(9)`, so the shift count is 512; the shift is taken mathematically and truncated to
32 bits. -/
def i2c_melexis_e2busy (bus : Bus) (st : Driver K) : Bool × Driver K :=
  match i2c_melexis_getStsReg bus st with
  | (reg_value, st) =>
    if reg_value &&& ((1 <<< MLX90632_STAT_EE_BUSY) % 2 ^ 32) ≠ 0 then (true, st) else (false, st)

/-- The `while` loop of `i2c_melexis_setmode`, started with the current `ret` and
`reg_ctrl`. -/
def i2c_melexis_setmode_loop (bus : Bus) (mode : Nat) :
    Nat → Int → Nat → Driver K → Option (Int × Driver K)
  | 0, _, _, _ => none
  | fuel + 1, ret, reg_ctrl, st =>
    if reg_ctrl &&& (GENMASK 2 1 % 2 ^ 16) ≠ mode then
      let reg_ctrl := reg_ctrl &&& not16 mode
      let reg_ctrl := (reg_ctrl ||| mode) % 2 ^ 16
      match mlx90632_i2c_write bus MLX90632_REG_CTRL reg_ctrl st with
      | (ret, st) =>
        match i2c_melexis_getCtrlReg bus st with
        | (reg_ctrl, st) => i2c_melexis_setmode_loop bus mode fuel ret reg_ctrl st
    else some (ret, st)

/-- Function `i2c_melexis_setmode(mode)`. -/
def i2c_melexis_setmode (bus : Bus) (fuel : Nat) (mode : Nat) (st : Driver K) :
    Option (Int × Driver K) :=
  i2c_melexis_setmode_loop bus mode fuel 0 0x00 st

/-- The loop `while (i2c_melexis_e2busy()) {}` of `mlx90632_readCalib`. -/
def mlx90632_readCalib_wait (bus : Bus) : Nat → Driver K → Option (Driver K)
  | 0, _ => none
  | fuel + 1, st =>
    match i2c_melexis_e2busy bus st with
    | (true, st) => mlx90632_readCalib_wait bus fuel st
    | (false, st) => some st

/-- The `while` loop of `i2c_melexis_set_soc`. -/
def i2c_melexis_set_soc_loop (bus : Bus) :
    Nat → Int → Nat → Driver K → Option (Int × Driver K)
  | 0, _, _, _ => none
  | fuel + 1, ret, reg_ctrl, st =>
    if reg_ctrl &&& (MLX90632_CFG_SOC_MASK % 2 ^ 16) ≠ MLX90632_CFG_SOC_MASK then
      let reg_ctrl := (reg_ctrl ||| MLX90632_CFG_SOC_MASK) % 2 ^ 16
      match mlx90632_i2c_write bus MLX90632_REG_CTRL reg_ctrl st with
      | (ret, st) =>
        match i2c_melexis_getCtrlReg bus st with
        | (reg_ctrl, st) => i2c_melexis_set_soc_loop bus fuel ret reg_ctrl st
    else some (ret, st)

/-- Function `i2c_melexis_set_soc()`. -/
def i2c_melexis_set_soc (bus : Bus) (fuel : Nat) (st : Driver K) : Option (Int × Driver K) :=
  match i2c_melexis_getCtrlReg bus st with
  | (reg_ctrl, st) =>
    if reg_ctrl = 0xFFFF then some (-1, st)
    else i2c_melexis_set_soc_loop bus fuel 0 reg_ctrl st

/-- Function `mlx90632_get_refresh_rate()`: the enum value as an `int`. -/
def mlx90632_get_refresh_rate (bus : Bus) (st : Driver K) : Int × Driver K :=
  match mlx90632_i2c_read bus MLX90632_EE_MEDICAL_MEAS1 0 st with
  | (ret, meas1, st) =>
    if ret < 0 then (MLX90632_MEAS_HZ_ERROR, st)
    else ((MLX90632_REFRESH_RATE meas1 : Nat), st)

/-- Function `mlx90632_addressed_reset()`. -/
def mlx90632_addressed_reset (bus : Bus) (st : Driver K) : Int × Driver K :=
  match mlx90632_i2c_read bus MLX90632_REG_CTRL 0 st with
  | (ret, reg_value, st) =>
    if ret < 0 then (ret, st) else
    let reg_ctrl := reg_value &&& not16 MLX90632_CFG_PWR_MASK
    let reg_ctrl := (reg_ctrl ||| MLX90632_PWR_STATUS_STEP) % 2 ^ 16
    match mlx90632_i2c_write bus MLX90632_REG_CTRL reg_ctrl st with
    | (ret, st) =>
      if ret < 0 then (ret, st) else
      let reg_ctrl := MLX90632_RESET_CMD
      match mlx90632_i2c_write bus 0x3005 reg_ctrl st with
      | (ret, st) =>
        if ret < 0 then (ret, st) else
        let st := usleep 150 200 st
        mlx90632_i2c_write bus MLX90632_REG_CTRL reg_value st

/-! ## Floating-point rounding (`float` fields, `double` expressions) -/

/-- Nearest integer to `q`, ties to the even neighbour (the default IEEE-754 rounding). -/
def roundHalfEven (q : K) : Int :=
  let f := ⌊q⌋
  if q - f < 1 / 2 then f
  else if 1 / 2 < q - f then f + 1
  else if f % 2 = 0 then f else f + 1

/-- IEEE-754 rounding of `x` to the nearest number with a significand of `p` bits, ties to
even: with `2^e ≤ |x| < 2^(e+1)` the result is the nearest multiple of `2^(e + 1 - p)`. The
exponent range is not limited (no overflow, no subnormal numbers). -/
def roundToPrecision (p : Nat) (x : K) : K :=
  if x = 0 then 0
  else
    let e := Int.log 2 |x|
    (roundHalfEven (x / 2 ^ (e + 1 - (p : Int))) : K) * 2 ^ (e + 1 - (p : Int))

/-- Value held by a C `float` (IEEE-754 binary32, 24-bit significand) after `x` is assigned to
it. The values stored by this driver lie between `2^-46` and `2^31` in magnitude, inside the
normal range of `float`. -/
def toFloat (x : K) : K := roundToPrecision 24 x

/-- Result of a C `double` operation (IEEE-754 binary64, 53-bit significand) whose exact value
is `x`. -/
def toDouble (x : K) : K := roundToPrecision 53 x

/-! ## `mlx90632.c`: calibration -/

/-- The idiom `ret = mlx90632_i2c_read(register_address, &value); if (ret < 0) return ret;`
followed by the rest `k` of the function body. -/
def i2c_read_or_return (bus : Bus) (register_address : Nat) (value : Nat) (st : Driver K)
    (k : Nat → Driver K → Int × Driver K) : Int × Driver K :=
  match mlx90632_i2c_read bus register_address value st with
  | (ret, value, st) => if ret < 0 then (ret, st) else k value st

/-- The EEPROM reads of `mlx90632_readCalib` (everything after the call of
`i2c_melexis_setmode`), each read followed by `if (ret < 0) return ret;`.
`(kalib_M << 16) | kalib_L` is an `int`; each quotient is computed in `double`, where a
division of an integer of at most 32 bits by a power of two is exact, and is rounded by
`toFloat` when it is assigned to its `float` field. `P_T`, `Fb` and `Ga` are assigned twice and
`Fa` three times, each assignment rounding. -/
def mlx90632_readCalib_reads (bus : Bus) (st : Driver K) : Int × Driver K :=
  i2c_read_or_return bus MLX90632_EE_P_R 0 st fun kalib_L st =>
  i2c_read_or_return bus (MLX90632_EE_P_R + 1) 0 st fun kalib_M st =>
  let st := { st with MLX_K := { st.MLX_K with
    P_R := toFloat
      (((toInt32 ((kalib_M <<< 16) ||| kalib_L) : Int) : K) / ((1 <<< 8 : Nat) : K)) } }
  i2c_read_or_return bus MLX90632_EE_P_G kalib_L st fun kalib_L st =>
  i2c_read_or_return bus (MLX90632_EE_P_G + 1) kalib_M st fun kalib_M st =>
  let st := { st with MLX_K := { st.MLX_K with
    P_G := toFloat
      (((toInt32 ((kalib_M <<< 16) ||| kalib_L) : Int) : K) / ((1 <<< 20 : Nat) : K)) } }
  i2c_read_or_return bus MLX90632_EE_P_T kalib_L st fun kalib_L st =>
  i2c_read_or_return bus (MLX90632_EE_P_T + 1) kalib_M st fun kalib_M st =>
  let st := { st with MLX_K := { st.MLX_K with
    P_T := toFloat
      (((toInt32 ((kalib_M <<< 16) ||| kalib_L) : Int) : K) / ((1 <<< 22 : Nat) : K)) } }
  let st := { st with MLX_K := { st.MLX_K with
    P_T := toFloat (st.MLX_K.P_T / ((1 <<< 22 : Nat) : K)) } }
  i2c_read_or_return bus MLX90632_EE_P_O kalib_L st fun kalib_L st =>
  i2c_read_or_return bus (MLX90632_EE_P_O + 1) kalib_M st fun kalib_M st =>
  let st := { st with MLX_K := { st.MLX_K with
    P_O := toFloat
      (((toInt32 ((kalib_M <<< 16) ||| kalib_L) : Int) : K) / ((1 <<< 8 : Nat) : K)) } }
  i2c_read_or_return bus MLX90632_EE_Ea kalib_L st fun kalib_L st =>
  i2c_read_or_return bus (MLX90632_EE_Ea + 1) kalib_M st fun kalib_M st =>
  let st := { st with MLX_K := { st.MLX_K with
    Ea := toFloat
      (((toInt32 ((kalib_M <<< 16) ||| kalib_L) : Int) : K) / ((1 <<< 16 : Nat) : K)) } }
  i2c_read_or_return bus MLX90632_EE_Eb kalib_L st fun kalib_L st =>
  i2c_read_or_return bus (MLX90632_EE_Eb + 1) kalib_M st fun kalib_M st =>
  let st := { st with MLX_K := { st.MLX_K with
    Eb := toFloat
      (((toInt32 ((kalib_M <<< 16) ||| kalib_L) : Int) : K) / ((1 <<< 8 : Nat) : K)) } }
  i2c_read_or_return bus MLX90632_EE_Fa kalib_L st fun kalib_L st =>
  i2c_read_or_return bus (MLX90632_EE_Fa + 1) kalib_M st fun kalib_M st =>
  let st := { st with MLX_K := { st.MLX_K with
    Fa := toFloat ((toInt32 ((kalib_M <<< 16) ||| kalib_L) : Int) : K) } }
  let st := { st with MLX_K := { st.MLX_K with
    Fa := toFloat (st.MLX_K.Fa / ((1 <<< 23 : Nat) : K)) } }
  let st := { st with MLX_K := { st.MLX_K with
    Fa := toFloat (st.MLX_K.Fa / ((1 <<< 23 : Nat) : K)) } }
  i2c_read_or_return bus MLX90632_EE_Fb kalib_L st fun kalib_L st =>
  i2c_read_or_return bus (MLX90632_EE_Fb + 1) kalib_M st fun kalib_M st =>
  let st := { st with MLX_K := { st.MLX_K with
    Fb := toFloat
      (((toInt32 ((kalib_M <<< 16) ||| kalib_L) : Int) : K) / ((1 <<< 18 : Nat) : K)) } }
  let st := { st with MLX_K := { st.MLX_K with
    Fb := toFloat (st.MLX_K.Fb / ((1 <<< 18 : Nat) : K)) } }
  i2c_read_or_return bus MLX90632_EE_Ga kalib_L st fun kalib_L st =>
  i2c_read_or_return bus (MLX90632_EE_Ga + 1) kalib_M st fun kalib_M st =>
  let st := { st with MLX_K := { st.MLX_K with
    Ga := toFloat
      (((toInt32 ((kalib_M <<< 16) ||| kalib_L) : Int) : K) / ((1 <<< 18 : Nat) : K)) } }
  let st := { st with MLX_K := { st.MLX_K with
    Ga := toFloat (st.MLX_K.Ga / ((1 <<< 18 : Nat) : K)) } }
  i2c_read_or_return bus MLX90632_EE_Gb kalib_L st fun kalib_L st =>
  let st := { st with MLX_K := { st.MLX_K with
    Gb := toFloat (((kalib_L : Nat) : K) / ((1 <<< 10 : Nat) : K)) } }
  i2c_read_or_return bus MLX90632_EE_Ka kalib_L st fun kalib_L st =>
  let st := { st with MLX_K := { st.MLX_K with
    Ka := toFloat (((kalib_L : Nat) : K) / ((1 <<< 10 : Nat) : K)) } }
  i2c_read_or_return bus MLX90632_EE_Ha kalib_L st fun kalib_L st =>
  let st := { st with MLX_K := { st.MLX_K with
    Ha := toFloat (((kalib_L : Nat) : K) / ((1 <<< 14 : Nat) : K)) } }
  i2c_read_or_return bus MLX90632_EE_Hb kalib_L st fun kalib_L st =>
  let st := { st with MLX_K := { st.MLX_K with
    Hb := toFloat (((kalib_L : Nat) : K) / ((1 <<< 14 : Nat) : K)) } }
  (0, st)

/-- Function `mlx90632_readCalib()`: busy-wait, `i2c_melexis_setmode` (result ignored), then
the EEPROM reads. -/
def mlx90632_readCalib (bus : Bus) (fuel : Nat) (st : Driver K) : Option (Int × Driver K) :=
  match mlx90632_readCalib_wait bus fuel st with
  | none => none
  | some st =>
    match i2c_melexis_setmode bus fuel MLX90632_PWR_STATUS_SLEEP_STEP st with
    | none => none
    | some (_, st) => some (mlx90632_readCalib_reads bus st)

/-! ## `mlx90632.c`: initialisation and measurement state machine -/

/-- Function `mlx90632_init()`. The result of `mlx90632_readCalib()` is not looked at, and the
extended-range exit returns `ERANGE` as written. -/
def mlx90632_init (bus : Bus) (fuel : Nat) (st : Driver K) : Option (Int × Driver K) :=
  match mlx90632_i2c_read bus MLX90632_EE_VERSION 0 st with
  | (ret, eeprom_version, st) =>
  if ret < 0 then some (ret, st) else
  if eeprom_version &&& 0x00FF ≠ MLX90632_DSPv5 then some (-EPROTONOSUPPORT, st) else
  match mlx90632_i2c_read bus MLX90632_EE_I2C_ADDRESS 0 st with
  | (ret, reg_status, st) =>
  if ret < 0 then some (ret, st) else
  if reg_status ≠ 0x3A >>> 1 then some (-1, st) else
  match mlx90632_get_refresh_rate bus st with
  | (refresh, st) =>
  let st := { st with MLX_STS := { st.MLX_STS with refresh := (refresh % 2 ^ 8).toNat } }
  match mlx90632_readCalib bus fuel st with
  | none => none
  | some (_, st) =>
  match i2c_melexis_setmode bus fuel MLX90632_PWR_STATUS_SLEEP_STEP st with
  | none => none
  | some (ret, st) =>
  if ret < 0 then some (ret, st) else
  match mlx90632_i2c_read bus MLX90632_REG_STATUS reg_status st with
  | (ret, reg_status, st) =>
  if ret < 0 then some (ret, st) else
  let reg_ctrl := reg_status &&& not16 MLX90632_STAT_DATA_RDY
  match mlx90632_i2c_write bus MLX90632_REG_STATUS reg_ctrl st with
  | (ret, st) =>
  if ret < 0 then some (ret, st) else
  if eeprom_version &&& 0x7F00 = MLX90632_XTD_RNG_KEY then some (ERANGE, st) else
  some (0, st)

/-- Driver state in which `mlx90632_init` calls `mlx90632_readCalib` once the version word and
the stored address have passed their checks: the two words have been read and the refresh rate
has been read and stored. -/
def initBeforeCalib (bus : Bus) (st : Driver K) : Driver K :=
  let st := (mlx90632_i2c_read bus MLX90632_EE_VERSION 0 st).2.2
  let st := (mlx90632_i2c_read bus MLX90632_EE_I2C_ADDRESS 0 st).2.2
  let r := mlx90632_get_refresh_rate bus st
  { r.2 with MLX_STS := { r.2.MLX_STS with refresh := (r.1 % 2 ^ 8).toNat } }

/-- Function `mlx90632_check_i2c_comm()`. -/
def mlx90632_check_i2c_comm (bus : Bus) (fuel : Nat) (st : Driver K) : Option (Driver K) :=
  match mlx90632_i2c_read bus MLX90632_REG_STATUS 0 st with
  | (ret, reg_status, st) =>
  let st := if ret < 0 then { st with MLX_STS := { st.MLX_STS with comm_sts := false } } else st
  if !st.MLX_STS.comm_sts then
    match mlx90632_i2c_read bus MLX90632_REG_STATUS reg_status st with
    | (ret, _, st) =>
    if ret ≥ 0 then
      match mlx90632_init bus fuel st with
      | none => none
      | some (_, st) => some { st with MLX_STS := { st.MLX_STS with comm_sts := true } }
    else some st
  else some st

/-- The loop `while (tries-- > 0)` of `mlx90632_start_measurement`: returns the value of
`tries` after the loop (`-1` when the budget is used up), `reg_status` and the state. The
result of the status read is not looked at. -/
def mlx90632_start_measurement_poll (bus : Bus) :
    Nat → Nat → Driver K → Int × Nat × Driver K
  | 0, reg_status, st => (-1, reg_status, st)
  | tries + 1, reg_status, st =>
    match mlx90632_i2c_read bus MLX90632_REG_STATUS reg_status st with
    | (_, reg_status, st) =>
      if reg_status &&& MLX90632_STAT_DATA_RDY ≠ 0 then ((tries : Int), reg_status, st)
      else
        mlx90632_start_measurement_poll bus tries reg_status
          (usleep st.MLX_STS.wait_time_meas (st.MLX_STS.wait_time_meas + 100) st)

/-- Function `mlx90632_start_measurement()`. -/
def mlx90632_start_measurement (bus : Bus) (fuel : Nat) (st : Driver K) :
    Option (Int × Driver K) :=
  match mlx90632_check_i2c_comm bus fuel st with
  | none => none
  | some st =>
  match i2c_melexis_set_soc bus fuel st with
  | none => none
  | some (ret, st) =>
  if ret < 0 then some (ret, st) else
  match mlx90632_i2c_read bus MLX90632_REG_STATUS 0 st with
  | (ret, reg_status, st) =>
  if ret < 0 then some (ret, st) else
  let reg_ctrl := reg_status &&& not16 MLX90632_STAT_DATA_RDY
  match mlx90632_i2c_write bus MLX90632_REG_STATUS reg_ctrl st with
  | (ret, st) =>
  if ret < 0 then some (ret, st) else
  match mlx90632_start_measurement_poll bus MLX90632_MAX_NUMBER_MESUREMENT_READ_TRIES
      reg_status st with
  | (tries, reg_status, st) =>
  if tries < 0 then some (-ETIMEDOUT, st) else
  let meas_ret : Int := (((reg_status &&& (MLX90632_STAT_CYCLE_POS % 2 ^ 16)) >>> 2 : Nat) : Int)
  some (meas_ret, st)

/-- Function `mlx90632_searchWaitTime(meas_ret)`: `count_check_meas` is a `uint8_t`,
`wait_time_meas` a `uint16_t`; the result of the reset is not looked at. -/
def mlx90632_searchWaitTime (bus : Bus) (meas_ret : Int) (st : Driver K) : Driver K :=
  if meas_ret = -ETIMEDOUT then
    let st := { st with MLX_STS := { st.MLX_STS with
      count_check_meas := (st.MLX_STS.count_check_meas + 1) % 2 ^ 8 } }
    if st.MLX_STS.count_check_meas ≥ MLX90632_MAX_NUM_CHECK_MEAS then
      let st := { st with MLX_STS := { st.MLX_STS with
        wait_time_meas := (st.MLX_STS.wait_time_meas + MLX90632_STEP_WAIT_TIME) % 2 ^ 16 } }
      match mlx90632_addressed_reset bus st with
      | (_, st) =>
        if st.MLX_STS.wait_time_meas = MLX90632_MAX_WAIT_TIME then
          { st with MLX_STS := { st.MLX_STS with wait_time_meas := MLX90632_STEP_WAIT_TIME } }
        else st
    else st
  else
    { st with MLX_STS := { st.MLX_STS with count_check_meas := 0 } }

/-! ## `mlx90632.c`: temperature engine -/

/-- Function `mlx90632_set_emissivity(value)`. -/
def mlx90632_set_emissivity (value : K) (st : Driver K) : Driver K :=
  { st with emissivity := value }

/-- Function `mlx90632_get_emissivity()`. -/
def mlx90632_get_emissivity (st : Driver K) : K :=
  if st.emissivity = 0.0 then 1.0 else st.emissivity

/-- Macro `MLX90632_REF_3`. -/
def MLX90632_REF_3 : K := 12.0

/-- Function `mlx90632_calc_temp_ambient(Gb, PO, PR, PG, PT)`; the raw channels come from
`MLX_T_RAW`. -/
def mlx90632_calc_temp_ambient (st : Driver K) (Gb PO PR PG PT : K) : K :=
  let VR_Ta : K := (st.MLX_T_RAW.ambient_ram_9 : K) +
    Gb * ((st.MLX_T_RAW.ambient_ram_6 : K) / MLX90632_REF_3)
  let AMB : K := ((st.MLX_T_RAW.ambient_ram_6 : K) / MLX90632_REF_3) / VR_Ta * 524288.0
  let TAMB : K := PO + ((AMB - PR) / PG) + PT * ((AMB - PR) * (AMB - PR))
  TAMB

/-- Function `mlx90632_calc_temp_object_iteration`: the `for (i = 0; i < 3; ++i)` loop is a
fold over `0, 1, 2`. -/
def mlx90632_calc_temp_object_iteration (sqrt : K → K)
    (Sto emi Fa Ha Ga Fb TAdut TAk4 Hb : K) : K :=
  let TO0 : K := 25
  let TA0 : K := 25
  (List.range 3).foldl
    (fun TOdut _ =>
      let first_sqrt :=
        sqrt ((Sto / (emi * Fa * Ha * (1 + Ga * (TOdut - TO0) + Fb * (TAdut - TA0)))) + TAk4)
      sqrt first_sqrt - 273.15 - Hb)
    (25 : K)

/-- Function `mlx90632_calc_temp_object(Ka, Gb, Ea, Eb, Fa, Ha, Ga, Fb, Hb)`. -/
def mlx90632_calc_temp_object (sqrt : K → K) (st : Driver K)
    (Ka Gb Ea Eb Fa Ha Ga Fb Hb : K) : K :=
  let emi := mlx90632_get_emissivity st
  let S : K := ((st.MLX_T_RAW.object_ram_4_7 + st.MLX_T_RAW.object_ram_5_8 : Int) : K) / (2.0 : K)
  let VRto : K := (st.MLX_T_RAW.ambient_ram_9 : K) +
    Ka * ((st.MLX_T_RAW.ambient_ram_6 : K) / MLX90632_REF_3)
  let Sto : K := (S / (12.0 : K)) / VRto * ((1 <<< 19 : Nat) : K)
  let VRta : K := (st.MLX_T_RAW.ambient_ram_9 : K) +
    Gb * ((st.MLX_T_RAW.ambient_ram_6 : K) / MLX90632_REF_3)
  let AMB : K := ((st.MLX_T_RAW.ambient_ram_6 : K) / MLX90632_REF_3) / VRta *
    ((1 <<< 19 : Nat) : K)
  let TAdut : K := ((AMB - Eb) / Ea) + 25
  let TAk4 : K := (TAdut + 273.15) * (TAdut + 273.15) * (TAdut + 273.15) * (TAdut + 273.15)
  mlx90632_calc_temp_object_iteration sqrt Sto emi Fa Ha Ga Fb TAdut TAk4 Hb

/-- Function `mlx90632_ambTempRaw()`. -/
def mlx90632_ambTempRaw (bus : Bus) (st : Driver K) : Int × Driver K :=
  match mlx90632_i2c_read bus (MLX90632_RAM_3 1) 0 st with
  | (ret, tmp_temp, st) =>
  if ret < 0 then (ret, st) else
  let st := { st with MLX_T_RAW := { st.MLX_T_RAW with ambient_ram_6 := toInt16 tmp_temp } }
  match mlx90632_i2c_read bus (MLX90632_RAM_3 2) tmp_temp st with
  | (ret, tmp_temp, st) =>
  if ret < 0 then (ret, st) else
  let st := { st with MLX_T_RAW := { st.MLX_T_RAW with ambient_ram_9 := toInt16 tmp_temp } }
  (ret, st)

/-- Function `mlx90632_gatherAmbTemp()`. -/
def mlx90632_gatherAmbTemp (bus : Bus) (st : Driver K) : Int × Driver K :=
  match mlx90632_ambTempRaw bus st with
  | (ret, st) =>
  if ret < 0 then (ret, st) else
  let TAMB := mlx90632_calc_temp_ambient st st.MLX_K.Gb st.MLX_K.P_O st.MLX_K.P_R st.MLX_K.P_G
    st.MLX_K.P_T
  let st := { st with MLX_T := { st.MLX_T with ambient := TAMB } }
  (ret, st)

/-- Function `mlx90632_getObjTempRaw(cycle_pos)`. -/
def mlx90632_getObjTempRaw (bus : Bus) (cycle_pos : Int) (st : Driver K) : Int × Driver K :=
  if cycle_pos = 1 then
    match mlx90632_i2c_read bus (MLX90632_RAM_1 cycle_pos.toNat) 0 st with
    | (ret, tmp_temp, st) =>
    if ret < 0 then (ret, st) else
    let st := { st with MLX_T_RAW := { st.MLX_T_RAW with object_ram_4_7 := toInt16 tmp_temp } }
    match mlx90632_i2c_read bus (MLX90632_RAM_2 cycle_pos.toNat) tmp_temp st with
    | (ret, tmp_temp, st) =>
    if ret < 0 then (ret, st) else
    let st := { st with MLX_T_RAW := { st.MLX_T_RAW with object_ram_5_8 := toInt16 tmp_temp } }
    (ret, st)
  else if cycle_pos = 2 then
    match mlx90632_i2c_read bus (MLX90632_RAM_1 cycle_pos.toNat) 0 st with
    | (ret, tmp_temp, st) =>
    if ret < 0 then (ret, st) else
    let st := { st with MLX_T_RAW := { st.MLX_T_RAW with object_ram_4_7 := toInt16 tmp_temp } }
    match mlx90632_i2c_read bus (MLX90632_RAM_2 cycle_pos.toNat) tmp_temp st with
    | (ret, tmp_temp, st) =>
    if ret < 0 then (ret, st) else
    let st := { st with MLX_T_RAW := { st.MLX_T_RAW with object_ram_5_8 := toInt16 tmp_temp } }
    (ret, st)
  else (0, st)

/-- Function `mlx90632_readObjTemp(cycle_pos)`. -/
def mlx90632_readObjTemp (sqrt : K → K) (bus : Bus) (cycle_pos : Int) (st : Driver K) :
    Int × Driver K :=
  match mlx90632_getObjTempRaw bus cycle_pos st with
  | (ret, st) =>
  if ret < 0 then (ret, st) else
  let obj_temp := mlx90632_calc_temp_object sqrt st st.MLX_K.Ka st.MLX_K.Gb st.MLX_K.Ea
    st.MLX_K.Eb st.MLX_K.Fa st.MLX_K.Ha st.MLX_K.Ga st.MLX_K.Fb st.MLX_K.Hb
  let st := { st with MLX_T := { st.MLX_T with object := obj_temp } }
  (ret, st)

/-- Function `mlx90632_read()`. -/
def mlx90632_read (sqrt : K → K) (bus : Bus) (fuel : Nat) (st : Driver K) : Option (Driver K) :=
  match mlx90632_start_measurement bus fuel st with
  | none => none
  | some (start_measurement_ret, st) =>
  let st := mlx90632_searchWaitTime bus start_measurement_ret st
  if start_measurement_ret ≥ 0 then
    match mlx90632_gatherAmbTemp bus st with
    | (_, st) =>
    match mlx90632_readObjTemp sqrt bus start_measurement_ret st with
    | (_, st) => some st
  else some st

/-- Conversion `(uint16_t) x` of a floating value: the fractional part is discarded (truncation
toward zero). C defines the result only when the truncated value is in `0 .. 65535`; outside
that range the truncated value is reduced modulo `2^16`. -/
def toUint16 (x : K) : Nat :=
  ((if 0 ≤ x then ⌊x⌋ else ⌈x⌉) % 2 ^ 16).toNat

/-- Function `mlx90632_getTempAmb()`: `MLX_T.ambient + 40` and the product with 10 are
`double` operations, each rounded, and the result is cast to `uint16_t`. -/
def mlx90632_getTempAmb (st : Driver K) : Nat :=
  toUint16 (toDouble (toDouble (st.MLX_T.ambient + 40) * 10))

/-- Function `mlx90632_getTempObj()`: as `mlx90632_getTempAmb`, on `MLX_T.object`. -/
def mlx90632_getTempObj (st : Driver K) : Nat :=
  toUint16 (toDouble (toDouble (st.MLX_T.object + 40) * 10))

/-! ## Sequences of bus calls, frames and partial calibration -/

/-- A call of one of the two bus primitives of `mlx90632_drv.c`. -/
inductive BusCall where
  | read (register_address value : Nat)
  | write (register_address value : Nat)
  deriving DecidableEq

/-- Driver state after a sequence of calls of `mlx90632_i2c_read` and `mlx90632_i2c_write`. -/
def runCalls (bus : Bus) : List BusCall → Driver K → Driver K
  | [], st => st
  | BusCall.read a v :: cs, st => runCalls bus cs (mlx90632_i2c_read bus a v st).2.2
  | BusCall.write a v :: cs, st => runCalls bus cs (mlx90632_i2c_write bus a v st).2

/-- Whether the most recent read and the most recent write of a sequence of calls failed,
for calls that start at transfer `n` of the bus; `f` holds the answer for the calls made
before (`false` for a kind of call not made yet). -/
def lastFailed (bus : Bus) : List BusCall → Nat → Bool × Bool → Bool × Bool
  | [], _, f => f
  | BusCall.read _ _ :: cs, n, f => lastFailed bus cs (n + 1) ((bus n).isNone, f.2)
  | BusCall.write _ _ :: cs, n, f => lastFailed bus cs (n + 1) (f.1, (bus n).isNone)

/-- The error byte with bit 0 for a failed last read and bit 1 for a failed last write. -/
def errorByte (f : Bool × Bool) : Nat := (if f.1 then 1 else 0) + (if f.2 then 2 else 0)

/-- The temperature results and raw channels of a driver state. -/
def Driver.temps (st : Driver K) : MLXTemp_s K × MLXTempRaw_s := (st.MLX_T, st.MLX_T_RAW)

/-- Addresses of the 22 EEPROM words `mlx90632_readCalib` reads, in the order it reads them. -/
def calibAddrs : List Nat :=
  [MLX90632_EE_P_R, MLX90632_EE_P_R + 1, MLX90632_EE_P_G, MLX90632_EE_P_G + 1,
    MLX90632_EE_P_T, MLX90632_EE_P_T + 1, MLX90632_EE_P_O, MLX90632_EE_P_O + 1,
    MLX90632_EE_Ea, MLX90632_EE_Ea + 1, MLX90632_EE_Eb, MLX90632_EE_Eb + 1,
    MLX90632_EE_Fa, MLX90632_EE_Fa + 1, MLX90632_EE_Fb, MLX90632_EE_Fb + 1,
    MLX90632_EE_Ga, MLX90632_EE_Ga + 1, MLX90632_EE_Gb, MLX90632_EE_Ka,
    MLX90632_EE_Ha, MLX90632_EE_Hb]

/-- Calibration constants once the first `k` EEPROM reads have delivered the words `w 0`, ...,
`w (k - 1)`: a constant whose words have all been read holds the value `mlx90632_readCalib`
stores for them (every assignment to the `float` field rounded), the others are those of
`c`. -/
def calibAfter (c : MLXCalib_s K) (w : Nat → Nat) (k : Nat) : MLXCalib_s K where
  P_R := if 2 ≤ k then toFloat ((toInt32 ((w 1 <<< 16) ||| w 0) : K) / 2 ^ 8) else c.P_R
  P_G := if 4 ≤ k then toFloat ((toInt32 ((w 3 <<< 16) ||| w 2) : K) / 2 ^ 20) else c.P_G
  P_T := if 6 ≤ k then
      toFloat (toFloat ((toInt32 ((w 5 <<< 16) ||| w 4) : K) / 2 ^ 22) / 2 ^ 22)
    else c.P_T
  P_O := if 8 ≤ k then toFloat ((toInt32 ((w 7 <<< 16) ||| w 6) : K) / 2 ^ 8) else c.P_O
  Ea := if 10 ≤ k then toFloat ((toInt32 ((w 9 <<< 16) ||| w 8) : K) / 2 ^ 16) else c.Ea
  Eb := if 12 ≤ k then toFloat ((toInt32 ((w 11 <<< 16) ||| w 10) : K) / 2 ^ 8) else c.Eb
  Fa := if 14 ≤ k then
      toFloat (toFloat (toFloat (toInt32 ((w 13 <<< 16) ||| w 12) : K) / 2 ^ 23) / 2 ^ 23)
    else c.Fa
  Fb := if 16 ≤ k then
      toFloat (toFloat ((toInt32 ((w 15 <<< 16) ||| w 14) : K) / 2 ^ 18) / 2 ^ 18)
    else c.Fb
  Ga := if 18 ≤ k then
      toFloat (toFloat ((toInt32 ((w 17 <<< 16) ||| w 16) : K) / 2 ^ 18) / 2 ^ 18)
    else c.Ga
  Gb := if 19 ≤ k then toFloat ((w 18 : K) / 2 ^ 10) else c.Gb
  Ka := if 20 ≤ k then toFloat ((w 19 : K) / 2 ^ 10) else c.Ka
  Ha := if 21 ≤ k then toFloat ((w 20 : K) / 2 ^ 14) else c.Ha
  Hb := if 22 ≤ k then toFloat ((w 21 : K) / 2 ^ 14) else c.Hb

/-- Re-encoding named by the specification: the constant `x` times its scale factor `2^s`, split
into the low and the high 16-bit word (two's complement). -/
def encodeWords (x : K) (s : Nat) : Nat × Nat :=
  let r : Int := ⌊x * 2 ^ s⌋
  ((r % 2 ^ 16).toNat, ((r / 2 ^ 16) % 2 ^ 16).toNat)

/-- Time in microseconds asked of `k_usleep` by an event: `usleep(min_range, max_range)` calls
`k_usleep((min_range + max_range) / 2)` in `int` arithmetic; a bus operation asks for none. -/
def Event.sleepMicros : Event → Int
  | Event.usleep min_range max_range => (min_range + max_range).tdiv 2
  | _ => 0

/-! ## Expected traces and concrete inputs -/

/-- Events of `n` unsuccessful polling rounds with wait interval `w`: a status read followed
by `usleep(w, w + 100)`, `n` times. -/
def pollEvents (w : Nat) : Nat → List Event
  | 0 => []
  | n + 1 =>
    Event.read MLX90632_REG_STATUS :: Event.usleep (w : Int) ((w : Int) + 100) :: pollEvents w n

/-- Value held by `reg_status` after the `i`-th read of a polling loop that is entered with
`reg_status` and whose reads are the transfers `n`, `n + 1`, ...: the word delivered by that
read, or the value held before when the read fails. -/
def polledStatus (bus : Bus) (n : Nat) (reg_status : Nat) : Nat → Nat
  | 0 => reg_status
  | i + 1 =>
    match bus (n + i) with
    | some b => swap16 b
    | none => polledStatus bus n reg_status i

/-- Bus on which every transfer fails. -/
def deadBus : Bus := fun _ => none

/-- Bus on which every transfer succeeds and every read delivers the word 0. -/
def stuckBus : Bus := fun _ => some 0

/-- Bus on which every transfer succeeds and every read delivers `0x0008` (start of
conversion set, data-ready clear). -/
def neverReadyBus : Bus := fun _ => some 0x0800

/-- Bus on which the third poll read of a measurement started with the communication flag
set is the first to deliver data-ready (`0x0009`: cycle position 2). -/
def readyAtThirdPollBus : Bus := fun k => if k = 6 then some 0x0900 else some 0x0800

/-- Bus on which every transfer succeeds and every read delivers `0x0002` (power mode
sleep-step, EEPROM not busy). -/
def sleepStepBus : Bus := fun _ => some 0x0200

/-- Initial driver state with the communication flag already set. -/
def commUp : Driver ℚ :=
  { (Driver.initial : Driver ℚ) with
    MLX_STS := { (Driver.initial : Driver ℚ).MLX_STS with comm_sts := true } }

/-- Driver state with ambient raw channels `ambient_ram_6 = 12`, `ambient_ram_9 = 1`. -/
def ambientFixture : Driver ℚ :=
  { (Driver.initial : Driver ℚ) with
    MLX_T_RAW :=
      { ambient_ram_6 := 12, ambient_ram_9 := 1, object_ram_4_7 := 0, object_ram_5_8 := 0 } }

/-- Driver status with the wait interval at the ceiling and 49 timeouts counted. -/
def atCeiling : Driver ℚ :=
  { (Driver.initial : Driver ℚ) with
    MLX_STS := { refresh := 0, comm_sts := true, wait_time_meas := 5000, count_check_meas := 49 } }

/-- Bus on which the version word is `0x0005` and every other register reads 0 (so the
stored bus address is wrong). -/
def wrongAddressBus : Bus := fun k => if k = 0 then some 0x0500 else some 0

/-- Bus of a genuine device (version word `0x0005`, stored address `0x1D`, every other
register reading `0x0002`: sleep-step mode, EEPROM not busy), every transfer succeeding. -/
def genuineBus : Bus := fun k =>
  if k = 0 then some 0x0500 else if k = 1 then some 0x1D00 else some 0x0200

/-- Bus of a genuine device (version word `0x0005`, stored address `0x1D`, control register
reading sleep-step) on which the first calibration read of `mlx90632_init`, transfer 6,
fails and every other transfer succeeds. -/
def calibFailBus : Bus := fun k =>
  if k = 0 then some 0x0500 else if k = 1 then some 0x1D00 else if k = 6 then none
  else some 0x0200

/-- Bus of an extended-range device: version word `0x0505`, stored address `0x1D`, every
other register reading `0x0002`, every transfer succeeding. -/
def xtdRangeBus : Bus := fun k =>
  if k = 0 then some 0x0505 else if k = 1 then some 0x1D00 else some 0x0200

/-- Driver state in which `mlx90632_init`, run on `calibFailBus` from the initial state, calls
`mlx90632_readCalib`: the version and address words have been read and the refresh rate has
been read and stored. -/
def afterIdentity : Driver ℚ :=
  let st := (mlx90632_i2c_read calibFailBus MLX90632_EE_VERSION 0 (Driver.initial : Driver ℚ)).2.2
  let st := (mlx90632_i2c_read calibFailBus MLX90632_EE_I2C_ADDRESS 0 st).2.2
  let r := mlx90632_get_refresh_rate calibFailBus st
  { r.2 with MLX_STS := { r.2.MLX_STS with refresh := (r.1 % 2 ^ 8).toNat } }

/-- Bus delivering the words `0x0001` (low) and `0x0200` (high) for `P_R` in a calibration load
started from the initial state, and `0x0002` for every other register. -/
def wideCalibBus : Bus := fun k =>
  if k = 3 then some 0x0100 else if k = 4 then some 0x0002 else some 0x0200

/-- Bus delivering the words `0x0000` (low) and `0x0200` (high) for `P_R` in a calibration load
started from the initial state, and `0x0002` for every other register. -/
def roundCalibBus : Bus := fun k =>
  if k = 3 then some 0x0000 else if k = 4 then some 0x0002 else some 0x0200

/-- A state whose stored ambient and object temperatures are both 25.06. -/
def storedTemps : Driver ℚ :=
  { (Driver.initial : Driver ℚ) with MLX_T := { ambient := 1253 / 50, object := 1253 / 50 } }

/-- Bus of a measurement started with the communication flag set whose control register reads
`0x0008` (start of conversion set) and whose status register always reads `4 * p + 1`: data
ready with the cycle-position field equal to `p`. -/
def cyclePosBus (p : Nat) : Bus := fun k =>
  if k = 1 then some 0x0800 else some (((4 * p + 1) % 2 ^ 8) <<< 8)

/-- Bus of a measurement started with the communication flag set on which the status read before
the polling loop (transfer 2) delivers `0x0005` (data ready, cycle position 1) and the first
read of the polling loop (transfer 4) fails. -/
def staleReadyBus : Bus := fun k =>
  if k = 1 then some 0x0800 else if k = 4 then none else some 0x0500

/-- Bus of a measurement started with the communication flag set that delivers data ready with
cycle position 1 at the first poll read and on which the first ambient raw read (transfer 5)
fails; every status and RAM word read is `0x0005`. -/
def ambFailBus : Bus := fun k =>
  if k = 1 then some 0x0800 else if k = 5 then none else some 0x0500

/-- Bus of a measurement started with the communication flag set on which the status read
before the polling loop (transfer 2) delivers `0x0005` (data ready set), the first read of the
polling loop (transfer 4) fails, and every other read delivers `0x0008` (data ready clear). -/
def staleThenClearBus : Bus := fun k =>
  if k = 2 then some 0x0500 else if k = 4 then none else some 0x0800

/-- A state whose stored ambient and object temperatures are both the `double` nearest to 20.2,
which is `5685794529555251 / 2^48`. -/
def storedDouble : Driver ℚ :=
  { (Driver.initial : Driver ℚ) with
    MLX_T := { ambient := 5685794529555251 / 2 ^ 48, object := 5685794529555251 / 2 ^ 48 } }

/-- Bus whose first transfer delivers the word `0xFFFF` and every later one `0xFFFE`. -/
def signedWordsBus : Bus := fun k => if k = 0 then some 0xFFFF else some 0xFEFF

/-- Bus of a measurement started with the communication flag set that delivers data ready with
cycle position 1 at the first poll read and on which every later transfer fails: the first
ambient raw read (transfer 5) and the first object raw read (transfer 6). -/
def ambObjFailBus : Bus := fun k =>
  if k = 1 then some 0x0800 else if 5 ≤ k then none else some 0x0500

/-- Driver state with the communication flag set and stored temperatures 3 (ambient) and 7
(object). -/
def staleObject : Driver ℚ :=
  { commUp with MLX_T := { ambient := 3, object := 7 } }

end Model

/-! ## Lemmas on the bus primitives -/

section Proofs

variable {K : Type}

theorem i2c_read_some (bus : Bus) (a v : Nat) (st : Driver K) (b : Nat)
    (h : bus st.nops = some b) :
    mlx90632_i2c_read bus a v st =
      (0, swap16 b,
        { st with
          nops := st.nops + 1, trace := st.trace ++ [Event.read a],
          error_melexis90632 := (st.error_melexis90632 &&& not8 ERROR_MLX_READ) % 2 ^ 8 }) := by
  simp only [mlx90632_i2c_read, h]

theorem i2c_read_none (bus : Bus) (a v : Nat) (st : Driver K)
    (h : bus st.nops = none) :
    mlx90632_i2c_read bus a v st =
      (-1, v,
        { st with
          nops := st.nops + 1, trace := st.trace ++ [Event.read a],
          error_melexis90632 := (st.error_melexis90632 ||| ERROR_MLX_READ) % 2 ^ 8 }) := by
  simp only [mlx90632_i2c_read, h]

theorem i2c_write_some (bus : Bus) (a v : Nat) (st : Driver K) (b : Nat)
    (h : bus st.nops = some b) :
    mlx90632_i2c_write bus a v st =
      (0,
        { st with
          nops := st.nops + 1, trace := st.trace ++ [Event.write a v],
          error_melexis90632 := (st.error_melexis90632 &&& not8 ERROR_MLX_WRITE) % 2 ^ 8 }) := by
  simp only [mlx90632_i2c_write, h]

theorem i2c_write_none (bus : Bus) (a v : Nat) (st : Driver K)
    (h : bus st.nops = none) :
    mlx90632_i2c_write bus a v st =
      (-1,
        { st with
          nops := st.nops + 1, trace := st.trace ++ [Event.write a v],
          error_melexis90632 := (st.error_melexis90632 ||| ERROR_MLX_WRITE) % 2 ^ 8 }) := by
  simp only [mlx90632_i2c_write, h]

theorem i2c_read_nops (bus : Bus) (a v : Nat) (st : Driver K) :
    (mlx90632_i2c_read bus a v st).2.2.nops = st.nops + 1 := by
  unfold mlx90632_i2c_read; split <;> rfl

theorem i2c_read_MLX_STS (bus : Bus) (a v : Nat) (st : Driver K) :
    (mlx90632_i2c_read bus a v st).2.2.MLX_STS = st.MLX_STS := by
  unfold mlx90632_i2c_read; split <;> rfl

theorem i2c_read_trace (bus : Bus) (a v : Nat) (st : Driver K) :
    (mlx90632_i2c_read bus a v st).2.2.trace = st.trace ++ [Event.read a] := by
  unfold mlx90632_i2c_read; split <;> rfl

theorem i2c_read_value (bus : Bus) (a v : Nat) (st : Driver K) :
    (mlx90632_i2c_read bus a v st).2.1 = polledStatus bus st.nops v 1 := by
  cases h : bus st.nops with
  | none => simp [mlx90632_i2c_read, polledStatus, h]
  | some b => simp [mlx90632_i2c_read, polledStatus, h]

theorem polledStatus_shift (bus : Bus) (n reg_status : Nat) :
    ∀ i, polledStatus bus (n + 1) (polledStatus bus n reg_status 1) i =
      polledStatus bus n reg_status (i + 1) := by
  intro i
  induction i with
  | zero => rfl
  | succ i ih =>
    show (match bus (n + 1 + i) with
      | some b => swap16 b
      | none => polledStatus bus (n + 1) (polledStatus bus n reg_status 1) i) =
      (match bus (n + (i + 1)) with
      | some b => swap16 b
      | none => polledStatus bus n reg_status (i + 1))
    rw [ih, show n + 1 + i = n + (i + 1) by omega]

theorem i2c_write_nops (bus : Bus) (a v : Nat) (st : Driver K) :
    (mlx90632_i2c_write bus a v st).2.nops = st.nops + 1 := by
  unfold mlx90632_i2c_write; split <;> rfl

theorem i2c_write_MLX_STS (bus : Bus) (a v : Nat) (st : Driver K) :
    (mlx90632_i2c_write bus a v st).2.MLX_STS = st.MLX_STS := by
  unfold mlx90632_i2c_write; split <;> rfl

theorem i2c_read_or_return_some (bus : Bus) (a v : Nat) (st : Driver K)
    (k : Nat → Driver K → Int × Driver K) (b : Nat) (h : bus st.nops = some b) :
    i2c_read_or_return bus a v st k =
      k (swap16 b)
        { st with
          nops := st.nops + 1, trace := st.trace ++ [Event.read a],
          error_melexis90632 := (st.error_melexis90632 &&& not8 ERROR_MLX_READ) % 2 ^ 8 } := by
  simp only [i2c_read_or_return, i2c_read_some bus a v st b h, lt_irrefl, if_false]

/-- An integer is its own nearest integer. -/
theorem roundHalfEven_intCast [LinearOrderedField K] [FloorRing K] (z : Int) :
    roundHalfEven (z : K) = z := by
  unfold roundHalfEven
  simp

/-- The nearest integer is the floor or the floor plus one, on the right side of one half. -/
theorem roundHalfEven_cases [LinearOrderedField K] [FloorRing K] (q : K) :
    roundHalfEven q = ⌊q⌋ ∧ q - ⌊q⌋ ≤ 1 / 2 ∨ roundHalfEven q = ⌊q⌋ + 1 ∧ 1 / 2 ≤ q - ⌊q⌋ := by
  unfold roundHalfEven
  simp only
  split
  · rename_i h; exact Or.inl ⟨rfl, le_of_lt h⟩
  · rename_i h
    split
    · rename_i h2; exact Or.inr ⟨rfl, le_of_lt h2⟩
    · rename_i h2
      have he : q - ⌊q⌋ = 1 / 2 := le_antisymm (not_lt.mp h2) (not_lt.mp h)
      split
      · exact Or.inl ⟨rfl, le_of_eq he⟩
      · exact Or.inr ⟨rfl, le_of_eq he.symm⟩

/-- The nearest integer is within one half. -/
theorem roundHalfEven_abs_sub_le [LinearOrderedField K] [FloorRing K] (q : K) :
    |(roundHalfEven q : K) - q| ≤ 1 / 2 := by
  have hf := Int.floor_le q
  have hl := Int.lt_floor_add_one q
  rw [abs_le]
  rcases roundHalfEven_cases q with ⟨h, h2⟩ | ⟨h, h2⟩
  · rw [h]; constructor <;> linarith
  · rw [h]; push_cast; constructor <;> linarith

theorem roundHalfEven_mono_one [LinearOrderedField K] [FloorRing K] (q : K) (h : 1 ≤ q) :
    1 ≤ roundHalfEven q := by
  have h1 : (1 : Int) ≤ ⌊q⌋ := Int.le_floor.mpr (by simpa using h)
  rcases roundHalfEven_cases q with ⟨h, _⟩ | ⟨h, _⟩ <;> omega

theorem roundHalfEven_neg_one [LinearOrderedField K] [FloorRing K] (q : K) (h : q ≤ -1) :
    roundHalfEven q ≤ -1 := by
  have hf := Int.floor_le q
  rcases roundHalfEven_cases q with ⟨h1, _⟩ | ⟨h1, h2⟩
  · have h3 : ((⌊q⌋ : Int) : K) ≤ -1 := by linarith
    have h4 : ⌊q⌋ ≤ (-1 : Int) := by exact_mod_cast h3
    omega
  · have h3 : ((⌊q⌋ : Int) : K) < -1 := by linarith
    have h4 : ⌊q⌋ < (-1 : Int) := by exact_mod_cast h3
    omega

theorem two_zpow_pos [LinearOrderedField K] (z : Int) : (0 : K) < 2 ^ z :=
  zpow_pos (by norm_num) z

/-- The binary exponent `e` of a non-zero `x`: `2^e ≤ |x| < 2^(e+1)`. -/
theorem log_two_spec [LinearOrderedField K] [FloorRing K] (x : K) (hx : x ≠ 0) :
    (2 : K) ^ Int.log 2 |x| ≤ |x| ∧ |x| < (2 : K) ^ (Int.log 2 |x| + 1) := by
  have hpos : 0 < |x| := abs_pos.mpr hx
  have h1 := Int.zpow_log_le_self (by norm_num : 1 < 2) hpos
  have h2 := Int.lt_zpow_succ_log_self (by norm_num : 1 < 2) |x|
  simp only [Nat.cast_ofNat] at h1 h2
  exact ⟨h1, h2⟩

/-- Rounding error: at most `|x| / 2^p`. -/
theorem roundToPrecision_abs_sub_le [LinearOrderedField K] [FloorRing K] (p : Nat) (x : K) :
    |roundToPrecision p x - x| ≤ |x| / 2 ^ p := by
  by_cases hx : x = 0
  · simp [roundToPrecision, hx]
  obtain ⟨h1, _⟩ := log_two_spec x hx
  have hs := two_zpow_pos (K := K) (Int.log 2 |x| + 1 - (p : Int))
  have hr := roundHalfEven_abs_sub_le (x / 2 ^ (Int.log 2 |x| + 1 - (p : Int)))
  have hsplit : (2 : K) ^ (Int.log 2 |x| + 1 - (p : Int)) =
      2 ^ Int.log 2 |x| * 2 / 2 ^ p := by
    rw [zpow_sub₀ (by norm_num : (2 : K) ≠ 0), zpow_add₀ (by norm_num : (2 : K) ≠ 0),
      zpow_one, zpow_natCast]
  have hp : (0 : K) < 2 ^ p := by positivity
  unfold roundToPrecision
  rw [if_neg hx]
  simp only
  have heq : (roundHalfEven (x / 2 ^ (Int.log 2 |x| + 1 - (p : Int))) : K) *
      2 ^ (Int.log 2 |x| + 1 - (p : Int)) - x =
      ((roundHalfEven (x / 2 ^ (Int.log 2 |x| + 1 - (p : Int))) : K) -
        x / 2 ^ (Int.log 2 |x| + 1 - (p : Int))) * 2 ^ (Int.log 2 |x| + 1 - (p : Int)) := by
    field_simp
  rw [heq, abs_mul, abs_of_pos hs]
  calc |(roundHalfEven (x / 2 ^ (Int.log 2 |x| + 1 - (p : Int))) : K) -
        x / 2 ^ (Int.log 2 |x| + 1 - (p : Int))| * 2 ^ (Int.log 2 |x| + 1 - (p : Int))
      ≤ 1 / 2 * 2 ^ (Int.log 2 |x| + 1 - (p : Int)) :=
        mul_le_mul_of_nonneg_right hr (le_of_lt hs)
    _ = 2 ^ Int.log 2 |x| / 2 ^ p := by rw [hsplit]; ring
    _ ≤ |x| / 2 ^ p := div_le_div_of_nonneg_right h1 (le_of_lt hp)

/-- The scaled significand of a non-zero value has magnitude at least `2^(p-1)`. -/
theorem scaled_significand_ge [LinearOrderedField K] [FloorRing K] (p : Nat) (hp : 1 ≤ p)
    (x : K) (hx : x ≠ 0) :
    1 ≤ |x| / 2 ^ (Int.log 2 |x| + 1 - (p : Int)) := by
  obtain ⟨h1, _⟩ := log_two_spec x hx
  have hs := two_zpow_pos (K := K) (Int.log 2 |x| + 1 - (p : Int))
  rw [le_div_iff₀ hs, one_mul]
  refine le_trans ?_ h1
  exact zpow_le_zpow_right₀ (by norm_num) (by omega)

/-- Rounding keeps the sign. -/
theorem roundToPrecision_pos [LinearOrderedField K] [FloorRing K] (p : Nat) (hp : 1 ≤ p)
    (x : K) (hx : 0 < x) : 0 < roundToPrecision p x := by
  have hne : x ≠ 0 := ne_of_gt hx
  have hq := scaled_significand_ge p hp x hne
  have hs := two_zpow_pos (K := K) (Int.log 2 |x| + 1 - (p : Int))
  unfold roundToPrecision
  rw [if_neg hne]
  simp only
  generalize (2 : K) ^ (Int.log 2 |x| + 1 - (p : Int)) = D at hq hs ⊢
  rw [abs_of_pos hx] at hq
  have hR := roundHalfEven_mono_one _ hq
  have : (0 : K) < (roundHalfEven (x / D) : K) := by
    exact_mod_cast (by omega : 0 < roundHalfEven (x / D))
  positivity

theorem roundToPrecision_neg [LinearOrderedField K] [FloorRing K] (p : Nat) (hp : 1 ≤ p)
    (x : K) (hx : x < 0) : roundToPrecision p x < 0 := by
  have hne : x ≠ 0 := ne_of_lt hx
  have hq := scaled_significand_ge p hp x hne
  have hs := two_zpow_pos (K := K) (Int.log 2 |x| + 1 - (p : Int))
  unfold roundToPrecision
  rw [if_neg hne]
  simp only
  generalize (2 : K) ^ (Int.log 2 |x| + 1 - (p : Int)) = D at hq hs ⊢
  rw [abs_of_neg hx, neg_div] at hq
  have hR := roundHalfEven_neg_one (x / D) (by linarith)
  have : (roundHalfEven (x / D) : K) < 0 := by
    exact_mod_cast (by omega : roundHalfEven (x / D) < 0)
  exact mul_neg_of_neg_of_pos this hs

theorem roundToPrecision_nonneg [LinearOrderedField K] [FloorRing K] (p : Nat) (hp : 1 ≤ p)
    (x : K) (hx : 0 ≤ x) : 0 ≤ roundToPrecision p x := by
  rcases eq_or_lt_of_le hx with h | h
  · rw [← h]; simp [roundToPrecision]
  · exact le_of_lt (roundToPrecision_pos p hp x h)

theorem roundToPrecision_neg_iff [LinearOrderedField K] [FloorRing K] (p : Nat) (hp : 1 ≤ p)
    (x : K) : roundToPrecision p x < 0 ↔ x < 0 := by
  constructor
  · intro h
    by_contra hx
    exact absurd h (not_lt.mpr (roundToPrecision_nonneg p hp x (not_lt.mp hx)))
  · exact roundToPrecision_neg p hp x

/-- A value with a significand of at most `p` bits is not changed by the rounding. -/
theorem roundToPrecision_exact [LinearOrderedField K] [FloorRing K] (p : Nat) (m z : Int)
    (hm : |m| < 2 ^ p) : roundToPrecision p ((m : K) * 2 ^ z) = (m : K) * 2 ^ z := by
  by_cases hm0 : m = 0
  · simp [roundToPrecision, hm0]
  have h2 : (2 : K) ≠ 0 := by norm_num
  have hx : (m : K) * 2 ^ z ≠ 0 :=
    mul_ne_zero (by exact_mod_cast hm0) (ne_of_gt (two_zpow_pos z))
  obtain ⟨h1, _⟩ := log_two_spec _ hx
  have habs : |(m : K) * 2 ^ z| = (|m| : Int) * 2 ^ z := by
    rw [abs_mul, abs_of_pos (show (0 : K) < 2 ^ z from two_zpow_pos z), Int.cast_abs]
  have hlt : |(m : K) * 2 ^ z| < 2 ^ ((p : Int) + z) := by
    rw [habs, zpow_add₀ h2, zpow_natCast]
    apply mul_lt_mul_of_pos_right _ (two_zpow_pos z)
    exact_mod_cast hm
  have he : Int.log 2 |(m : K) * 2 ^ z| < (p : Int) + z := by
    have := lt_of_le_of_lt h1 hlt
    exact (zpow_lt_zpow_iff_right₀ (by norm_num : (1 : K) < 2)).mp this
  obtain ⟨n, hn⟩ : ∃ n : Nat, z = Int.log 2 |(m : K) * 2 ^ z| + 1 - (p : Int) + n :=
    ⟨(z - (Int.log 2 |(m : K) * 2 ^ z| + 1 - (p : Int))).toNat, by omega⟩
  have hq : (m : K) * 2 ^ z / 2 ^ (Int.log 2 |(m : K) * 2 ^ z| + 1 - (p : Int)) =
      ((m * 2 ^ n : Int) : K) := by
    rw [div_eq_iff (ne_of_gt (two_zpow_pos _))]
    push_cast
    rw [mul_assoc, ← zpow_natCast, ← zpow_add₀ h2]
    congr 2
    omega
  unfold roundToPrecision
  rw [if_neg hx]
  simp only
  rw [hq, roundHalfEven_intCast, ← hq]
  field_simp

/-- A `float` holds exactly every integer of magnitude below `2^24` divided by a power of
two. -/
theorem toFloat_int_div [LinearOrderedField K] [FloorRing K] (m : Int) (s : Nat)
    (hm : |m| < 2 ^ 24) : toFloat ((m : K) / 2 ^ s) = (m : K) / 2 ^ s := by
  have h := roundToPrecision_exact (K := K) 24 m (-(s : Int)) hm
  rw [zpow_neg, zpow_natCast, ← div_eq_mul_inv] at h
  exact h

/-- A `float` holds exactly every 16-bit word divided by a power of two. -/
theorem toFloat_nat_div [LinearOrderedField K] [FloorRing K] (w s : Nat) (hw : w < 2 ^ 16) :
    toFloat ((w : K) / 2 ^ s) = (w : K) / 2 ^ s := by
  have h := toFloat_int_div (K := K) (w : Int) s (by rw [abs_of_nonneg (by omega)]; omega)
  rw [Int.cast_natCast] at h
  exact h

theorem toFloat_neg_iff [LinearOrderedField K] [FloorRing K] (x : K) :
    toFloat x < 0 ↔ x < 0 :=
  roundToPrecision_neg_iff 24 (by norm_num) x

theorem div_two_pow_neg_iff [LinearOrderedField K] (x : K) (n : Nat) :
    x / 2 ^ n < 0 ↔ x < 0 := by
  have hp : (0 : K) < 2 ^ n := by positivity
  rw [div_lt_iff₀ hp, zero_mul]

/-- The binary exponent is determined by the binade. -/
theorem log_two_eq [LinearOrderedField K] [FloorRing K] (x : K) (e : Int)
    (h1 : (2 : K) ^ e ≤ |x|) (h2 : |x| < (2 : K) ^ (e + 1)) : Int.log 2 |x| = e := by
  have hpos : 0 < |x| := lt_of_lt_of_le (two_zpow_pos e) h1
  have a : e ≤ Int.log 2 |x| :=
    (Int.zpow_le_iff_le_log (by norm_num : 1 < 2) hpos).mp (by simpa using h1)
  have b : Int.log 2 |x| < e + 1 :=
    (Int.lt_zpow_iff_log_lt (by norm_num : 1 < 2) hpos).mp (by simpa using h2)
  omega

/-- Rounding of a value whose binade is known. -/
theorem roundToPrecision_eq_of [LinearOrderedField K] [FloorRing K] (p : Nat) (x : K) (e : Int)
    (h1 : (2 : K) ^ e ≤ |x|) (h2 : |x| < (2 : K) ^ (e + 1)) :
    roundToPrecision p x =
      (roundHalfEven (x / 2 ^ (e + 1 - (p : Int))) : K) * 2 ^ (e + 1 - (p : Int)) := by
  have hpos : 0 < |x| := lt_of_lt_of_le (two_zpow_pos e) h1
  have hx : x ≠ 0 := abs_pos.mp hpos
  unfold roundToPrecision
  rw [if_neg hx]
  simp only
  rw [log_two_eq x e h1 h2]

/-- Rounding commutes with the multiplication by a power of two. -/
theorem roundToPrecision_mul_zpow [LinearOrderedField K] [FloorRing K] (p : Nat) (x : K)
    (n : Int) : roundToPrecision p (x * 2 ^ n) = roundToPrecision p x * 2 ^ n := by
  by_cases hx : x = 0
  · simp [roundToPrecision, hx]
  have h2 : (2 : K) ≠ 0 := by norm_num
  obtain ⟨h1, h3⟩ := log_two_spec x hx
  have hn := two_zpow_pos (K := K) n
  have habs : |x * 2 ^ n| = |x| * 2 ^ n := by
    rw [abs_mul, abs_of_pos hn]
  have e1 : (2 : K) ^ (Int.log 2 |x| + n) ≤ |x * 2 ^ n| := by
    rw [habs, zpow_add₀ h2]
    exact mul_le_mul_of_nonneg_right h1 (le_of_lt hn)
  have e2 : |x * 2 ^ n| < (2 : K) ^ (Int.log 2 |x| + n + 1) := by
    rw [habs, show Int.log 2 |x| + n + 1 = Int.log 2 |x| + 1 + n by ring, zpow_add₀ h2]
    exact mul_lt_mul_of_pos_right h3 hn
  rw [roundToPrecision_eq_of p (x * 2 ^ n) (Int.log 2 |x| + n) e1 e2,
    roundToPrecision_eq_of p x (Int.log 2 |x|) h1 h3]
  have hs : (2 : K) ^ (Int.log 2 |x| + n + 1 - (p : Int)) =
      2 ^ (Int.log 2 |x| + 1 - (p : Int)) * 2 ^ n := by
    rw [← zpow_add₀ h2]
    congr 1
    ring
  rw [hs, mul_div_mul_right _ _ (ne_of_gt hn), mul_assoc]

/-- Rounding commutes with the division by a power of two. -/
theorem roundToPrecision_div_pow [LinearOrderedField K] [FloorRing K] (p : Nat) (x : K)
    (n : Nat) : roundToPrecision p (x / 2 ^ n) = roundToPrecision p x / 2 ^ n := by
  have h := roundToPrecision_mul_zpow p x (-(n : Int))
  rw [zpow_neg, zpow_natCast, ← div_eq_mul_inv, ← div_eq_mul_inv] at h
  exact h

/-- A rounded value is not changed by a second rounding. -/
theorem roundToPrecision_idem [LinearOrderedField K] [FloorRing K] (p : Nat) (hp : 1 ≤ p)
    (x : K) : roundToPrecision p (roundToPrecision p x) = roundToPrecision p x := by
  by_cases hx : x = 0
  · simp [roundToPrecision, hx]
  have h2 : (2 : K) ≠ 0 := by norm_num
  obtain ⟨_, h3⟩ := log_two_spec x hx
  have hs := two_zpow_pos (K := K) (Int.log 2 |x| + 1 - (p : Int))
  have hq : |x / 2 ^ (Int.log 2 |x| + 1 - (p : Int))| < 2 ^ p := by
    rw [abs_div, abs_of_pos hs, div_lt_iff₀ hs, ← zpow_natCast, ← zpow_add₀ h2]
    convert h3 using 2
    ring
  have hr := roundHalfEven_abs_sub_le (x / 2 ^ (Int.log 2 |x| + 1 - (p : Int)))
  have hunf : roundToPrecision p x =
      (roundHalfEven (x / 2 ^ (Int.log 2 |x| + 1 - (p : Int))) : K) *
        2 ^ (Int.log 2 |x| + 1 - (p : Int)) := by
    unfold roundToPrecision
    rw [if_neg hx]
  rw [hunf]
  generalize roundHalfEven (x / 2 ^ (Int.log 2 |x| + 1 - (p : Int))) = R at hr ⊢
  generalize x / 2 ^ (Int.log 2 |x| + 1 - (p : Int)) = q at hq hr
  generalize Int.log 2 |x| + 1 - (p : Int) = s at hs ⊢
  have hRq : |(R : K)| < 2 ^ p + 1 := by
    have h1 : |(R : K)| ≤ |(R : K) - q| + |q| := by
      have := abs_add ((R : K) - q) q
      simpa using this
    linarith
  have hRle : |R| ≤ 2 ^ p := by
    have h1 : ((|R| : Int) : K) < ((2 ^ p + 1 : Int) : K) := by
      push_cast
      exact hRq
    have h2 : |R| < 2 ^ p + 1 := by exact_mod_cast h1
    omega
  rcases lt_or_eq_of_le hRle with hlt | heq
  · exact roundToPrecision_exact p R s hlt
  · obtain ⟨p', rfl⟩ : ∃ p', p = p' + 1 := ⟨p - 1, by omega⟩
    have hcases : R = 2 ^ (p' + 1) ∨ R = -2 ^ (p' + 1) := by
      rcases abs_cases R with ⟨h, _⟩ | ⟨h, _⟩
      · left; omega
      · right; omega
    have hpow : (2 : Int) ^ p' < 2 ^ (p' + 1) := by
      rw [pow_succ]
      have : (0 : Int) < 2 ^ p' := by positivity
      omega
    rcases hcases with h | h
    · have hm : |(2 : Int) ^ p'| < 2 ^ (p' + 1) := by
        rw [abs_of_pos (by positivity)]; exact hpow
      have := roundToPrecision_exact (K := K) (p' + 1) (2 ^ p') (s + 1) hm
      have e : ((R : Int) : K) * 2 ^ s = (((2 : Int) ^ p' : Int) : K) * 2 ^ (s + 1) := by
        rw [h, zpow_add₀ h2]
        push_cast
        ring
      rw [e]
      exact this
    · have hm : |(-(2 : Int) ^ p')| < 2 ^ (p' + 1) := by
        rw [abs_neg, abs_of_pos (by positivity)]; exact hpow
      have := roundToPrecision_exact (K := K) (p' + 1) (-2 ^ p') (s + 1) hm
      have e : ((R : Int) : K) * 2 ^ s = ((-(2 : Int) ^ p' : Int) : K) * 2 ^ (s + 1) := by
        rw [h, zpow_add₀ h2]
        push_cast
        ring
      rw [e]
      exact this

/-- The nearest integer of a value closer than one half to the integer `n`. -/
theorem roundHalfEven_eq_of_lt [LinearOrderedField K] [FloorRing K] (q : K) (n : Int)
    (h1 : (n : K) - 1 / 2 < q) (h2 : q < (n : K) + 1 / 2) : roundHalfEven q = n := by
  have hr := abs_le.mp (roundHalfEven_abs_sub_le q)
  have a : ((roundHalfEven q : Int) : K) < ((n + 1 : Int) : K) := by
    push_cast; linarith [hr.2]
  have b : ((n - 1 : Int) : K) < ((roundHalfEven q : Int) : K) := by
    push_cast; linarith [hr.1]
  have a' : roundHalfEven q < n + 1 := by exact_mod_cast a
  have b' : n - 1 < roundHalfEven q := by exact_mod_cast b
  omega

/-- A tie goes to the even neighbour. -/
theorem roundHalfEven_tie [LinearOrderedField K] [FloorRing K] (n : Int) :
    roundHalfEven ((n : K) + 1 / 2) = if n % 2 = 0 then n else n + 1 := by
  have hf : ⌊(n : K) + 1 / 2⌋ = n := by
    rw [Int.floor_eq_iff]
    constructor
    · linarith
    · linarith
  unfold roundHalfEven
  simp only [hf]
  rw [if_neg (by simp), if_neg (by simp)]

/-- The `float` nearest to `2^25 + 1` is `2^25`. -/
theorem toFloat_wide [LinearOrderedField K] [FloorRing K] :
    toFloat (33554433 : K) = 33554432 := by
  unfold toFloat
  rw [roundToPrecision_eq_of 24 (33554433 : K) 25
    (by rw [abs_of_pos (by norm_num)]; norm_num)
    (by rw [abs_of_pos (by norm_num)]; norm_num)]
  have hq : roundHalfEven ((33554433 : K) / 2 ^ ((25 : Int) + 1 - ((24 : Nat) : Int))) =
      8388608 := by
    apply roundHalfEven_eq_of_lt
    · norm_num
    · norm_num
  rw [hq]
  norm_num

/-! ## Temperature engine (C1, C2, C3) -/

/-- Claim C1: whenever `VR_Ta` and `PG` are non-zero, `mlx90632_calc_temp_ambient` returns
`PO + (AMB - PR)/PG + PT*(AMB - PR)^2` with `AMB = (ambient_ram_6/12)/VR_Ta * 2^19` in exact
arithmetic; for the fixture `ambient_ram_6 = 13000`, `ambient_ram_9 = 15000`, `Gb = 0.5`,
`PO = 0`, `PR = 0`, `PG = 1`, `PT = 0` the result is `13631488/373`, which is `36545.5442`
to four decimals. -/
theorem calc_temp_ambient_closed_form [LinearOrderedField K] (st : Driver K)
    (Gb PO PR PG PT : K)
    (_hVR : (st.MLX_T_RAW.ambient_ram_9 : K) + Gb * ((st.MLX_T_RAW.ambient_ram_6 : K) / 12) ≠ 0)
    (_hPG : PG ≠ 0) :
    (mlx90632_calc_temp_ambient st Gb PO PR PG PT =
      PO +
        (((st.MLX_T_RAW.ambient_ram_6 : K) / 12) /
            ((st.MLX_T_RAW.ambient_ram_9 : K) + Gb * ((st.MLX_T_RAW.ambient_ram_6 : K) / 12)) *
            2 ^ 19 - PR) / PG +
        PT * (((st.MLX_T_RAW.ambient_ram_6 : K) / 12) /
            ((st.MLX_T_RAW.ambient_ram_9 : K) + Gb * ((st.MLX_T_RAW.ambient_ram_6 : K) / 12)) *
            2 ^ 19 - PR) ^ 2) ∧
    mlx90632_calc_temp_ambient
        { st with
          MLX_T_RAW := { st.MLX_T_RAW with ambient_ram_6 := 13000, ambient_ram_9 := 15000 } }
        0.5 0.0 0 1.0 0.0 = 13631488 / 373 ∧
    |(13631488 / 373 : K) - 36545.5442| < 0.00005 := by
  refine ⟨?_, ?_, ?_⟩
  · have h12 : (12.0 : K) = 12 := by norm_num
    have h19 : (524288.0 : K) = 2 ^ 19 := by norm_num
    simp only [mlx90632_calc_temp_ambient, MLX90632_REF_3, h12, h19]
    ring
  · simp only [mlx90632_calc_temp_ambient, MLX90632_REF_3]
    norm_num
  · rw [abs_lt]
    constructor <;> norm_num

/-- Witness for C1: with `ambient_ram_6 = 12`, `ambient_ram_9 = 1`, `Gb = 1` the divisor
`VR_Ta` is 2, `AMB = 2^18`, and `PO = 1`, `PR = 262142`, `PG = 2`, `PT = 3` give 14. -/
theorem calc_temp_ambient_closed_form_witness :
    mlx90632_calc_temp_ambient ambientFixture 1 1 262142 2 3 = 14 := by
  have h := (calc_temp_ambient_closed_form ambientFixture 1 1 262142 2 3
    (by norm_num [ambientFixture]) (by norm_num)).1
  rw [h]
  norm_num [ambientFixture]

/-- Claim C2: for every raw measurement, calibration set and square-root function,
`mlx90632_calc_temp_object` returns `g (g (g 25))`: exactly three applications, starting from
`TOdut = 25`, of
`g T = sqrt (sqrt (Sto / (emi*Fa*Ha*(1 + Ga*(T - 25) + Fb*(TAdut - 25))) + TAk4)) - 273.15 - Hb`
with `S`, `Sto`, `AMB`, `TAdut`, `TAk4` and `emi` as in the claim; the number of iterations
does not depend on the inputs. -/
theorem calc_temp_object_three_iterations [LinearOrderedField K] (sqrt : K → K)
    (st : Driver K) (Ka Gb Ea Eb Fa Ha Ga Fb Hb : K) :
    let S : K := ((st.MLX_T_RAW.object_ram_4_7 : K) + (st.MLX_T_RAW.object_ram_5_8 : K)) / 2
    let Sto : K := (S / 12) /
      ((st.MLX_T_RAW.ambient_ram_9 : K) + Ka * (st.MLX_T_RAW.ambient_ram_6 : K) / 12) * 2 ^ 19
    let AMB : K := ((st.MLX_T_RAW.ambient_ram_6 : K) / 12) /
      ((st.MLX_T_RAW.ambient_ram_9 : K) + Gb * (st.MLX_T_RAW.ambient_ram_6 : K) / 12) * 2 ^ 19
    let TAdut : K := (AMB - Eb) / Ea + 25
    let TAk4 : K := (TAdut + 273.15) ^ 4
    let emi : K := mlx90632_get_emissivity st
    let g : K → K := fun T =>
      sqrt (sqrt (Sto / (emi * Fa * Ha * (1 + Ga * (T - 25) + Fb * (TAdut - 25))) + TAk4))
        - 273.15 - Hb
    mlx90632_calc_temp_object sqrt st Ka Gb Ea Eb Fa Ha Ga Fb Hb = g (g (g 25)) := by
  intro S Sto AMB TAdut TAk4 emi g
  have h12 : (12.0 : K) = 12 := by norm_num
  have h19 : ((1 <<< 19 : Nat) : K) = 2 ^ 19 := by norm_num [Nat.shiftLeft_eq]
  have hS : ((st.MLX_T_RAW.object_ram_4_7 + st.MLX_T_RAW.object_ram_5_8 : Int) : K) / (2.0 : K)
      = S := by
    simp only [S]; push_cast; norm_num
  have hSto : (S / (12.0 : K)) / ((st.MLX_T_RAW.ambient_ram_9 : K) +
      Ka * ((st.MLX_T_RAW.ambient_ram_6 : K) / MLX90632_REF_3)) * ((1 <<< 19 : Nat) : K) =
      Sto := by
    simp only [Sto, MLX90632_REF_3, h12, h19]; ring
  have hAMB : ((st.MLX_T_RAW.ambient_ram_6 : K) / MLX90632_REF_3) /
      ((st.MLX_T_RAW.ambient_ram_9 : K) +
        Gb * ((st.MLX_T_RAW.ambient_ram_6 : K) / MLX90632_REF_3)) *
      ((1 <<< 19 : Nat) : K) = AMB := by
    simp only [AMB, MLX90632_REF_3, h12, h19]; ring
  have hT4 : (TAdut + 273.15) * (TAdut + 273.15) * (TAdut + 273.15) * (TAdut + 273.15) =
      TAk4 := by
    simp only [TAk4]; ring
  simp only [mlx90632_calc_temp_object, hS, hSto, hAMB, hT4,
    mlx90632_calc_temp_object_iteration, List.range, List.range.loop, List.foldl]

/-- Claim C3: after `mlx90632_set_emissivity(v)` the getter returns 1 if `v` is 0 and `v`
itself otherwise, and before any set call (static initialiser 0.0) it returns 1. -/
theorem emissivity_get_after_set [LinearOrderedField K] (v : K) (st : Driver K) :
    mlx90632_get_emissivity (mlx90632_set_emissivity v st) = (if v = 0 then 1 else v) ∧
    mlx90632_get_emissivity (Driver.initial : Driver K) = 1 := by
  constructor
  · simp only [mlx90632_get_emissivity, mlx90632_set_emissivity]
    norm_num
  · simp only [mlx90632_get_emissivity, Driver.initial]
    norm_num

/-! ## Measurement state machine (C4, C5, C6) -/

/-- The polling loop when the status word held after each of its `t` reads has the
data-ready bit clear: the budget is used up after `t` reads. -/
theorem poll_all_clear (bus : Bus) :
    ∀ (t reg_status : Nat) (st : Driver K),
      (∀ i, 1 ≤ i → i ≤ t →
        polledStatus bus st.nops reg_status i &&& MLX90632_STAT_DATA_RDY = 0) →
      (mlx90632_start_measurement_poll bus t reg_status st).1 = -1 ∧
      (mlx90632_start_measurement_poll bus t reg_status st).2.2.nops = st.nops + t ∧
      (mlx90632_start_measurement_poll bus t reg_status st).2.2.trace =
        st.trace ++ pollEvents st.MLX_STS.wait_time_meas t := by
  intro t
  induction t with
  | zero =>
    intro reg_status st _
    simp [mlx90632_start_measurement_poll, pollEvents]
  | succ t ih =>
    intro reg_status st h
    have hn := i2c_read_nops bus MLX90632_REG_STATUS reg_status st
    have hs := i2c_read_MLX_STS bus MLX90632_REG_STATUS reg_status st
    have ht := i2c_read_trace bus MLX90632_REG_STATUS reg_status st
    have hv := i2c_read_value bus MLX90632_REG_STATUS reg_status st
    rcases hr : mlx90632_i2c_read bus MLX90632_REG_STATUS reg_status st with ⟨r, v1, s1⟩
    rw [hr] at hn hs ht hv
    simp only at hn hs ht hv
    have hclr : v1 &&& MLX90632_STAT_DATA_RDY = 0 := by
      rw [hv]; exact h 1 (le_refl 1) (by omega)
    simp only [mlx90632_start_measurement_poll, hr, hclr, ne_eq, not_true_eq_false, if_false]
    have hrest : ∀ i, 1 ≤ i → i ≤ t →
        polledStatus bus
          (usleep (s1.MLX_STS.wait_time_meas : Int) ((s1.MLX_STS.wait_time_meas : Int) + 100)
            s1).nops v1 i &&& MLX90632_STAT_DATA_RDY = 0 := by
      intro i h1 hi
      show polledStatus bus s1.nops v1 i &&& MLX90632_STAT_DATA_RDY = 0
      rw [hn, hv, polledStatus_shift]
      exact h (i + 1) (by omega) (by omega)
    obtain ⟨g1, g2, g3⟩ := ih v1 (usleep (s1.MLX_STS.wait_time_meas : Int)
      ((s1.MLX_STS.wait_time_meas : Int) + 100) s1) hrest
    refine ⟨g1, ?_, ?_⟩
    · rw [g2]; show s1.nops + t = st.nops + (t + 1); omega
    · rw [g3]
      show (s1.trace ++ [Event.usleep (s1.MLX_STS.wait_time_meas : Int)
        ((s1.MLX_STS.wait_time_meas : Int) + 100)]) ++ pollEvents s1.MLX_STS.wait_time_meas t =
        st.trace ++ pollEvents st.MLX_STS.wait_time_meas (t + 1)
      rw [ht, hs]
      simp [pollEvents]

/-- The polling loop never makes more than `t` reads. -/
theorem poll_nops_le (bus : Bus) :
    ∀ (t reg_status : Nat) (st : Driver K),
      st.nops ≤ (mlx90632_start_measurement_poll bus t reg_status st).2.2.nops ∧
      (mlx90632_start_measurement_poll bus t reg_status st).2.2.nops ≤ st.nops + t := by
  intro t
  induction t with
  | zero =>
    intro reg_status st
    simp [mlx90632_start_measurement_poll]
  | succ t ih =>
    intro reg_status st
    have h1 := i2c_read_nops bus MLX90632_REG_STATUS reg_status st
    rcases hr : mlx90632_i2c_read bus MLX90632_REG_STATUS reg_status st with ⟨r, v, st1⟩
    rw [hr] at h1
    simp only at h1
    simp only [mlx90632_start_measurement_poll, hr]
    split
    · simp only [h1]; omega
    · have h2 := ih v (usleep (st1.MLX_STS.wait_time_meas : Int)
        ((st1.MLX_STS.wait_time_meas : Int) + 100) st1)
      have h3 : (usleep (st1.MLX_STS.wait_time_meas : Int)
        ((st1.MLX_STS.wait_time_meas : Int) + 100) st1).nops = st1.nops := rfl
      rw [h3] at h2
      omega

/-- The polling loop when read number `j` (counted from 0) is the first after which the
status word held has the data-ready bit set, and that read succeeds. -/
theorem poll_first_ready (bus : Bus) :
    ∀ (t j reg_status : Nat) (st : Driver K) (b : Nat), j < t →
      (∀ i, 1 ≤ i → i ≤ j →
        polledStatus bus st.nops reg_status i &&& MLX90632_STAT_DATA_RDY = 0) →
      bus (st.nops + j) = some b → swap16 b &&& MLX90632_STAT_DATA_RDY ≠ 0 →
      (mlx90632_start_measurement_poll bus t reg_status st).1 = ((t - 1 - j : Nat) : Int) ∧
      (mlx90632_start_measurement_poll bus t reg_status st).2.1 = swap16 b ∧
      (mlx90632_start_measurement_poll bus t reg_status st).2.2.nops = st.nops + j + 1 ∧
      (mlx90632_start_measurement_poll bus t reg_status st).2.2.trace =
        st.trace ++ pollEvents st.MLX_STS.wait_time_meas j ++
          [Event.read MLX90632_REG_STATUS] := by
  intro t
  induction t with
  | zero => intro j _ _ _ hj; omega
  | succ t ih =>
    intro j reg_status st b hj hclr hb hrdy
    have hn := i2c_read_nops bus MLX90632_REG_STATUS reg_status st
    have hs := i2c_read_MLX_STS bus MLX90632_REG_STATUS reg_status st
    have ht := i2c_read_trace bus MLX90632_REG_STATUS reg_status st
    have hv := i2c_read_value bus MLX90632_REG_STATUS reg_status st
    rcases hr : mlx90632_i2c_read bus MLX90632_REG_STATUS reg_status st with ⟨r, v1, s1⟩
    rw [hr] at hn hs ht hv
    simp only at hn hs ht hv
    cases j with
    | zero =>
      rw [Nat.add_zero] at hb
      have hv1 : v1 = swap16 b := by
        rw [hv]; simp only [polledStatus, Nat.add_zero, hb]
      simp only [mlx90632_start_measurement_poll, hr, hv1, hrdy, ne_eq, not_false_eq_true,
        if_true]
      refine ⟨by simp, trivial, hn, ?_⟩
      rw [ht]; simp [pollEvents]
    | succ j =>
      have hc1 : v1 &&& MLX90632_STAT_DATA_RDY = 0 := by
        rw [hv]; exact hclr 1 (le_refl 1) (by omega)
      simp only [mlx90632_start_measurement_poll, hr, hc1, ne_eq, not_true_eq_false, if_false]
      have hrest : ∀ i, 1 ≤ i → i ≤ j →
          polledStatus bus
            (usleep (s1.MLX_STS.wait_time_meas : Int) ((s1.MLX_STS.wait_time_meas : Int) + 100)
              s1).nops v1 i &&& MLX90632_STAT_DATA_RDY = 0 := by
        intro i h1 hi
        show polledStatus bus s1.nops v1 i &&& MLX90632_STAT_DATA_RDY = 0
        rw [hn, hv, polledStatus_shift]
        exact hclr (i + 1) (by omega) (by omega)
      have hb' : bus ((usleep (s1.MLX_STS.wait_time_meas : Int)
          ((s1.MLX_STS.wait_time_meas : Int) + 100) s1).nops + j) = some b := by
        show bus (s1.nops + j) = some b
        rw [hn, show st.nops + 1 + j = st.nops + (j + 1) by omega]
        exact hb
      obtain ⟨g1, g2, g3, g4⟩ := ih j v1 (usleep (s1.MLX_STS.wait_time_meas : Int)
        ((s1.MLX_STS.wait_time_meas : Int) + 100) s1) b (by omega) hrest hb' hrdy
      refine ⟨?_, g2, ?_, ?_⟩
      · rw [g1]; congr 1; omega
      · rw [g3]; show s1.nops + j + 1 = st.nops + (j + 1) + 1; omega
      · rw [g4]
        show (s1.trace ++ [Event.usleep (s1.MLX_STS.wait_time_meas : Int)
          ((s1.MLX_STS.wait_time_meas : Int) + 100)]) ++ pollEvents s1.MLX_STS.wait_time_meas j ++
            [Event.read MLX90632_REG_STATUS] =
          st.trace ++ pollEvents st.MLX_STS.wait_time_meas (j + 1) ++
            [Event.read MLX90632_REG_STATUS]
        rw [ht, hs]
        simp [pollEvents]

/-- An expected polling trace of `n` rounds holds exactly `n` status reads. -/
theorem pollEvents_count (w : Nat) :
    ∀ n, (pollEvents w n).count (Event.read MLX90632_REG_STATUS) = n := by
  intro n
  induction n with
  | zero => rfl
  | succ n ih => simp [pollEvents, List.count_cons, ih]

/-- Unfolding of `mlx90632_start_measurement` up to the polling loop when the communication
check, the start-of-conversion step, the status read and the status clear succeed. -/
theorem start_measurement_after_soc [LinearOrderedField K] [FloorRing K] (bus : Bus) (fuel : Nat)
    (st st1 st2 : Driver K) (ret : Int)
    (hcomm : mlx90632_check_i2c_comm bus fuel st = some st1)
    (hsoc : i2c_melexis_set_soc bus fuel st1 = some (ret, st2)) (hret : 0 ≤ ret)
    (b0 b1 : Nat) (hrd : bus st2.nops = some b0) (hwr : bus (st2.nops + 1) = some b1) :
    mlx90632_start_measurement bus fuel st =
      match mlx90632_start_measurement_poll bus MLX90632_MAX_NUMBER_MESUREMENT_READ_TRIES
          (swap16 b0)
          { st2 with
            nops := st2.nops + 1 + 1
            trace := st2.trace ++ [Event.read MLX90632_REG_STATUS] ++
              [Event.write MLX90632_REG_STATUS (swap16 b0 &&& not16 MLX90632_STAT_DATA_RDY)]
            error_melexis90632 :=
              ((st2.error_melexis90632 &&& not8 ERROR_MLX_READ) % 2 ^ 8 &&&
                not8 ERROR_MLX_WRITE) % 2 ^ 8 } with
      | (tries, reg_status, st) =>
        if tries < 0 then some (-ETIMEDOUT, st)
        else
          some ((((reg_status &&& (MLX90632_STAT_CYCLE_POS % 2 ^ 16)) >>> 2 : Nat) : Int), st) := by
  have hret' : ¬ ret < 0 := not_lt.mpr hret
  simp only [mlx90632_start_measurement, hcomm, hsoc, hret', if_false,
    i2c_read_some bus _ _ st2 b0 hrd]
  rw [i2c_write_some bus _ _ _ b1 (by simpa using hwr)]
  simp

/-- Claim C4, amended: if the communication check returns, the start-of-conversion step returns a
non-negative value, the status read and the status clear succeed, and the status word held
after each of the 100 reads of the polling loop (the word that read delivers, or the word held
before when the read fails) has the data-ready bit clear, then `mlx90632_start_measurement`
returns `-ETIMEDOUT` after exactly 100 status reads in the polling loop, each followed by a
sleep. -/
theorem start_measurement_times_out [LinearOrderedField K] [FloorRing K] (bus : Bus) (fuel : Nat)
    (st st1 st2 : Driver K) (ret : Int)
    (hcomm : mlx90632_check_i2c_comm bus fuel st = some st1)
    (hsoc : i2c_melexis_set_soc bus fuel st1 = some (ret, st2)) (hret : 0 ≤ ret)
    (b0 b1 : Nat) (hrd : bus st2.nops = some b0) (hwr : bus (st2.nops + 1) = some b1)
    (hpoll : ∀ i, 1 ≤ i → i ≤ 100 →
      polledStatus bus (st2.nops + 2) (swap16 b0) i &&& MLX90632_STAT_DATA_RDY = 0) :
    ∃ st3, mlx90632_start_measurement bus fuel st = some (-ETIMEDOUT, st3) ∧
      st3.nops = st2.nops + 2 + 100 ∧
      st3.trace = st2.trace ++
        [Event.read MLX90632_REG_STATUS,
          Event.write MLX90632_REG_STATUS (swap16 b0 &&& not16 MLX90632_STAT_DATA_RDY)] ++
        pollEvents st2.MLX_STS.wait_time_meas 100 ∧
      (pollEvents st2.MLX_STS.wait_time_meas 100).count (Event.read MLX90632_REG_STATUS) =
        100 := by
  rw [start_measurement_after_soc bus fuel st st1 st2 ret hcomm hsoc hret b0 b1 hrd hwr]
  have h := poll_all_clear bus 100 (swap16 b0)
    { st2 with
      nops := st2.nops + 1 + 1
      trace := st2.trace ++ [Event.read MLX90632_REG_STATUS] ++
        [Event.write MLX90632_REG_STATUS (swap16 b0 &&& not16 MLX90632_STAT_DATA_RDY)]
      error_melexis90632 :=
        ((st2.error_melexis90632 &&& not8 ERROR_MLX_READ) % 2 ^ 8 &&&
          not8 ERROR_MLX_WRITE) % 2 ^ 8 } hpoll
  obtain ⟨h1, h2, h3⟩ := h
  refine ⟨_, ?_, h2, ?_, ?_⟩
  · simp only [MLX90632_MAX_NUMBER_MESUREMENT_READ_TRIES, h1]
    rfl
  · simp only [MLX90632_MAX_NUMBER_MESUREMENT_READ_TRIES, h3]
    simp
  · exact pollEvents_count _ 100

/-- Witness for the amended C4: on a bus whose every read delivers `0x0008`, started with the
communication flag set, the measurement times out after 104 bus operations. -/
theorem start_measurement_times_out_witness :
    ∃ st3, mlx90632_start_measurement neverReadyBus 1 commUp = some (-ETIMEDOUT, st3) ∧
      st3.nops = 104 := by
  obtain ⟨st3, h1, h2, _⟩ := start_measurement_times_out neverReadyBus 1 commUp
    { commUp with nops := 1, trace := [Event.read MLX90632_REG_STATUS] }
    { commUp with nops := 2
                  trace := [Event.read MLX90632_REG_STATUS, Event.read MLX90632_REG_CTRL] }
    0 (by decide) (by decide) (by decide) 0x0800 0x0800 rfl rfl
    (fun i hi _ => by
      obtain ⟨j, rfl⟩ : ∃ j, i = j + 1 := ⟨i - 1, by omega⟩
      show swap16 0x0800 &&& MLX90632_STAT_DATA_RDY = 0
      decide)
  exact ⟨st3, h1, h2⟩

set_option maxRecDepth 10000 in
/-- Counterexample to C4: on `staleThenClearBus`, started with the communication flag set, the
communication check, the start-of-conversion step and the status clear succeed and every word
a read of the polling loop can deliver has the data-ready bit clear; the status read before the
loop delivers `0x0005` and the first poll read fails, so `reg_status` still holds `0x0005`:
`mlx90632_start_measurement` returns 1 after a single poll read, not `-ETIMEDOUT` after 100. -/
theorem start_measurement_stale_ready_no_timeout :
    (staleThenClearBus 2).map swap16 = some 0x0005 ∧
    staleThenClearBus 4 = none ∧
    (∀ k, 4 ≤ k → ∀ b, staleThenClearBus k = some b →
      swap16 b &&& MLX90632_STAT_DATA_RDY = 0) ∧
    (mlx90632_start_measurement staleThenClearBus 1 commUp).map
      (fun r => (r.1, r.2.nops, r.2.trace)) =
        some (1, 5, [Event.read MLX90632_REG_STATUS, Event.read MLX90632_REG_CTRL,
          Event.read MLX90632_REG_STATUS, Event.write MLX90632_REG_STATUS 0x0004,
          Event.read MLX90632_REG_STATUS]) ∧
    (1 : Int) ≠ -ETIMEDOUT := by
  refine ⟨by decide, by decide, ?_, by decide, by decide⟩
  intro k hk b hb
  unfold staleThenClearBus at hb
  rw [if_neg (by omega)] at hb
  split at hb
  · exact absurd hb (by simp)
  · obtain rfl : 0x0800 = b := Option.some.inj hb
    decide

/-- Claim C6: if the `k`-th status read of the polling loop (`1 ≤ k ≤ 100`) succeeds and is the
first after which the status word held has the data-ready bit set, then
`mlx90632_start_measurement` returns `(s & 0x7C) >> 2` for the word `s = swap16 b` that read
delivers, after `k` polling reads, and this is not the timeout error. -/
theorem start_measurement_returns_cycle_pos [LinearOrderedField K] [FloorRing K]
    (bus : Bus) (fuel : Nat)
    (st st1 st2 : Driver K) (ret : Int)
    (hcomm : mlx90632_check_i2c_comm bus fuel st = some st1)
    (hsoc : i2c_melexis_set_soc bus fuel st1 = some (ret, st2)) (hret : 0 ≤ ret)
    (b0 b1 : Nat) (hrd : bus st2.nops = some b0) (hwr : bus (st2.nops + 1) = some b1)
    (k : Nat) (hk1 : 1 ≤ k) (hk : k ≤ 100) (b : Nat)
    (hbefore : ∀ i, 1 ≤ i → i < k →
      polledStatus bus (st2.nops + 2) (swap16 b0) i &&& MLX90632_STAT_DATA_RDY = 0)
    (hkth : bus (st2.nops + 2 + (k - 1)) = some b)
    (hrdy : swap16 b &&& MLX90632_STAT_DATA_RDY ≠ 0) :
    ∃ st3, mlx90632_start_measurement bus fuel st =
        some ((((swap16 b &&& 0x7C) >>> 2 : Nat) : Int), st3) ∧
      st3.nops = st2.nops + 2 + k ∧
      (((swap16 b &&& 0x7C) >>> 2 : Nat) : Int) ≠ -ETIMEDOUT := by
  rw [start_measurement_after_soc bus fuel st st1 st2 ret hcomm hsoc hret b0 b1 hrd hwr]
  have h := poll_first_ready bus 100 (k - 1) (swap16 b0)
    { st2 with
      nops := st2.nops + 1 + 1
      trace := st2.trace ++ [Event.read MLX90632_REG_STATUS] ++
        [Event.write MLX90632_REG_STATUS (swap16 b0 &&& not16 MLX90632_STAT_DATA_RDY)]
      error_melexis90632 :=
        ((st2.error_melexis90632 &&& not8 ERROR_MLX_READ) % 2 ^ 8 &&&
          not8 ERROR_MLX_WRITE) % 2 ^ 8 } b (by omega)
    (fun i h1 hi => hbefore i h1 (by omega)) hkth hrdy
  have hmask : MLX90632_STAT_CYCLE_POS % 2 ^ 16 = 0x7C := by decide
  have htries : ¬ (((100 - 1 - (k - 1) : Nat) : Int) < 0) := by omega
  simp only [MLX90632_MAX_NUMBER_MESUREMENT_READ_TRIES]
  rcases hp : mlx90632_start_measurement_poll bus 100 (swap16 b0)
    { st2 with
      nops := st2.nops + 1 + 1
      trace := st2.trace ++ [Event.read MLX90632_REG_STATUS] ++
        [Event.write MLX90632_REG_STATUS (swap16 b0 &&& not16 MLX90632_STAT_DATA_RDY)]
      error_melexis90632 :=
        ((st2.error_melexis90632 &&& not8 ERROR_MLX_READ) % 2 ^ 8 &&&
          not8 ERROR_MLX_WRITE) % 2 ^ 8 } with ⟨t3, v3, s3⟩
  rw [hp] at h
  obtain ⟨h1, h2, h3, _⟩ := h
  simp only at h1 h2 h3
  refine ⟨s3, ?_, ?_, ?_⟩
  · simp only [h1, h2, htries, if_false, hmask]
  · rw [h3]; omega
  · have : (0 : Int) ≤ (((swap16 b &&& 0x7C) >>> 2 : Nat) : Int) := Int.natCast_nonneg _
    simp only [ETIMEDOUT]
    omega

/-- Witness for C6: data-ready at the third poll read with status `0x0009` gives cycle
position 2 after 7 bus operations. -/
theorem start_measurement_returns_cycle_pos_witness :
    ∃ st3, mlx90632_start_measurement readyAtThirdPollBus 1 commUp = some (2, st3) ∧
      st3.nops = 7 := by
  obtain ⟨st3, h1, h2, _⟩ := start_measurement_returns_cycle_pos readyAtThirdPollBus 1 commUp
    { commUp with nops := 1, trace := [Event.read MLX90632_REG_STATUS] }
    { commUp with nops := 2
                  trace := [Event.read MLX90632_REG_STATUS, Event.read MLX90632_REG_CTRL] }
    0 (by decide) (by decide) (by decide) 0x0800 0x0800 rfl rfl 3 (by decide) (by decide) 0x0900
    (fun i h1 hi => by
      have : i = 1 ∨ i = 2 := by omega
      rcases this with h | h <;> subst h <;> decide)
    rfl (by decide)
  exact ⟨st3, h1, h2⟩

/-- Claim C5, amended: whenever the communication check and the start-of-conversion step of
`mlx90632_start_measurement` return, the function returns, and it makes at most 102 further
bus operations (status read, status clear, at most 100 polling reads). -/
theorem start_measurement_bounded_after_soc [LinearOrderedField K] [FloorRing K]
    (bus : Bus) (fuel : Nat)
    (st st1 st2 : Driver K) (ret : Int)
    (hcomm : mlx90632_check_i2c_comm bus fuel st = some st1)
    (hsoc : i2c_melexis_set_soc bus fuel st1 = some (ret, st2)) :
    ∃ r st3, mlx90632_start_measurement bus fuel st = some (r, st3) ∧
      st2.nops ≤ st3.nops ∧ st3.nops ≤ st2.nops + 102 := by
  simp only [mlx90632_start_measurement, hcomm, hsoc]
  split
  · exact ⟨_, _, rfl, le_refl _, by omega⟩
  · have hn1 := i2c_read_nops bus MLX90632_REG_STATUS 0 st2
    rcases hr : mlx90632_i2c_read bus MLX90632_REG_STATUS 0 st2 with ⟨r1, v1, s1⟩
    rw [hr] at hn1
    simp only at hn1 ⊢
    split
    · exact ⟨_, _, rfl, by omega, by omega⟩
    · have hn2 := i2c_write_nops bus MLX90632_REG_STATUS
        (v1 &&& not16 MLX90632_STAT_DATA_RDY) s1
      rcases hw : mlx90632_i2c_write bus MLX90632_REG_STATUS
        (v1 &&& not16 MLX90632_STAT_DATA_RDY) s1 with ⟨r2, s2⟩
      rw [hw] at hn2
      simp only at hn2 ⊢
      split
      · exact ⟨_, _, rfl, by omega, by omega⟩
      · have hp := poll_nops_le bus MLX90632_MAX_NUMBER_MESUREMENT_READ_TRIES v1 s2
        rcases hpr : mlx90632_start_measurement_poll bus
          MLX90632_MAX_NUMBER_MESUREMENT_READ_TRIES v1 s2 with ⟨t3, v3, s3⟩
        rw [hpr] at hp
        simp only [MLX90632_MAX_NUMBER_MESUREMENT_READ_TRIES] at hp ⊢
        split
        · exact ⟨_, _, rfl, by omega, by omega⟩
        · exact ⟨_, _, rfl, by omega, by omega⟩

/-- On a bus whose control register always reads back 0 the start-of-conversion loop never
exits, whatever the fuel. -/
theorem set_soc_loop_stuck :
    ∀ (fuel : Nat) (ret : Int) (st : Driver K),
      i2c_melexis_set_soc_loop stuckBus fuel ret 0 st = none := by
  intro fuel
  induction fuel with
  | zero => intro ret st; rfl
  | succ fuel ih =>
    intro ret st
    have h8 : (0 &&& (MLX90632_CFG_SOC_MASK % 2 ^ 16) ≠ MLX90632_CFG_SOC_MASK) := by decide
    simp only [i2c_melexis_set_soc_loop, h8, if_true, i2c_melexis_getCtrlReg,
      i2c_write_some stuckBus _ _ _ 0 rfl, i2c_read_some stuckBus _ _ _ 0 rfl]
    exact ih _ _

/-- Counterexample to C5: on a bus where every transfer succeeds and every register reads 0,
`mlx90632_start_measurement` started from the initial driver state returns for no amount of
fuel: the start-of-conversion loop re-writes the control register for ever. -/
theorem start_measurement_never_returns :
    ¬ ∃ fuel : Nat,
      mlx90632_start_measurement stuckBus fuel (Driver.initial : Driver ℚ) ≠ none := by
  rintro ⟨fuel, h⟩
  apply h
  have hsw : swap16 0 = 0 := by decide
  simp [mlx90632_start_measurement, mlx90632_check_i2c_comm, mlx90632_init,
    i2c_melexis_set_soc, i2c_melexis_getCtrlReg,
    i2c_read_some stuckBus _ _ _ 0 rfl, hsw, Driver.initial, MLX90632_DSPv5, set_soc_loop_stuck]

/-- Witness for the amended C5: on the never-ready bus, started with the communication flag
set, the function returns within 104 bus operations. -/
theorem start_measurement_bounded_after_soc_witness :
    ∃ r st3, mlx90632_start_measurement neverReadyBus 1 commUp = some (r, st3) ∧
      st3.nops ≤ 104 := by
  obtain ⟨r, st3, h1, _, h3⟩ := start_measurement_bounded_after_soc neverReadyBus 1 commUp
    { commUp with nops := 1, trace := [Event.read MLX90632_REG_STATUS] }
    { commUp with nops := 2
                  trace := [Event.read MLX90632_REG_STATUS, Event.read MLX90632_REG_CTRL] }
    0 (by decide) (by decide)
  exact ⟨r, st3, h1, h3⟩

/-! ## Backoff controller (C7, C9) -/

/-- The addressed reset does not touch `MLX_STS`, whatever the bus does. -/
theorem addressed_reset_MLX_STS (bus : Bus) (st : Driver K) :
    (mlx90632_addressed_reset bus st).2.MLX_STS = st.MLX_STS := by
  have hr := i2c_read_MLX_STS bus MLX90632_REG_CTRL 0 st
  rcases h1 : mlx90632_i2c_read bus MLX90632_REG_CTRL 0 st with ⟨r1, v1, s1⟩
  rw [h1] at hr
  simp only at hr
  simp only [mlx90632_addressed_reset, h1]
  split
  · exact hr
  · have hw := i2c_write_MLX_STS bus MLX90632_REG_CTRL
      ((v1 &&& not16 MLX90632_CFG_PWR_MASK ||| MLX90632_PWR_STATUS_STEP) % 2 ^ 16) s1
    rcases h2 : mlx90632_i2c_write bus MLX90632_REG_CTRL
      ((v1 &&& not16 MLX90632_CFG_PWR_MASK ||| MLX90632_PWR_STATUS_STEP) % 2 ^ 16) s1
      with ⟨r2, s2⟩
    rw [h2] at hw
    simp only at hw ⊢
    split
    · rw [hw, hr]
    · have hw3 := i2c_write_MLX_STS bus 0x3005 MLX90632_RESET_CMD s2
      rcases h3 : mlx90632_i2c_write bus 0x3005 MLX90632_RESET_CMD s2 with ⟨r3, s3⟩
      rw [h3] at hw3
      simp only at hw3 ⊢
      split
      · rw [hw3, hw, hr]
      · rw [i2c_write_MLX_STS]
        simp only [usleep]
        rw [hw3, hw, hr]

/-- Status after a timeout outcome, as a function of the status before. -/
theorem searchWaitTime_timeout_MLX_STS (bus : Bus) (st : Driver K) :
    (mlx90632_searchWaitTime bus (-ETIMEDOUT) st).MLX_STS =
      if (st.MLX_STS.count_check_meas + 1) % 2 ^ 8 ≥ MLX90632_MAX_NUM_CHECK_MEAS then
        if (st.MLX_STS.wait_time_meas + MLX90632_STEP_WAIT_TIME) % 2 ^ 16 = MLX90632_MAX_WAIT_TIME
        then { st.MLX_STS with
                count_check_meas := (st.MLX_STS.count_check_meas + 1) % 2 ^ 8
                wait_time_meas := MLX90632_STEP_WAIT_TIME }
        else { st.MLX_STS with
                count_check_meas := (st.MLX_STS.count_check_meas + 1) % 2 ^ 8
                wait_time_meas := (st.MLX_STS.wait_time_meas + MLX90632_STEP_WAIT_TIME) % 2 ^ 16 }
      else { st.MLX_STS with count_check_meas := (st.MLX_STS.count_check_meas + 1) % 2 ^ 8 } := by
  simp only [mlx90632_searchWaitTime, if_true]
  split
  · rename_i hge
    have hrs := addressed_reset_MLX_STS bus
      { st with MLX_STS := { st.MLX_STS with
          count_check_meas := (st.MLX_STS.count_check_meas + 1) % 2 ^ 8
          wait_time_meas := (st.MLX_STS.wait_time_meas + MLX90632_STEP_WAIT_TIME) % 2 ^ 16 } }
    rcases hr : mlx90632_addressed_reset bus
      { st with MLX_STS := { st.MLX_STS with
          count_check_meas := (st.MLX_STS.count_check_meas + 1) % 2 ^ 8
          wait_time_meas := (st.MLX_STS.wait_time_meas + MLX90632_STEP_WAIT_TIME) % 2 ^ 16 } }
      with ⟨r, s1⟩
    rw [hr] at hrs
    simp only at hrs ⊢
    rw [hrs]
    split
    · rfl
    · exact hrs
  · rfl

/-- After `k < 50` consecutive timeouts from counter 0 the wait interval is unchanged and the
counter is `k`. -/
theorem searchWaitTime_below_threshold (bus : Bus) :
    ∀ (k : Nat) (st : Driver K), st.MLX_STS.wait_time_meas = 1000 →
      st.MLX_STS.count_check_meas = 0 → k < 50 →
      ((mlx90632_searchWaitTime bus (-ETIMEDOUT))^[k] st).MLX_STS.wait_time_meas = 1000 ∧
      ((mlx90632_searchWaitTime bus (-ETIMEDOUT))^[k] st).MLX_STS.count_check_meas = k := by
  intro k
  induction k with
  | zero => intro st hw hc _; exact ⟨hw, hc⟩
  | succ k ih =>
    intro st hw hc hk
    obtain ⟨h1, h2⟩ := ih st hw hc (by omega)
    rw [Function.iterate_succ_apply', searchWaitTime_timeout_MLX_STS, h2]
    have hlt : ¬ ((k + 1) % 2 ^ 8 ≥ MLX90632_MAX_NUM_CHECK_MEAS) := by
      simp only [MLX90632_MAX_NUM_CHECK_MEAS]; omega
    rw [if_neg hlt]
    refine ⟨h1, ?_⟩
    show (k + 1) % 2 ^ 8 = k + 1
    omega

/-- Claim C7: from wait interval 1000 and counter 0, after `k < 50` consecutive timeout
outcomes the wait interval is still 1000, and after the 50th it is 1250, on every bus
(whether or not the reset issued at the 50th succeeds). -/
theorem searchWaitTime_fifty_timeouts (bus : Bus) (st : Driver K)
    (hw : st.MLX_STS.wait_time_meas = 1000) (hc : st.MLX_STS.count_check_meas = 0) :
    (∀ k, k < 50 →
      ((mlx90632_searchWaitTime bus (-ETIMEDOUT))^[k] st).MLX_STS.wait_time_meas = 1000) ∧
    ((mlx90632_searchWaitTime bus (-ETIMEDOUT))^[50] st).MLX_STS.wait_time_meas = 1250 := by
  refine ⟨fun k hk => (searchWaitTime_below_threshold bus k st hw hc hk).1, ?_⟩
  obtain ⟨h1, h2⟩ := searchWaitTime_below_threshold bus 49 st hw hc (by omega)
  rw [Function.iterate_succ_apply', searchWaitTime_timeout_MLX_STS, h1, h2]
  rfl

/-- Witness for C7: from the initial driver state on a dead bus (the reset fails) the interval
is 1000 after 49 timeouts and 1250 after 50. -/
theorem searchWaitTime_fifty_timeouts_witness :
    ((mlx90632_searchWaitTime deadBus (-ETIMEDOUT))^[49]
        (Driver.initial : Driver ℚ)).MLX_STS.wait_time_meas = 1000 ∧
    ((mlx90632_searchWaitTime deadBus (-ETIMEDOUT))^[50]
        (Driver.initial : Driver ℚ)).MLX_STS.wait_time_meas = 1250 :=
  ⟨(searchWaitTime_fifty_timeouts deadBus (Driver.initial : Driver ℚ) rfl rfl).1 49 (by decide),
    (searchWaitTime_fifty_timeouts deadBus (Driver.initial : Driver ℚ) rfl rfl).2⟩

/-- Claim C9: for every outcome other than `-ETIMEDOUT`, `mlx90632_searchWaitTime` only sets
the consecutive-timeout counter to zero: wait interval, refresh code and comm flag are
unchanged and no bus operation is performed. -/
theorem searchWaitTime_non_timeout (bus : Bus) (meas_ret : Int) (st : Driver K)
    (h : meas_ret ≠ -ETIMEDOUT) :
    mlx90632_searchWaitTime bus meas_ret st =
      { st with MLX_STS := { st.MLX_STS with count_check_meas := 0 } } ∧
    (mlx90632_searchWaitTime bus meas_ret st).MLX_STS.count_check_meas = 0 ∧
    (mlx90632_searchWaitTime bus meas_ret st).MLX_STS.wait_time_meas = st.MLX_STS.wait_time_meas ∧
    (mlx90632_searchWaitTime bus meas_ret st).MLX_STS.refresh = st.MLX_STS.refresh ∧
    (mlx90632_searchWaitTime bus meas_ret st).MLX_STS.comm_sts = st.MLX_STS.comm_sts ∧
    (mlx90632_searchWaitTime bus meas_ret st).nops = st.nops ∧
    (mlx90632_searchWaitTime bus meas_ret st).trace = st.trace := by
  simp [mlx90632_searchWaitTime, h]

/-- Witness for C9: outcome 2 (a cycle position) at the ceiling state. -/
theorem searchWaitTime_non_timeout_witness :
    (mlx90632_searchWaitTime deadBus 2 atCeiling).MLX_STS.count_check_meas = 0 ∧
    (mlx90632_searchWaitTime deadBus 2 atCeiling).MLX_STS.wait_time_meas = 5000 ∧
    (mlx90632_searchWaitTime deadBus 2 atCeiling).trace = [] :=
  ⟨(searchWaitTime_non_timeout deadBus 2 atCeiling (by decide)).2.1,
    (searchWaitTime_non_timeout deadBus 2 atCeiling (by decide)).2.2.1,
    (searchWaitTime_non_timeout deadBus 2 atCeiling (by decide)).2.2.2.2.2.2⟩

/-! ## Failure of the calibration load (C11) -/

theorem i2c_read_MLX_K (bus : Bus) (a v : Nat) (st : Driver K) :
    (mlx90632_i2c_read bus a v st).2.2.MLX_K = st.MLX_K := by
  unfold mlx90632_i2c_read; split <;> rfl

theorem i2c_write_MLX_K (bus : Bus) (a v : Nat) (st : Driver K) :
    (mlx90632_i2c_write bus a v st).2.MLX_K = st.MLX_K := by
  unfold mlx90632_i2c_write; split <;> rfl

theorem getCtrlReg_MLX_K (bus : Bus) (st : Driver K) :
    (i2c_melexis_getCtrlReg bus st).2.MLX_K = st.MLX_K := by
  have h := i2c_read_MLX_K bus MLX90632_REG_CTRL 0 st
  rcases hr : mlx90632_i2c_read bus MLX90632_REG_CTRL 0 st with ⟨r, v, s⟩
  rw [hr] at h
  simp only [i2c_melexis_getCtrlReg, hr]
  split <;> exact h

theorem e2busy_MLX_K (bus : Bus) (st : Driver K) :
    (i2c_melexis_e2busy bus st).2.MLX_K = st.MLX_K := by
  have h := i2c_read_MLX_K bus MLX90632_REG_STATUS 0 st
  rcases hr : mlx90632_i2c_read bus MLX90632_REG_STATUS 0 st with ⟨r, v, s⟩
  rw [hr] at h
  simp only [i2c_melexis_e2busy, i2c_melexis_getStsReg, hr]
  split <;> exact h

theorem setmode_loop_MLX_K (bus : Bus) (mode : Nat) :
    ∀ (fuel : Nat) (ret : Int) (reg_ctrl : Nat) (st : Driver K) (r : Int) (st' : Driver K),
      i2c_melexis_setmode_loop bus mode fuel ret reg_ctrl st = some (r, st') →
      st'.MLX_K = st.MLX_K := by
  intro fuel
  induction fuel with
  | zero => intro ret reg_ctrl st r st' h; simp [i2c_melexis_setmode_loop] at h
  | succ fuel ih =>
    intro ret reg_ctrl st r st' h
    simp only [i2c_melexis_setmode_loop] at h
    split at h
    · have hw := i2c_write_MLX_K bus MLX90632_REG_CTRL
        ((reg_ctrl &&& not16 mode ||| mode) % 2 ^ 16) st
      rcases hwr : mlx90632_i2c_write bus MLX90632_REG_CTRL
        ((reg_ctrl &&& not16 mode ||| mode) % 2 ^ 16) st with ⟨r1, s1⟩
      rw [hwr] at hw h
      have hc := getCtrlReg_MLX_K bus s1
      rcases hcr : i2c_melexis_getCtrlReg bus s1 with ⟨v2, s2⟩
      rw [hcr] at hc
      simp only [hcr] at h hw hc
      rw [ih _ _ _ _ _ h, hc, hw]
    · simp only [Option.some.injEq, Prod.mk.injEq] at h
      rw [← h.2]

theorem readCalib_wait_MLX_K (bus : Bus) :
    ∀ (fuel : Nat) (st st' : Driver K),
      mlx90632_readCalib_wait bus fuel st = some st' → st'.MLX_K = st.MLX_K := by
  intro fuel
  induction fuel with
  | zero => intro st st' h; simp [mlx90632_readCalib_wait] at h
  | succ fuel ih =>
    intro st st' h
    have hb := e2busy_MLX_K bus st
    rcases hbr : i2c_melexis_e2busy bus st with ⟨busy, s1⟩
    rw [hbr] at hb
    simp only [mlx90632_readCalib_wait, hbr] at h hb
    cases busy with
    | true => simp only at h; rw [ih _ _ h, hb]
    | false =>
      simp only [Option.some.injEq] at h
      rw [← h, hb]

/-- Claim C12: when the version read of `mlx90632_init` succeeds and the low byte of the version
word is not `0x05`, `mlx90632_init` returns `-EPROTONOSUPPORT` and that read is its only bus
operation; when the low byte is `0x05` and the address read succeeds with a word different from
`0x3A >> 1`, it returns -1 and those two reads are its only bus operations. In both cases no
calibration read is issued and `MLX_K` and `MLX_STS` are unchanged. -/
theorem init_rejects_wrong_device [LinearOrderedField K] [FloorRing K] (bus : Bus) (fuel : Nat)
    (st : Driver K) (bv : Nat) (hv : bus st.nops = some bv) :
    (swap16 bv &&& 0x00FF ≠ 0x05 →
      ∃ st', mlx90632_init bus fuel st = some (-EPROTONOSUPPORT, st') ∧
        st'.MLX_K = st.MLX_K ∧ st'.MLX_STS = st.MLX_STS ∧
        st'.trace = st.trace ++ [Event.read MLX90632_EE_VERSION]) ∧
    (swap16 bv &&& 0x00FF = 0x05 →
      ∀ ba, bus (st.nops + 1) = some ba → swap16 ba ≠ 0x3A >>> 1 →
      ∃ st', mlx90632_init bus fuel st = some (-1, st') ∧
        st'.MLX_K = st.MLX_K ∧ st'.MLX_STS = st.MLX_STS ∧
        st'.trace = st.trace ++
          [Event.read MLX90632_EE_VERSION, Event.read MLX90632_EE_I2C_ADDRESS]) := by
  constructor
  · intro hlow
    have hlow' : swap16 bv &&& 0x00FF ≠ MLX90632_DSPv5 := hlow
    have h : mlx90632_init bus fuel st = some (-EPROTONOSUPPORT,
        { st with
          nops := st.nops + 1, trace := st.trace ++ [Event.read MLX90632_EE_VERSION],
          error_melexis90632 := (st.error_melexis90632 &&& not8 ERROR_MLX_READ) % 2 ^ 8 }) := by
      simp only [mlx90632_init, i2c_read_some bus _ _ st bv hv, lt_irrefl, if_false, hlow',
        ne_eq, not_false_eq_true, if_true]
    exact ⟨_, h, rfl, rfl, rfl⟩
  · intro hlow ba ha hne
    have hlow' : ¬ (swap16 bv &&& 0x00FF ≠ MLX90632_DSPv5) := not_not.mpr hlow
    have h : mlx90632_init bus fuel st = some (-1,
        { st with
          nops := st.nops + 1 + 1
          trace := st.trace ++ [Event.read MLX90632_EE_VERSION] ++
            [Event.read MLX90632_EE_I2C_ADDRESS]
          error_melexis90632 :=
            ((st.error_melexis90632 &&& not8 ERROR_MLX_READ) % 2 ^ 8 &&&
              not8 ERROR_MLX_READ) % 2 ^ 8 }) := by
      simp only [mlx90632_init, i2c_read_some bus _ _ st bv hv, lt_irrefl, if_false, hlow']
      rw [i2c_read_some bus _ _ _ ba ha]
      simp only [lt_irrefl, if_false, hne, ne_eq, not_false_eq_true, if_true]
    refine ⟨_, h, rfl, rfl, ?_⟩
    simp

/-- Witness for C12: a bus whose version word is 0 is rejected with `-EPROTONOSUPPORT`, and a
bus with version word `0x0005` and address word 0 is rejected with -1. -/
theorem init_rejects_wrong_device_witness :
    (∃ st', mlx90632_init stuckBus 0 (Driver.initial : Driver ℚ) =
        some (-EPROTONOSUPPORT, st') ∧
      st'.MLX_K = (Driver.initial : Driver ℚ).MLX_K ∧
      st'.trace = [Event.read MLX90632_EE_VERSION]) ∧
    (∃ st', mlx90632_init wrongAddressBus 0 (Driver.initial : Driver ℚ) = some (-1, st') ∧
      st'.MLX_STS = (Driver.initial : Driver ℚ).MLX_STS) := by
  constructor
  · obtain ⟨st', h, hK, _, ht⟩ :=
      (init_rejects_wrong_device stuckBus 0 (Driver.initial : Driver ℚ) 0 rfl).1 (by decide)
    exact ⟨st', h, hK, ht⟩
  · obtain ⟨st', h, _, hS, _⟩ :=
      (init_rejects_wrong_device wrongAddressBus 0 (Driver.initial : Driver ℚ) 0x0500 rfl).2
        (by decide) 0 rfl (by decide)
    exact ⟨st', h, hS⟩

/-- Code behaviour against C13: on a genuine device whose first calibration read (transfer 6)
fails, the calibration load run by `mlx90632_init` returns -1 and leaves the constants at their
initial values, and `mlx90632_init` carries on and returns 0. -/
theorem init_ignores_calibration_failure :
    calibFailBus 6 = none ∧
    afterIdentity.trace = [Event.read MLX90632_EE_VERSION, Event.read MLX90632_EE_I2C_ADDRESS,
      Event.read MLX90632_EE_MEDICAL_MEAS1] ∧
    (mlx90632_readCalib calibFailBus 2 afterIdentity).map
      (fun r => (r.1, r.2.nops, r.2.trace.drop 6)) =
        some (-1, 7, [Event.read MLX90632_EE_P_R]) ∧
    (mlx90632_init calibFailBus 2 (Driver.initial : Driver ℚ)).map
      (fun r => (r.1, r.2.trace.take 7)) =
        some (0, [Event.read MLX90632_EE_VERSION, Event.read MLX90632_EE_I2C_ADDRESS,
          Event.read MLX90632_EE_MEDICAL_MEAS1, Event.read MLX90632_REG_STATUS,
          Event.write MLX90632_REG_CTRL 2, Event.read MLX90632_REG_CTRL,
          Event.read MLX90632_EE_P_R]) := by
  decide

set_option maxRecDepth 10000 in
/-- Counterexample to C14: on an extended-range device (version word `0x0505`) with every bus
operation succeeding, `mlx90632_init` returns `ERANGE`, the positive value 34, not a negative
value. -/
theorem init_extended_range_returns_positive :
    (∀ k, (xtdRangeBus k).isSome = true) ∧
    (xtdRangeBus 0).map (fun b => (swap16 b &&& 0x00FF, swap16 b &&& 0x7F00)) =
      some (0x05, 0x0500) ∧
    (mlx90632_init xtdRangeBus 2 (Driver.initial : Driver ℚ)).map Prod.fst = some ERANGE ∧
    ERANGE = 34 ∧ ¬ (ERANGE < 0) := by
  refine ⟨?_, by decide, by decide, by decide, by decide⟩
  intro k
  unfold xtdRangeBus
  split
  · rfl
  · split <;> rfl

/-- Claim C14, amended: when the version word has low byte `0x05` and the extended-range key
`(version & 0x7F00) == 0x0500`, the stored address is `0x1D`, the calibration load and the
switch to sleep-step mode return (the latter without error) and the status read and the status
clear succeed, `mlx90632_init` returns `ERANGE`, the positive value 34: not a negative value
and not 0. It does so after the whole initialisation sequence, its last two bus operations being
the status read and the status clear. -/
theorem init_extended_range_returns_ERANGE [LinearOrderedField K] [FloorRing K]
    (bus : Bus) (fuel : Nat) (st : Driver K) (bv ba : Nat)
    (hv : bus st.nops = some bv) (hlow : swap16 bv &&& 0x00FF = 0x05)
    (hkey : swap16 bv &&& 0x7F00 = 0x0500)
    (ha : bus (st.nops + 1) = some ba) (haddr : swap16 ba = 0x1D)
    (r : Int) (st4 : Driver K)
    (hsteps : (mlx90632_readCalib bus fuel (initBeforeCalib bus st)).bind
      (fun p => i2c_melexis_setmode bus fuel MLX90632_PWR_STATUS_SLEEP_STEP p.2) =
        some (r, st4))
    (hr : 0 ≤ r) (bs bw : Nat)
    (hrd : bus st4.nops = some bs) (hwr : bus (st4.nops + 1) = some bw) :
    ∃ st', mlx90632_init bus fuel st = some (ERANGE, st') ∧
      ERANGE = 34 ∧ ¬ (ERANGE < 0) ∧ ERANGE ≠ 0 ∧
      st'.nops = st4.nops + 2 ∧
      st'.trace = st4.trace ++ [Event.read MLX90632_REG_STATUS,
        Event.write MLX90632_REG_STATUS (swap16 bs &&& 0xFFFE)] := by
  have hnot : not16 MLX90632_STAT_DATA_RDY = 0xFFFE := by decide
  rcases hcal : mlx90632_readCalib bus fuel (initBeforeCalib bus st) with _ | ⟨rc, st3⟩
  · rw [hcal] at hsteps
    simp at hsteps
  rw [hcal] at hsteps
  simp only [Option.some_bind] at hsteps
  unfold initBeforeCalib at hcal
  simp only [i2c_read_some bus _ _ st bv hv] at hcal
  rw [i2c_read_some bus _ _ _ ba (by simpa using ha)] at hcal
  simp only at hcal
  simp only [mlx90632_init, i2c_read_some bus _ _ st bv hv, lt_irrefl, if_false]
  rw [i2c_read_some bus _ _ _ ba (by simpa using ha)]
  simp only [lt_irrefl, if_false, hlow, haddr, MLX90632_DSPv5, ne_eq, not_true_eq_false,
    show (0x3A >>> 1 : Nat) = 0x1D by decide]
  rcases h3 : mlx90632_get_refresh_rate bus
    { st with
      nops := st.nops + 1 + 1
      trace := st.trace ++ [Event.read MLX90632_EE_VERSION] ++
        [Event.read MLX90632_EE_I2C_ADDRESS]
      error_melexis90632 :=
        ((st.error_melexis90632 &&& not8 ERROR_MLX_READ) % 2 ^ 8 &&&
          not8 ERROR_MLX_READ) % 2 ^ 8 } with ⟨r3, s3⟩
  rw [h3] at hcal
  simp only at hcal ⊢
  rw [hcal]
  simp only [hsteps, not_lt.mpr hr, if_false, i2c_read_some bus _ _ st4 bs hrd, lt_irrefl]
  rw [i2c_write_some bus _ _ _ bw (by simpa using hwr)]
  simp only [lt_irrefl, if_false, hkey, MLX90632_XTD_RNG_KEY, if_true]
  refine ⟨_, rfl, by decide, by decide, by decide, rfl, ?_⟩
  simp [hnot]

set_option maxRecDepth 10000 in
/-- The calibration load and the switch to sleep-step mode of `mlx90632_init` on the bus of an
extended-range device, from the initial state: both return 0, after 30 bus operations. -/
theorem xtdRange_steps :
    ((mlx90632_readCalib xtdRangeBus 2 (initBeforeCalib xtdRangeBus
        (Driver.initial : Driver ℚ))).bind
      (fun p => i2c_melexis_setmode xtdRangeBus 2 MLX90632_PWR_STATUS_SLEEP_STEP p.2)).map
      (fun p => (p.1, p.2.nops)) = some (0, 30) := by
  decide

/-- Witness for the amended C14: on the bus of an extended-range device (version word
`0x0505`, stored address `0x1D`, every transfer succeeding), from the initial state,
`mlx90632_init` returns `ERANGE = 34` after 32 bus operations. -/
theorem init_extended_range_returns_ERANGE_witness :
    ∃ st', mlx90632_init xtdRangeBus 2 (Driver.initial : Driver ℚ) = some (ERANGE, st') ∧
      ERANGE = 34 ∧ st'.nops = 32 := by
  obtain ⟨⟨r, st4⟩, hsteps, hp⟩ := Option.map_eq_some'.mp xtdRange_steps
  obtain ⟨hr0, hn⟩ := Prod.mk.inj hp
  have hr0' : r = 0 := hr0
  have hn' : st4.nops = 30 := hn
  obtain ⟨st', h1, h2, _, _, h5, _⟩ :=
    init_extended_range_returns_ERANGE xtdRangeBus 2 (Driver.initial : Driver ℚ) 0x0505 0x1D00
      rfl (by decide) (by decide) rfl (by decide) r st4 hsteps (by omega) 0x0200 0x0200
      (by rw [hn']; rfl) (by rw [hn']; rfl)
  exact ⟨st', h1, h2, by rw [h5, hn']⟩

/-! ## Frame of a failed measurement (C15) -/

theorem i2c_read_temps (bus : Bus) (a v : Nat) (st : Driver K) :
    (mlx90632_i2c_read bus a v st).2.2.temps = st.temps := by
  unfold mlx90632_i2c_read; split <;> rfl

theorem i2c_write_temps (bus : Bus) (a v : Nat) (st : Driver K) :
    (mlx90632_i2c_write bus a v st).2.temps = st.temps := by
  unfold mlx90632_i2c_write; split <;> rfl

theorem getCtrlReg_temps (bus : Bus) (st : Driver K) :
    (i2c_melexis_getCtrlReg bus st).2.temps = st.temps := by
  have h := i2c_read_temps bus MLX90632_REG_CTRL 0 st
  rcases hr : mlx90632_i2c_read bus MLX90632_REG_CTRL 0 st with ⟨r, v, s⟩
  rw [hr] at h
  simp only [i2c_melexis_getCtrlReg, hr]
  split <;> exact h

theorem e2busy_temps (bus : Bus) (st : Driver K) :
    (i2c_melexis_e2busy bus st).2.temps = st.temps := by
  have h := i2c_read_temps bus MLX90632_REG_STATUS 0 st
  rcases hr : mlx90632_i2c_read bus MLX90632_REG_STATUS 0 st with ⟨r, v, s⟩
  rw [hr] at h
  simp only [i2c_melexis_e2busy, i2c_melexis_getStsReg, hr]
  split <;> exact h

theorem setmode_loop_temps (bus : Bus) (mode : Nat) :
    ∀ (fuel : Nat) (ret : Int) (reg_ctrl : Nat) (st : Driver K) (r : Int) (st' : Driver K),
      i2c_melexis_setmode_loop bus mode fuel ret reg_ctrl st = some (r, st') →
      st'.temps = st.temps := by
  intro fuel
  induction fuel with
  | zero => intro ret reg_ctrl st r st' h; simp [i2c_melexis_setmode_loop] at h
  | succ fuel ih =>
    intro ret reg_ctrl st r st' h
    simp only [i2c_melexis_setmode_loop] at h
    split at h
    · have hw := i2c_write_temps bus MLX90632_REG_CTRL
        ((reg_ctrl &&& not16 mode ||| mode) % 2 ^ 16) st
      rcases hwr : mlx90632_i2c_write bus MLX90632_REG_CTRL
        ((reg_ctrl &&& not16 mode ||| mode) % 2 ^ 16) st with ⟨r1, s1⟩
      rw [hwr] at hw h
      have hc := getCtrlReg_temps bus s1
      rcases hcr : i2c_melexis_getCtrlReg bus s1 with ⟨v2, s2⟩
      rw [hcr] at hc
      simp only [hcr] at h hw hc
      rw [ih _ _ _ _ _ h, hc, hw]
    · simp only [Option.some.injEq, Prod.mk.injEq] at h
      rw [← h.2]

theorem readCalib_wait_temps (bus : Bus) :
    ∀ (fuel : Nat) (st st' : Driver K),
      mlx90632_readCalib_wait bus fuel st = some st' → st'.temps = st.temps := by
  intro fuel
  induction fuel with
  | zero => intro st st' h; simp [mlx90632_readCalib_wait] at h
  | succ fuel ih =>
    intro st st' h
    have hb := e2busy_temps bus st
    rcases hbr : i2c_melexis_e2busy bus st with ⟨busy, s1⟩
    rw [hbr] at hb
    simp only [mlx90632_readCalib_wait, hbr] at h hb
    cases busy with
    | true => simp only at h; rw [ih _ _ h, hb]
    | false =>
      simp only [Option.some.injEq] at h
      rw [← h, hb]

theorem set_soc_loop_temps (bus : Bus) :
    ∀ (fuel : Nat) (ret : Int) (reg_ctrl : Nat) (st : Driver K) (r : Int) (st' : Driver K),
      i2c_melexis_set_soc_loop bus fuel ret reg_ctrl st = some (r, st') →
      st'.temps = st.temps := by
  intro fuel
  induction fuel with
  | zero => intro ret reg_ctrl st r st' h; simp [i2c_melexis_set_soc_loop] at h
  | succ fuel ih =>
    intro ret reg_ctrl st r st' h
    simp only [i2c_melexis_set_soc_loop] at h
    split at h
    · have hw := i2c_write_temps bus MLX90632_REG_CTRL
        ((reg_ctrl ||| MLX90632_CFG_SOC_MASK) % 2 ^ 16) st
      rcases hwr : mlx90632_i2c_write bus MLX90632_REG_CTRL
        ((reg_ctrl ||| MLX90632_CFG_SOC_MASK) % 2 ^ 16) st with ⟨r1, s1⟩
      rw [hwr] at hw h
      have hc := getCtrlReg_temps bus s1
      rcases hcr : i2c_melexis_getCtrlReg bus s1 with ⟨v2, s2⟩
      rw [hcr] at hc
      simp only [hcr] at h hw hc
      rw [ih _ _ _ _ _ h, hc, hw]
    · simp only [Option.some.injEq, Prod.mk.injEq] at h
      rw [← h.2]

theorem set_soc_temps (bus : Bus) (fuel : Nat) (st : Driver K) (r : Int) (st' : Driver K)
    (h : i2c_melexis_set_soc bus fuel st = some (r, st')) : st'.temps = st.temps := by
  have hc := getCtrlReg_temps bus st
  rcases hcr : i2c_melexis_getCtrlReg bus st with ⟨v, s1⟩
  rw [hcr] at hc
  simp only [i2c_melexis_set_soc, hcr] at h hc
  split at h
  · simp only [Option.some.injEq, Prod.mk.injEq] at h
    rw [← h.2, hc]
  · rw [set_soc_loop_temps bus _ _ _ _ _ _ h, hc]

theorem get_refresh_rate_temps (bus : Bus) (st : Driver K) :
    (mlx90632_get_refresh_rate bus st).2.temps = st.temps := by
  have h := i2c_read_temps bus MLX90632_EE_MEDICAL_MEAS1 0 st
  rcases hr : mlx90632_i2c_read bus MLX90632_EE_MEDICAL_MEAS1 0 st with ⟨r, v, s⟩
  rw [hr] at h
  simp only [mlx90632_get_refresh_rate, hr]
  split <;> exact h

theorem addressed_reset_temps (bus : Bus) (st : Driver K) :
    (mlx90632_addressed_reset bus st).2.temps = st.temps := by
  have hr := i2c_read_temps bus MLX90632_REG_CTRL 0 st
  rcases h1 : mlx90632_i2c_read bus MLX90632_REG_CTRL 0 st with ⟨r1, v1, s1⟩
  rw [h1] at hr
  simp only at hr
  simp only [mlx90632_addressed_reset, h1]
  split
  · exact hr
  · have hw := i2c_write_temps bus MLX90632_REG_CTRL
      ((v1 &&& not16 MLX90632_CFG_PWR_MASK ||| MLX90632_PWR_STATUS_STEP) % 2 ^ 16) s1
    rcases h2 : mlx90632_i2c_write bus MLX90632_REG_CTRL
      ((v1 &&& not16 MLX90632_CFG_PWR_MASK ||| MLX90632_PWR_STATUS_STEP) % 2 ^ 16) s1
      with ⟨r2, s2⟩
    rw [h2] at hw
    simp only at hw ⊢
    split
    · rw [hw, hr]
    · have hw3 := i2c_write_temps bus 0x3005 MLX90632_RESET_CMD s2
      rcases h3 : mlx90632_i2c_write bus 0x3005 MLX90632_RESET_CMD s2 with ⟨r3, s3⟩
      rw [h3] at hw3
      simp only at hw3 ⊢
      split
      · rw [hw3, hw, hr]
      · rw [i2c_write_temps]
        show s3.temps = st.temps
        rw [hw3, hw, hr]

/-- A read-or-return step keeps the temperatures when the rest of the function does. -/
theorem i2c_read_or_return_temps (bus : Bus) (a v : Nat) (st s0 : Driver K)
    (k : Nat → Driver K → Int × Driver K) (hst : st.temps = s0.temps)
    (hk : ∀ v' s, s.temps = s0.temps → (k v' s).2.temps = s0.temps) :
    (i2c_read_or_return bus a v st k).2.temps = s0.temps := by
  have h := i2c_read_temps bus a v st
  rcases hr : mlx90632_i2c_read bus a v st with ⟨r, v1, s1⟩
  rw [hr] at h
  simp only [i2c_read_or_return, hr]
  split
  · exact h.trans hst
  · exact hk _ _ (h.trans hst)

theorem readCalib_reads_temps [LinearOrderedField K] [FloorRing K] (bus : Bus) (st : Driver K) :
    (mlx90632_readCalib_reads bus st).2.temps = st.temps := by
  unfold mlx90632_readCalib_reads
  refine i2c_read_or_return_temps bus _ _ _ st _ rfl ?_
  iterate 21
    intro v' s hs
    dsimp only
    refine i2c_read_or_return_temps bus _ _ _ st _ hs ?_
  intro v' s hs
  exact hs

theorem readCalib_temps [LinearOrderedField K] [FloorRing K]
    (bus : Bus) (fuel : Nat) (st : Driver K)
    (r : Int) (st' : Driver K) (h : mlx90632_readCalib bus fuel st = some (r, st')) :
    st'.temps = st.temps := by
  simp only [mlx90632_readCalib] at h
  split at h
  · simp at h
  · rename_i s1 hw
    split at h
    · simp at h
    · rename_i r2 s2 hm
      simp only [Option.some.injEq] at h
      have h3 := readCalib_reads_temps bus s2
      rw [h] at h3
      rw [h3, setmode_loop_temps bus _ _ _ _ _ _ _ hm, readCalib_wait_temps bus _ _ _ hw]

theorem init_temps [LinearOrderedField K] [FloorRing K] (bus : Bus) (fuel : Nat) (st : Driver K)
    (r : Int) (st' : Driver K) (h : mlx90632_init bus fuel st = some (r, st')) :
    st'.temps = st.temps := by
  have t1 := i2c_read_temps bus MLX90632_EE_VERSION 0 st
  rcases h1 : mlx90632_i2c_read bus MLX90632_EE_VERSION 0 st with ⟨r1, v1, s1⟩
  rw [h1] at t1
  simp only [mlx90632_init, h1] at h t1
  split at h
  · simp only [Option.some.injEq, Prod.mk.injEq] at h
    rw [← h.2, t1]
  split at h
  · simp only [Option.some.injEq, Prod.mk.injEq] at h
    rw [← h.2, t1]
  have t2 := i2c_read_temps bus MLX90632_EE_I2C_ADDRESS 0 s1
  rcases h2 : mlx90632_i2c_read bus MLX90632_EE_I2C_ADDRESS 0 s1 with ⟨r2, v2, s2⟩
  rw [h2] at t2
  simp only [h2] at h t2
  split at h
  · simp only [Option.some.injEq, Prod.mk.injEq] at h
    rw [← h.2, t2, t1]
  split at h
  · simp only [Option.some.injEq, Prod.mk.injEq] at h
    rw [← h.2, t2, t1]
  have t3 := get_refresh_rate_temps bus s2
  rcases h3 : mlx90632_get_refresh_rate bus s2 with ⟨r3, s3⟩
  rw [h3] at t3
  simp only [h3] at h t3
  split at h
  · simp at h
  rename_i r4 s4 h4
  have t4 := readCalib_temps bus fuel _ _ _ h4
  split at h
  · simp at h
  rename_i r5 s5 h5
  have t5 := setmode_loop_temps bus _ _ _ _ _ _ _ h5
  split at h
  · simp only [Option.some.injEq, Prod.mk.injEq] at h
    rw [← h.2, t5, t4]
    exact t3.trans (t2.trans t1)
  have t6 := i2c_read_temps bus MLX90632_REG_STATUS v2 s5
  rcases h6 : mlx90632_i2c_read bus MLX90632_REG_STATUS v2 s5 with ⟨r6, v6, s6⟩
  rw [h6] at t6
  simp only [h6] at h t6
  split at h
  · simp only [Option.some.injEq, Prod.mk.injEq] at h
    rw [← h.2, t6, t5, t4]
    exact t3.trans (t2.trans t1)
  have t7 := i2c_write_temps bus MLX90632_REG_STATUS (v6 &&& not16 MLX90632_STAT_DATA_RDY) s6
  rcases h7 : mlx90632_i2c_write bus MLX90632_REG_STATUS
    (v6 &&& not16 MLX90632_STAT_DATA_RDY) s6 with ⟨r7, s7⟩
  rw [h7] at t7
  simp only [h7] at h t7
  have hfin : s7.temps = st.temps := by
    rw [t7, t6, t5, t4]
    exact t3.trans (t2.trans t1)
  split at h
  · simp only [Option.some.injEq, Prod.mk.injEq] at h
    rw [← h.2]; exact hfin
  split at h
  · simp only [Option.some.injEq, Prod.mk.injEq] at h
    rw [← h.2]; exact hfin
  · simp only [Option.some.injEq, Prod.mk.injEq] at h
    rw [← h.2]; exact hfin

theorem check_i2c_comm_temps [LinearOrderedField K] [FloorRing K] (bus : Bus) (fuel : Nat)
    (st st' : Driver K) (h : mlx90632_check_i2c_comm bus fuel st = some st') :
    st'.temps = st.temps := by
  have t1 := i2c_read_temps bus MLX90632_REG_STATUS 0 st
  rcases h1 : mlx90632_i2c_read bus MLX90632_REG_STATUS 0 st with ⟨r1, v1, s1⟩
  rw [h1] at t1
  simp only [mlx90632_check_i2c_comm, h1] at h t1
  by_cases hneg : r1 < 0
  · simp only [hneg, if_true, Bool.not_false] at h
    have t2 := i2c_read_temps bus MLX90632_REG_STATUS v1 
      { s1 with MLX_STS := { s1.MLX_STS with comm_sts := false } }
    rcases h2 : mlx90632_i2c_read bus MLX90632_REG_STATUS v1 
      { s1 with MLX_STS := { s1.MLX_STS with comm_sts := false } } with ⟨r2, v2, s2⟩
    rw [h2] at t2
    simp only [h2] at h t2
    split at h
    · split at h
      · simp at h
      · rename_i r3 s3 h3
        simp only [Option.some.injEq] at h
        have t3 := init_temps bus fuel _ _ _ h3
        rw [← h]
        show s3.temps = st.temps
        rw [t3, t2]
        exact t1
    · simp only [Option.some.injEq] at h
      rw [← h, t2]
      exact t1
  · simp only [hneg, if_false] at h
    split at h
    · have t2 := i2c_read_temps bus MLX90632_REG_STATUS v1 s1
      rcases h2 : mlx90632_i2c_read bus MLX90632_REG_STATUS v1 s1 with ⟨r2, v2, s2⟩
      rw [h2] at t2
      simp only [h2] at h t2
      split at h
      · split at h
        · simp at h
        · rename_i r3 s3 h3
          simp only [Option.some.injEq] at h
          have t3 := init_temps bus fuel _ _ _ h3
          rw [← h]
          show s3.temps = st.temps
          rw [t3, t2]
          exact t1
      · simp only [Option.some.injEq] at h
        rw [← h, t2]
        exact t1
    · simp only [Option.some.injEq] at h
      rw [← h]
      exact t1

theorem poll_temps (bus : Bus) :
    ∀ (t reg_status : Nat) (st : Driver K),
      (mlx90632_start_measurement_poll bus t reg_status st).2.2.temps = st.temps := by
  intro t
  induction t with
  | zero => intro reg_status st; rfl
  | succ t ih =>
    intro reg_status st
    have t1 := i2c_read_temps bus MLX90632_REG_STATUS reg_status st
    rcases h1 : mlx90632_i2c_read bus MLX90632_REG_STATUS reg_status st with ⟨r1, v1, s1⟩
    rw [h1] at t1
    simp only [mlx90632_start_measurement_poll, h1] at t1 ⊢
    split
    · exact t1
    · rw [ih]
      exact t1

theorem start_measurement_temps [LinearOrderedField K] [FloorRing K] (bus : Bus) (fuel : Nat)
    (st : Driver K) (ret : Int) (st' : Driver K)
    (h : mlx90632_start_measurement bus fuel st = some (ret, st')) :
    st'.temps = st.temps := by
  simp only [mlx90632_start_measurement] at h
  split at h
  · simp at h
  rename_i s1 h1
  have t1 := check_i2c_comm_temps bus fuel _ _ h1
  split at h
  · simp at h
  rename_i r2 s2 h2
  have t2 := set_soc_temps bus fuel _ _ _ h2
  split at h
  · simp only [Option.some.injEq, Prod.mk.injEq] at h
    rw [← h.2, t2, t1]
  have t3 := i2c_read_temps bus MLX90632_REG_STATUS 0 s2
  rcases h3 : mlx90632_i2c_read bus MLX90632_REG_STATUS 0 s2 with ⟨r3, v3, s3⟩
  rw [h3] at t3
  simp only [h3] at h t3
  split at h
  · simp only [Option.some.injEq, Prod.mk.injEq] at h
    rw [← h.2, t3, t2, t1]
  have t4 := i2c_write_temps bus MLX90632_REG_STATUS (v3 &&& not16 MLX90632_STAT_DATA_RDY) s3
  rcases h4 : mlx90632_i2c_write bus MLX90632_REG_STATUS
    (v3 &&& not16 MLX90632_STAT_DATA_RDY) s3 with ⟨r4, s4⟩
  rw [h4] at t4
  simp only [h4] at h t4
  split at h
  · simp only [Option.some.injEq, Prod.mk.injEq] at h
    rw [← h.2, t4, t3, t2, t1]
  have t5 := poll_temps bus MLX90632_MAX_NUMBER_MESUREMENT_READ_TRIES v3 s4
  rcases h5 : mlx90632_start_measurement_poll bus MLX90632_MAX_NUMBER_MESUREMENT_READ_TRIES
    v3 s4 with ⟨r5, v5, s5⟩
  rw [h5] at t5
  simp only [h5] at h t5
  split at h
  · simp only [Option.some.injEq, Prod.mk.injEq] at h
    rw [← h.2, t5, t4, t3, t2, t1]
  · simp only [Option.some.injEq, Prod.mk.injEq] at h
    rw [← h.2, t5, t4, t3, t2, t1]

theorem searchWaitTime_temps (bus : Bus) (meas_ret : Int) (st : Driver K) :
    (mlx90632_searchWaitTime bus meas_ret st).temps = st.temps := by
  simp only [mlx90632_searchWaitTime]
  split
  · split
    · have hrs := addressed_reset_temps bus
        { st with MLX_STS := { st.MLX_STS with
            count_check_meas := (st.MLX_STS.count_check_meas + 1) % 2 ^ 8
            wait_time_meas := (st.MLX_STS.wait_time_meas + MLX90632_STEP_WAIT_TIME) % 2 ^ 16 } }
      rcases hr : mlx90632_addressed_reset bus
        { st with MLX_STS := { st.MLX_STS with
            count_check_meas := (st.MLX_STS.count_check_meas + 1) % 2 ^ 8
            wait_time_meas := (st.MLX_STS.wait_time_meas + MLX90632_STEP_WAIT_TIME) % 2 ^ 16 } }
        with ⟨r, s1⟩
      rw [hr] at hrs
      simp only at hrs ⊢
      split
      · exact hrs
      · exact hrs
    · rfl
  · rfl

/-- Claim C15: when `mlx90632_start_measurement` returns a negative value, `mlx90632_read`
returns the state left by the backoff controller without running the temperature computation,
and `MLX_T.ambient`, `MLX_T.object` and the four `MLX_T_RAW` fields are those before the
call. -/
theorem read_failure_keeps_temperatures [LinearOrderedField K] [FloorRing K]
    (sqrt : K → K) (bus : Bus)
    (fuel : Nat) (st : Driver K) (ret : Int) (st1 : Driver K)
    (hsm : mlx90632_start_measurement bus fuel st = some (ret, st1)) (hneg : ret < 0) :
    mlx90632_read sqrt bus fuel st = some (mlx90632_searchWaitTime bus ret st1) ∧
    (mlx90632_searchWaitTime bus ret st1).MLX_T.ambient = st.MLX_T.ambient ∧
    (mlx90632_searchWaitTime bus ret st1).MLX_T.object = st.MLX_T.object ∧
    (mlx90632_searchWaitTime bus ret st1).MLX_T_RAW = st.MLX_T_RAW := by
  have hge : ¬ ret ≥ 0 := not_le.mpr hneg
  have ht : (mlx90632_searchWaitTime bus ret st1).temps = st.temps :=
    (searchWaitTime_temps bus ret st1).trans (start_measurement_temps bus fuel st ret st1 hsm)
  have hT : (mlx90632_searchWaitTime bus ret st1).MLX_T = st.MLX_T := congrArg Prod.fst ht
  refine ⟨?_, ?_, ?_, congrArg Prod.snd ht⟩
  · simp only [mlx90632_read, hsm, hge, if_false]
  · rw [hT]
  · rw [hT]

/-- Witness for C15: on a bus whose every transfer fails, the measurement start returns -1 and
the temperatures are kept. -/
theorem read_failure_keeps_temperatures_witness :
    ∃ st', mlx90632_read (fun x => x) deadBus 0 commUp = some st' ∧
      st'.MLX_T = commUp.MLX_T ∧ st'.MLX_T_RAW = commUp.MLX_T_RAW := by
  obtain ⟨h, ha, ho, hr⟩ := read_failure_keeps_temperatures (fun x => x) deadBus 0 commUp (-1)
    { commUp with
      MLX_STS := { commUp.MLX_STS with comm_sts := false }
      nops := 3
      trace := [Event.read MLX90632_REG_STATUS, Event.read MLX90632_REG_STATUS,
        Event.read MLX90632_REG_CTRL]
      error_melexis90632 := 1 } (by decide) (by decide)
  exact ⟨_, h, by decide, hr⟩

/-! ## Scaled temperature getters (C16) -/

theorem toUint16_floor [LinearOrderedField K] [FloorRing K] (x : K) (h0 : 0 ≤ x)
    (h1 : x < 65536) : (toUint16 x : Int) = ⌊x⌋ := by
  have hf0 : 0 ≤ ⌊x⌋ := Int.floor_nonneg.mpr h0
  have hf1 : ⌊x⌋ < 65536 := Int.floor_lt.mpr (by exact_mod_cast h1)
  unfold toUint16
  rw [if_pos h0]
  omega

/-- The `double` evaluation of `(t + 40) * 10` for a product in `[0, 65535.5)`: the rounded
product is within `2^-36` of the exact one, it is in the range of `uint16_t`, and the cast
yields its integer part. -/
theorem scaled_double_product [LinearOrderedField K] [FloorRing K] (t : K)
    (h0 : 0 ≤ (t + 40) * 10) (h1 : (t + 40) * 10 < 131071 / 2) :
    |toDouble (toDouble (t + 40) * 10) - (t + 40) * 10| ≤ 1 / 2 ^ 36 ∧
    (toUint16 (toDouble (toDouble (t + 40) * 10)) : Int) =
      ⌊toDouble (toDouble (t + 40) * 10)⌋ := by
  have hy : 0 ≤ t + 40 := by linarith
  have hfy0 : 0 ≤ toDouble (t + 40) := roundToPrecision_nonneg 53 (by norm_num) _ hy
  have hz0 : 0 ≤ toDouble (t + 40) * 10 := by positivity
  have hp0 : 0 ≤ toDouble (toDouble (t + 40) * 10) :=
    roundToPrecision_nonneg 53 (by norm_num) _ hz0
  have e1 : |toDouble (t + 40) - (t + 40)| ≤ |t + 40| / 2 ^ 53 :=
    roundToPrecision_abs_sub_le 53 _
  have e2 : |toDouble (toDouble (t + 40) * 10) - toDouble (t + 40) * 10| ≤
      |toDouble (t + 40) * 10| / 2 ^ 53 := roundToPrecision_abs_sub_le 53 _
  rw [abs_of_nonneg hy] at e1
  rw [abs_of_nonneg hz0] at e2
  generalize toDouble (toDouble (t + 40) * 10) = p at hp0 e2 ⊢
  generalize toDouble (t + 40) = fy at hfy0 hz0 e1 e2
  have e1' := abs_le.mp e1
  have e2' := abs_le.mp e2
  have hbound : |p - (t + 40) * 10| ≤ 1 / 2 ^ 36 := by
    rw [abs_le]
    constructor
    · norm_num at e1' e2' ⊢
      linarith [e1'.1, e1'.2, e2'.1, e2'.2]
    · norm_num at e1' e2' ⊢
      linarith [e1'.1, e1'.2, e2'.1, e2'.2]
  refine ⟨hbound, ?_⟩
  apply toUint16_floor _ hp0
  have := (abs_le.mp hbound).2
  norm_num at this ⊢
  linarith

/-- The integer part of a value within `d` of `x` is that of `x` when the fractional part of
`x` is at least `d` and below `1 - d`. -/
theorem floor_eq_of_near [LinearOrderedField K] [FloorRing K] (p x d : K)
    (h : |p - x| ≤ d) (h1 : d ≤ Int.fract x) (h2 : Int.fract x < 1 - d) : ⌊p⌋ = ⌊x⌋ := by
  have hd : Int.fract x = x - ⌊x⌋ := rfl
  rw [hd] at h1 h2
  obtain ⟨ha, hb⟩ := abs_le.mp h
  rw [Int.floor_eq_iff]
  constructor <;> linarith

theorem round_of_fract_ge [LinearOrderedField K] [FloorRing K] (x : K)
    (h : 1 / 2 ≤ Int.fract x) : round x = ⌊x⌋ + 1 := by
  have hd : Int.fract x = x - ⌊x⌋ := rfl
  have hl := Int.lt_floor_add_one x
  rw [hd] at h
  rw [round_eq, Int.floor_eq_iff]
  push_cast
  constructor <;> linarith

/-- The `double` evaluation of `(t + 40) * 10` for the `double` `t` nearest to 20.2: the sum is
a tie and rounds to the even neighbour `8472396798990746 / 2^47`, and the product rounds to
602, while the exact product is below 602. -/
theorem double_product_20_2 :
    toDouble (toDouble ((5685794529555251 / 2 ^ 48 : ℚ) + 40) * 10) = 602 ∧
    ⌊((5685794529555251 / 2 ^ 48 : ℚ) + 40) * 10⌋ = 601 := by
  have hsum : toDouble ((5685794529555251 / 2 ^ 48 : ℚ) + 40) = 8472396798990746 / 2 ^ 47 := by
    unfold toDouble
    rw [roundToPrecision_eq_of 53 _ 5
      (by rw [abs_of_pos (by norm_num)]; norm_num)
      (by rw [abs_of_pos (by norm_num)]; norm_num)]
    have hq : ((5685794529555251 / 2 ^ 48 : ℚ) + 40) / 2 ^ ((5 : Int) + 1 - ((53 : Nat) : Int)) =
        ((8472396798990745 : Int) : ℚ) + 1 / 2 := by
      norm_num [zpow_neg]
    rw [hq, roundHalfEven_tie, if_neg (by decide)]
    norm_num [zpow_neg]
  have hprod : toDouble ((8472396798990746 / 2 ^ 47 : ℚ) * 10) = 602 := by
    unfold toDouble
    rw [roundToPrecision_eq_of 53 _ 9
      (by rw [abs_of_pos (by norm_num)]; norm_num)
      (by rw [abs_of_pos (by norm_num)]; norm_num)]
    have hq : roundHalfEven ((8472396798990746 / 2 ^ 47 : ℚ) * 10 /
        2 ^ ((9 : Int) + 1 - ((53 : Nat) : Int))) = 5295247999369216 := by
      apply roundHalfEven_eq_of_lt
      · norm_num [zpow_neg]
      · norm_num [zpow_neg]
    rw [hq]
    norm_num [zpow_neg]
  refine ⟨by rw [hsum, hprod], ?_⟩
  rw [Int.floor_eq_iff]
  constructor <;> norm_num

/-- Counterexample to C16: with the stored temperatures 25.06, `(T + 40) * 10` is 650.6, in the
range of the claim, its nearest integer is 651, and both getters return 650. -/
theorem getTemp_truncates_25_06 :
    storedTemps.MLX_T.ambient = 1253 / 50 ∧ storedTemps.MLX_T.object = 1253 / 50 ∧
    (0 : ℚ) ≤ (1253 / 50 + 40) * 10 ∧ ((1253 / 50 + 40) * 10 : ℚ) < 65535.5 ∧
    round ((1253 / 50 + 40) * 10 : ℚ) = 651 ∧
    mlx90632_getTempAmb storedTemps = 650 ∧ mlx90632_getTempObj storedTemps = 650 := by
  have hx : ((1253 / 50 + 40) * 10 : ℚ) = 3253 / 5 := by norm_num
  have hfl : ⌊(3253 / 5 : ℚ)⌋ = 650 := by
    rw [Int.floor_eq_iff]; constructor <;> norm_num
  have hfr : Int.fract (3253 / 5 : ℚ) = 3 / 5 := by
    rw [Int.fract, hfl]; norm_num
  have hr : round (3253 / 5 : ℚ) = 651 := by
    rw [round_eq, Int.floor_eq_iff]; constructor <;> norm_num
  obtain ⟨hb, hc⟩ := scaled_double_product (1253 / 50 : ℚ) (by norm_num) (by norm_num)
  have hfloor := floor_eq_of_near _ _ _ hb (by rw [hx, hfr]; norm_num)
    (by rw [hx, hfr]; norm_num)
  rw [hx, hfl] at hfloor
  rw [hfloor] at hc
  have hu : toUint16 (toDouble (toDouble ((1253 / 50 : ℚ) + 40) * 10)) = 650 := by
    exact_mod_cast hc
  refine ⟨rfl, rfl, by norm_num, by norm_num, ?_, hu, hu⟩
  rw [hx, hr]

/-- Claim C16, amended: for stored temperatures with `0 ≤ (T + 40) * 10 < 65535.5`,
`mlx90632_getTempAmb` and `mlx90632_getTempObj` return the integer part of the `double` value
of `(T + 40) * 10` (sum and product each rounded to 53 bits), not its nearest integer. That
value is within `2^-36` of the exact product, so the result is the integer part of
`(T + 40) * 10` whenever the fractional part of the exact product is at least `2^-36` and below
`1 - 2^-36`; with a fractional part from one half on in that range it is one less than the
nearest integer. -/
theorem getTemp_truncates_double_product [LinearOrderedField K] [FloorRing K] (st : Driver K)
    (ha0 : 0 ≤ (st.MLX_T.ambient + 40) * 10) (ha1 : (st.MLX_T.ambient + 40) * 10 < 131071 / 2)
    (ho0 : 0 ≤ (st.MLX_T.object + 40) * 10) (ho1 : (st.MLX_T.object + 40) * 10 < 131071 / 2) :
    (mlx90632_getTempAmb st : Int) = ⌊toDouble (toDouble (st.MLX_T.ambient + 40) * 10)⌋ ∧
    |toDouble (toDouble (st.MLX_T.ambient + 40) * 10) - (st.MLX_T.ambient + 40) * 10| ≤
      1 / 2 ^ 36 ∧
    (1 / 2 ^ 36 ≤ Int.fract ((st.MLX_T.ambient + 40) * 10) →
      Int.fract ((st.MLX_T.ambient + 40) * 10) < 1 - 1 / 2 ^ 36 →
      (mlx90632_getTempAmb st : Int) = ⌊(st.MLX_T.ambient + 40) * 10⌋) ∧
    (1 / 2 ≤ Int.fract ((st.MLX_T.ambient + 40) * 10) →
      Int.fract ((st.MLX_T.ambient + 40) * 10) < 1 - 1 / 2 ^ 36 →
      (mlx90632_getTempAmb st : Int) = round ((st.MLX_T.ambient + 40) * 10) - 1) ∧
    (mlx90632_getTempObj st : Int) = ⌊toDouble (toDouble (st.MLX_T.object + 40) * 10)⌋ ∧
    |toDouble (toDouble (st.MLX_T.object + 40) * 10) - (st.MLX_T.object + 40) * 10| ≤
      1 / 2 ^ 36 ∧
    (1 / 2 ^ 36 ≤ Int.fract ((st.MLX_T.object + 40) * 10) →
      Int.fract ((st.MLX_T.object + 40) * 10) < 1 - 1 / 2 ^ 36 →
      (mlx90632_getTempObj st : Int) = ⌊(st.MLX_T.object + 40) * 10⌋) ∧
    (1 / 2 ≤ Int.fract ((st.MLX_T.object + 40) * 10) →
      Int.fract ((st.MLX_T.object + 40) * 10) < 1 - 1 / 2 ^ 36 →
      (mlx90632_getTempObj st : Int) = round ((st.MLX_T.object + 40) * 10) - 1) := by
  obtain ⟨ab, ac⟩ := scaled_double_product st.MLX_T.ambient ha0 ha1
  obtain ⟨ob, oc⟩ := scaled_double_product st.MLX_T.object ho0 ho1
  have hsmall : (1 : K) / 2 ^ 36 ≤ 1 / 2 := by norm_num
  refine ⟨ac, ab, ?_, ?_, oc, ob, ?_, ?_⟩
  · intro h1 h2
    exact ac.trans (floor_eq_of_near _ _ _ ab h1 h2)
  · intro h1 h2
    rw [round_of_fract_ge _ h1]
    have hfl : (mlx90632_getTempAmb st : Int) = ⌊(st.MLX_T.ambient + 40) * 10⌋ :=
      ac.trans (floor_eq_of_near _ _ _ ab (le_trans hsmall h1) h2)
    omega
  · intro h1 h2
    exact oc.trans (floor_eq_of_near _ _ _ ob h1 h2)
  · intro h1 h2
    rw [round_of_fract_ge _ h1]
    have hfl : (mlx90632_getTempObj st : Int) = ⌊(st.MLX_T.object + 40) * 10⌋ :=
      oc.trans (floor_eq_of_near _ _ _ ob (le_trans hsmall h1) h2)
    omega

/-- Witness for the amended C16: with the stored temperatures at the `double` nearest to 20.2
both getters return 602, the integer part of the `double` product, while the integer part of
the exact product is 601. -/
theorem getTemp_truncates_double_product_witness :
    mlx90632_getTempAmb storedDouble = 602 ∧ mlx90632_getTempObj storedDouble = 602 ∧
    ⌊(storedDouble.MLX_T.ambient + 40) * 10⌋ = 601 := by
  obtain ⟨h1, _, _, _, h5, _⟩ := getTemp_truncates_double_product storedDouble
    (by show (0 : ℚ) ≤ (5685794529555251 / 2 ^ 48 + 40) * 10; norm_num)
    (by show ((5685794529555251 / 2 ^ 48 + 40) * 10 : ℚ) < 131071 / 2; norm_num)
    (by show (0 : ℚ) ≤ (5685794529555251 / 2 ^ 48 + 40) * 10; norm_num)
    (by show ((5685794529555251 / 2 ^ 48 + 40) * 10 : ℚ) < 131071 / 2; norm_num)
  have hp : toDouble (toDouble (storedDouble.MLX_T.ambient + 40) * 10) = 602 :=
    double_product_20_2.1
  have hq : toDouble (toDouble (storedDouble.MLX_T.object + 40) * 10) = 602 :=
    double_product_20_2.1
  rw [hp] at h1
  rw [hq] at h5
  have f : ⌊(602 : ℚ)⌋ = 602 := by
    rw [Int.floor_eq_iff]; constructor <;> norm_num
  rw [f] at h1 h5
  exact ⟨by exact_mod_cast h1, by exact_mod_cast h5, double_product_20_2.2⟩

/-! ## Error flags of the bus primitives (C17) -/

theorem runCalls_error (bus : Bus) :
    ∀ (cs : List BusCall) (st : Driver K) (f : Bool × Bool),
      st.error_melexis90632 = errorByte f →
      (runCalls bus cs st).error_melexis90632 = errorByte (lastFailed bus cs st.nops f) := by
  intro cs
  induction cs with
  | nil => intro st f h; exact h
  | cons c cs ih =>
    intro st f h
    obtain ⟨f1, f2⟩ := f
    cases c with
    | read a v =>
      simp only [runCalls, lastFailed]
      have hn := i2c_read_nops bus a v st
      rw [← hn]
      apply ih
      cases hb : bus st.nops with
      | none =>
        rw [i2c_read_none bus a v st hb]
        simp only [h, Option.isNone_none]
        cases f1 <;> cases f2 <;> decide
      | some b =>
        rw [i2c_read_some bus a v st b hb]
        simp only [h, Option.isNone_some]
        cases f1 <;> cases f2 <;> decide
    | write a v =>
      simp only [runCalls, lastFailed]
      have hn := i2c_write_nops bus a v st
      rw [← hn]
      apply ih
      cases hb : bus st.nops with
      | none =>
        rw [i2c_write_none bus a v st hb]
        simp only [h, Option.isNone_none]
        cases f1 <;> cases f2 <;> decide
      | some b =>
        rw [i2c_write_some bus a v st b hb]
        simp only [h, Option.isNone_some]
        cases f1 <;> cases f2 <;> decide

set_option maxRecDepth 100000 in
theorem error_byte_bits :
    ∀ e, e < 256 →
      ((e ||| ERROR_MLX_READ) % 2 ^ 8) &&& 2 = e &&& 2 ∧
      ((e &&& not8 ERROR_MLX_READ) % 2 ^ 8) &&& 2 = e &&& 2 ∧
      ((e ||| ERROR_MLX_WRITE) % 2 ^ 8) &&& 1 = e &&& 1 ∧
      ((e &&& not8 ERROR_MLX_WRITE) % 2 ^ 8) &&& 1 = e &&& 1 := by
  decide

/-- Claim C17: after any sequence of `mlx90632_i2c_read` and `mlx90632_i2c_write` calls made
from a state whose error byte is 0, bit 0 of `get_melexis_error()` is set iff the most recent
read failed and bit 1 iff the most recent write failed (clear when no call of that kind was
made), no other bit is set, a read leaves bit 1 as it was and a write leaves bit 0 as it
was. -/
theorem error_flags_track_last_calls (bus : Bus) (cs : List BusCall) (st : Driver K)
    (h0 : st.error_melexis90632 = 0) :
    get_melexis_error (runCalls bus cs st) =
      errorByte (lastFailed bus cs st.nops (false, false)) ∧
    (get_melexis_error (runCalls bus cs st) &&& 1 = 1 ↔
      (lastFailed bus cs st.nops (false, false)).1 = true) ∧
    (get_melexis_error (runCalls bus cs st) &&& 2 = 2 ↔
      (lastFailed bus cs st.nops (false, false)).2 = true) ∧
    get_melexis_error (runCalls bus cs st) < 4 ∧
    (∀ (a v : Nat) (s : Driver K), s.error_melexis90632 < 256 →
      get_melexis_error (mlx90632_i2c_read bus a v s).2.2 &&& 2 = get_melexis_error s &&& 2 ∧
      get_melexis_error (mlx90632_i2c_write bus a v s).2 &&& 1 = get_melexis_error s &&& 1) := by
  have h := runCalls_error bus cs st (false, false) h0
  simp only [get_melexis_error]
  rw [h]
  refine ⟨rfl, ?_, ?_, ?_, ?_⟩
  · rcases lastFailed bus cs st.nops (false, false) with ⟨f1, f2⟩
    cases f1 <;> cases f2 <;> decide
  · rcases lastFailed bus cs st.nops (false, false) with ⟨f1, f2⟩
    cases f1 <;> cases f2 <;> decide
  · rcases lastFailed bus cs st.nops (false, false) with ⟨f1, f2⟩
    cases f1 <;> cases f2 <;> decide
  · intro a v s hs
    obtain ⟨b1, b2, b3, b4⟩ := error_byte_bits s.error_melexis90632 hs
    constructor
    · cases hb : bus s.nops with
      | none => rw [i2c_read_none bus a v s hb]; exact b1
      | some b => rw [i2c_read_some bus a v s b hb]; exact b2
    · cases hb : bus s.nops with
      | none => rw [i2c_write_none bus a v s hb]; exact b3
      | some b => rw [i2c_write_some bus a v s b hb]; exact b4

/-- Witness for C17: a failed read followed by a failed write, from the initial state, leaves
the error byte at 3. -/
theorem error_flags_track_last_calls_witness :
    get_melexis_error
        (runCalls deadBus [BusCall.read MLX90632_REG_STATUS 0, BusCall.write MLX90632_REG_CTRL 0]
          (Driver.initial : Driver ℚ)) =
      errorByte (lastFailed deadBus
        [BusCall.read MLX90632_REG_STATUS 0, BusCall.write MLX90632_REG_CTRL 0]
        (Driver.initial : Driver ℚ).nops (false, false)) ∧
    errorByte (lastFailed deadBus
        [BusCall.read MLX90632_REG_STATUS 0, BusCall.write MLX90632_REG_CTRL 0]
        (Driver.initial : Driver ℚ).nops (false, false)) = 3 :=
  ⟨(error_flags_track_last_calls deadBus
      [BusCall.read MLX90632_REG_STATUS 0, BusCall.write MLX90632_REG_CTRL 0]
      (Driver.initial : Driver ℚ) rfl).1, by decide⟩

/-! ## State of the device after a successful initialisation (C19) -/

/-- The set-mode loop for sleep-step mode can only be left right after a successful read of
the control register whose power-mode bits are the sleep-step pattern. -/
theorem setmode_loop_exit (bus : Bus) :
    ∀ (fuel : Nat) (ret : Int) (reg_ctrl : Nat) (st : Driver K) (r : Int) (st' : Driver K),
      (reg_ctrl &&& (GENMASK 2 1 % 2 ^ 16) ≠ MLX90632_PWR_STATUS_SLEEP_STEP ∨
        ∃ tr b, st.trace = tr ++ [Event.read MLX90632_REG_CTRL] ∧ 1 ≤ st.nops ∧
          bus (st.nops - 1) = some b ∧ swap16 b = reg_ctrl) →
      i2c_melexis_setmode_loop bus MLX90632_PWR_STATUS_SLEEP_STEP fuel ret reg_ctrl st =
        some (r, st') →
      ∃ tr b, st'.trace = tr ++ [Event.read MLX90632_REG_CTRL] ∧ 1 ≤ st'.nops ∧
        bus (st'.nops - 1) = some b ∧
        swap16 b &&& (GENMASK 2 1 % 2 ^ 16) = MLX90632_PWR_STATUS_SLEEP_STEP := by
  intro fuel
  induction fuel with
  | zero => intro ret reg_ctrl st r st' _ h; simp [i2c_melexis_setmode_loop] at h
  | succ fuel ih =>
    intro ret reg_ctrl st r st' hinv h
    simp only [i2c_melexis_setmode_loop] at h
    split at h
    · rcases hwr : mlx90632_i2c_write bus MLX90632_REG_CTRL
        ((reg_ctrl &&& not16 MLX90632_PWR_STATUS_SLEEP_STEP |||
          MLX90632_PWR_STATUS_SLEEP_STEP) % 2 ^ 16) st with ⟨r1, s1⟩
      rw [hwr] at h
      simp only at h
      cases hb : bus s1.nops with
      | none =>
        simp only [i2c_melexis_getCtrlReg, i2c_read_none bus _ _ s1 hb] at h
        simp only [show ((-1 : Int) < 0) = True from eq_true (by norm_num), if_true] at h
        exact ih _ _ _ _ _ (Or.inl (by decide)) h
      | some b =>
        simp only [i2c_melexis_getCtrlReg, i2c_read_some bus _ _ s1 b hb, lt_irrefl,
          if_false] at h
        refine ih _ _ _ _ _ (Or.inr ⟨s1.trace, b, rfl, ?_, ?_, rfl⟩) h
        · show 1 ≤ s1.nops + 1
          omega
        · show bus (s1.nops + 1 - 1) = some b
          rw [Nat.add_sub_cancel]; exact hb
    · rename_i hc
      simp only [Option.some.injEq, Prod.mk.injEq] at h
      rcases hinv with hne | ⟨tr, b, h1, h2, h3, h4⟩
      · exact absurd (not_not.mp hc) hne
      · rw [← h.2]
        refine ⟨tr, b, h1, h2, h3, ?_⟩
        rw [h4]; exact not_not.mp hc

/-- Claim C19: whenever `mlx90632_init` returns 0, its last three bus operations are a
successful read of the control register delivering a word whose power-mode bits (bits 2..1) are
the sleep-step value 2, a successful read of the status register, and a successful write to
the status register of the word just read with bit 0 (data ready) cleared and every other bit
unchanged. -/
theorem init_success_leaves_sleep_step [LinearOrderedField K] [FloorRing K] (bus : Bus) (fuel : Nat)
    (st st' : Driver K) (h : mlx90632_init bus fuel st = some (0, st')) :
    ∃ tr bc bs bw,
      st'.trace = tr ++ [Event.read MLX90632_REG_CTRL, Event.read MLX90632_REG_STATUS,
        Event.write MLX90632_REG_STATUS (swap16 bs &&& 0xFFFE)] ∧
      3 ≤ st'.nops ∧
      bus (st'.nops - 3) = some bc ∧ swap16 bc &&& 0x0006 = 2 ∧
      bus (st'.nops - 2) = some bs ∧
      bus (st'.nops - 1) = some bw := by
  rcases h1 : mlx90632_i2c_read bus MLX90632_EE_VERSION 0 st with ⟨r1, v1, s1⟩
  simp only [mlx90632_init, h1] at h
  split at h
  · rename_i hneg
    simp only [Option.some.injEq, Prod.mk.injEq] at h
    omega
  split at h
  · simp only [Option.some.injEq, Prod.mk.injEq, EPROTONOSUPPORT] at h
    omega
  rcases h2 : mlx90632_i2c_read bus MLX90632_EE_I2C_ADDRESS 0 s1 with ⟨r2, v2, s2⟩
  simp only [h2] at h
  split at h
  · rename_i hneg
    simp only [Option.some.injEq, Prod.mk.injEq] at h
    omega
  split at h
  · simp only [Option.some.injEq, Prod.mk.injEq] at h
    omega
  rcases h3 : mlx90632_get_refresh_rate bus s2 with ⟨r3, s3⟩
  simp only [h3] at h
  split at h
  · simp at h
  rename_i r4 s4 h4
  split at h
  · simp at h
  rename_i r5 s5 h5
  obtain ⟨tr, bc, hc1, hc2, hc3, hc4⟩ :=
    setmode_loop_exit bus _ _ _ _ _ _ (Or.inl (by decide)) h5
  split at h
  · rename_i hneg
    simp only [Option.some.injEq, Prod.mk.injEq] at h
    omega
  cases hbs : bus s5.nops with
  | none =>
    simp only [i2c_read_none bus _ _ s5 hbs] at h
    simp only [show ((-1 : Int) < 0) = True from eq_true (by norm_num), if_true,
      Option.some.injEq, Prod.mk.injEq] at h
    omega
  | some bs =>
    simp only [i2c_read_some bus _ _ s5 bs hbs, lt_irrefl, if_false] at h
    cases hbw : bus (s5.nops + 1) with
    | none =>
      rw [i2c_write_none bus _ _ _ hbw] at h
      simp only [show ((-1 : Int) < 0) = True from eq_true (by norm_num), if_true,
        Option.some.injEq, Prod.mk.injEq] at h
      omega
    | some bw =>
      rw [i2c_write_some bus _ _ _ bw hbw] at h
      simp only [lt_irrefl, if_false] at h
      split at h
      · simp only [Option.some.injEq, Prod.mk.injEq, ERANGE] at h
        omega
      · simp only [Option.some.injEq, Prod.mk.injEq, true_and] at h
        have hmask : GENMASK 2 1 % 2 ^ 16 = 0x0006 := by decide
        have hmode : MLX90632_PWR_STATUS_SLEEP_STEP = 2 := by decide
        have hnot : not16 MLX90632_STAT_DATA_RDY = 0xFFFE := by decide
        rw [hmask, hmode] at hc4
        refine ⟨tr, bc, bs, bw, ?_, ?_, ?_, hc4, ?_, ?_⟩
        · rw [← h]
          simp [hc1, hnot]
        · rw [← h]; show 3 ≤ s5.nops + 1 + 1; omega
        · rw [← h]; show bus (s5.nops + 1 + 1 - 3) = some bc
          rw [show s5.nops + 1 + 1 - 3 = s5.nops - 1 by omega]; exact hc3
        · rw [← h]; show bus (s5.nops + 1 + 1 - 2) = some bs
          rw [show s5.nops + 1 + 1 - 2 = s5.nops by omega]; exact hbs
        · rw [← h]; show bus (s5.nops + 1 + 1 - 1) = some bw
          rw [show s5.nops + 1 + 1 - 1 = s5.nops + 1 by omega]; exact hbw

set_option maxRecDepth 10000 in
/-- On the bus of a genuine device `mlx90632_init` returns 0 from the initial state. -/
theorem genuine_init_returns_zero :
    (mlx90632_init genuineBus 2 (Driver.initial : Driver ℚ)).map Prod.fst = some 0 := by
  decide

/-- Witness for C19: on the bus of a genuine device `mlx90632_init` returns 0 from the initial
state, so its last three bus operations are as claimed. -/
theorem init_success_leaves_sleep_step_witness :
    ∃ st', mlx90632_init genuineBus 2 (Driver.initial : Driver ℚ) = some (0, st') ∧
      ∃ tr bc bs bw,
        st'.trace = tr ++ [Event.read MLX90632_REG_CTRL, Event.read MLX90632_REG_STATUS,
          Event.write MLX90632_REG_STATUS (swap16 bs &&& 0xFFFE)] ∧
        3 ≤ st'.nops ∧
        genuineBus (st'.nops - 3) = some bc ∧ swap16 bc &&& 0x0006 = 2 ∧
        genuineBus (st'.nops - 2) = some bs ∧
        genuineBus (st'.nops - 1) = some bw := by
  obtain ⟨⟨r, st'⟩, h, hr⟩ := Option.map_eq_some'.mp genuine_init_returns_zero
  have hr' : r = 0 := hr
  subst hr'
  exact ⟨st', h, init_success_leaves_sleep_step genuineBus 2 _ st' h⟩

/-! ## Successful calibration load and re-encoding -/

/-- Calibration reads all succeeding: the reads return 0 and every constant is decoded from the
words read for it. -/
theorem readCalib_reads_all_ok [LinearOrderedField K] [FloorRing K] (bus : Bus) (st2 : Driver K)
    (w : Nat → Nat) (hreads : ∀ i, i < 22 → bus (st2.nops + i) = some (w i)) :
    (mlx90632_readCalib_reads bus st2).1 = 0 ∧
    (mlx90632_readCalib_reads bus st2).2.MLX_K =
      calibAfter st2.MLX_K (fun i => swap16 (w i)) 22 ∧
    (mlx90632_readCalib_reads bus st2).2.trace = st2.trace ++ calibAddrs.map Event.read := by
  have h0 := hreads 0 (by norm_num)
  rw [Nat.add_zero] at h0
  unfold mlx90632_readCalib_reads
  rw [i2c_read_or_return_some bus _ _ _ _ (w 0) ?_]
  swap
  · exact h0
  dsimp only
  rw [i2c_read_or_return_some bus _ _ _ _ (w 1) ?_]
  swap
  · exact hreads 1 (by norm_num)
  dsimp only
  rw [i2c_read_or_return_some bus _ _ _ _ (w 2) ?_]
  swap
  · exact hreads 2 (by norm_num)
  dsimp only
  rw [i2c_read_or_return_some bus _ _ _ _ (w 3) ?_]
  swap
  · exact hreads 3 (by norm_num)
  dsimp only
  rw [i2c_read_or_return_some bus _ _ _ _ (w 4) ?_]
  swap
  · exact hreads 4 (by norm_num)
  dsimp only
  rw [i2c_read_or_return_some bus _ _ _ _ (w 5) ?_]
  swap
  · exact hreads 5 (by norm_num)
  dsimp only
  rw [i2c_read_or_return_some bus _ _ _ _ (w 6) ?_]
  swap
  · exact hreads 6 (by norm_num)
  dsimp only
  rw [i2c_read_or_return_some bus _ _ _ _ (w 7) ?_]
  swap
  · exact hreads 7 (by norm_num)
  dsimp only
  rw [i2c_read_or_return_some bus _ _ _ _ (w 8) ?_]
  swap
  · exact hreads 8 (by norm_num)
  dsimp only
  rw [i2c_read_or_return_some bus _ _ _ _ (w 9) ?_]
  swap
  · exact hreads 9 (by norm_num)
  dsimp only
  rw [i2c_read_or_return_some bus _ _ _ _ (w 10) ?_]
  swap
  · exact hreads 10 (by norm_num)
  dsimp only
  rw [i2c_read_or_return_some bus _ _ _ _ (w 11) ?_]
  swap
  · exact hreads 11 (by norm_num)
  dsimp only
  rw [i2c_read_or_return_some bus _ _ _ _ (w 12) ?_]
  swap
  · exact hreads 12 (by norm_num)
  dsimp only
  rw [i2c_read_or_return_some bus _ _ _ _ (w 13) ?_]
  swap
  · exact hreads 13 (by norm_num)
  dsimp only
  rw [i2c_read_or_return_some bus _ _ _ _ (w 14) ?_]
  swap
  · exact hreads 14 (by norm_num)
  dsimp only
  rw [i2c_read_or_return_some bus _ _ _ _ (w 15) ?_]
  swap
  · exact hreads 15 (by norm_num)
  dsimp only
  rw [i2c_read_or_return_some bus _ _ _ _ (w 16) ?_]
  swap
  · exact hreads 16 (by norm_num)
  dsimp only
  rw [i2c_read_or_return_some bus _ _ _ _ (w 17) ?_]
  swap
  · exact hreads 17 (by norm_num)
  dsimp only
  rw [i2c_read_or_return_some bus _ _ _ _ (w 18) ?_]
  swap
  · exact hreads 18 (by norm_num)
  dsimp only
  rw [i2c_read_or_return_some bus _ _ _ _ (w 19) ?_]
  swap
  · exact hreads 19 (by norm_num)
  dsimp only
  rw [i2c_read_or_return_some bus _ _ _ _ (w 20) ?_]
  swap
  · exact hreads 20 (by norm_num)
  dsimp only
  rw [i2c_read_or_return_some bus _ _ _ _ (w 21) ?_]
  swap
  · exact hreads 21 (by norm_num)
  dsimp only
  refine ⟨rfl, ?_, ?_⟩
  · simp only [calibAfter, Nat.one_shiftLeft, Nat.cast_pow, Nat.cast_ofNat, div_div, ← pow_add]
    norm_num
  · simp [calibAddrs]

/-- Successful calibration load: when the busy-wait and the mode setting have returned and each
of the 22 EEPROM reads succeeds, `mlx90632_readCalib` returns 0 after reading the 22 addresses
in order, with every constant decoded from the words read for it. -/
theorem readCalib_all_reads_ok [LinearOrderedField K] [FloorRing K] (bus : Bus) (fuel : Nat)
    (st st1 st2 : Driver K) (r : Int)
    (hwait : mlx90632_readCalib_wait bus fuel st = some st1)
    (hmode : i2c_melexis_setmode bus fuel MLX90632_PWR_STATUS_SLEEP_STEP st1 = some (r, st2))
    (w : Nat → Nat) (hreads : ∀ i, i < 22 → bus (st2.nops + i) = some (w i)) :
    ∃ st3, mlx90632_readCalib bus fuel st = some (0, st3) ∧
      st3.MLX_K = calibAfter st.MLX_K (fun i => swap16 (w i)) 22 ∧
      st3.trace = st2.trace ++ calibAddrs.map Event.read := by
  obtain ⟨h1, h2, h3⟩ := readCalib_reads_all_ok bus st2 w hreads
  have hK : st2.MLX_K = st.MLX_K := by
    rw [setmode_loop_MLX_K bus _ _ _ _ _ _ _ hmode, readCalib_wait_MLX_K bus _ _ _ hwait]
  rw [hK] at h2
  refine ⟨(mlx90632_readCalib_reads bus st2).2, ?_, h2, h3⟩
  simp only [mlx90632_readCalib, hwait, hmode]
  rw [← h1]

theorem swap16_lt (b : Nat) : swap16 b < 2 ^ 16 := by
  unfold swap16
  apply Nat.or_lt_two_pow
  · rw [Nat.shiftRight_eq_div_pow]
    exact lt_of_le_of_lt (Nat.div_le_self _ _) (Nat.mod_lt _ (by norm_num))
  · exact Nat.mod_lt _ (by norm_num)

theorem toInt32_words (lo hi : Nat) (hlo : lo < 2 ^ 16) (hhi : hi < 2 ^ 16) :
    (toInt32 ((hi <<< 16) ||| lo) % 2 ^ 16).toNat = lo ∧
    ((toInt32 ((hi <<< 16) ||| lo) / 2 ^ 16) % 2 ^ 16).toNat = hi := by
  have hor : (hi <<< 16) ||| lo = 2 ^ 16 * hi + lo := by
    rw [Nat.mul_add_lt_is_or hlo, Nat.shiftLeft_eq, Nat.mul_comm]
  rw [hor]
  unfold toInt32
  norm_num at hlo hhi ⊢
  have hm : (65536 * hi + lo) % 4294967296 = 65536 * hi + lo := Nat.mod_eq_of_lt (by omega)
  rw [hm]
  split <;> constructor <;> omega

theorem encodeWords_decode32 [LinearOrderedField K] [FloorRing K] (lo hi s : Nat)
    (hlo : lo < 2 ^ 16) (hhi : hi < 2 ^ 16) :
    encodeWords ((toInt32 ((hi <<< 16) ||| lo) : K) / 2 ^ s) s = (lo, hi) := by
  have hx : ∀ z : K, z / 2 ^ s * 2 ^ s = z := fun z => by field_simp
  obtain ⟨h1, h2⟩ := toInt32_words lo hi hlo hhi
  unfold encodeWords
  simp only [hx, Int.floor_intCast, h1, h2]

theorem encodeWords_decode16 [LinearOrderedField K] [FloorRing K] (w s : Nat)
    (hw : w < 2 ^ 16) : encodeWords ((w : K) / 2 ^ s) s = (w, 0) := by
  have hx : (w : K) / 2 ^ s * 2 ^ s = ((w : Int) : K) := by
    rw [Int.cast_natCast]; field_simp
  have h1 : ((w : Int) % 2 ^ 16).toNat = w := by omega
  have h2 : (((w : Int) / 2 ^ 16) % 2 ^ 16).toNat = 0 := by omega
  unfold encodeWords
  simp only [hx, Int.floor_intCast, h1, h2]

/-! ## Calibration constants as stored in the `float` fields (C10, C18) -/

theorem toFloat_div_pow [LinearOrderedField K] [FloorRing K] (x : K) (n : Nat) :
    toFloat (x / 2 ^ n) = toFloat x / 2 ^ n :=
  roundToPrecision_div_pow 24 x n

theorem toFloat_idem [LinearOrderedField K] [FloorRing K] (x : K) :
    toFloat (toFloat x) = toFloat x :=
  roundToPrecision_idem 24 (by norm_num) x

/-- A stored value divided by a power of two and stored again is the `float` nearest to the
quotient of the value before the first store. -/
theorem toFloat_toFloat_div [LinearOrderedField K] [FloorRing K] (x : K) (n : Nat) :
    toFloat (toFloat x / 2 ^ n) = toFloat (x / 2 ^ n) := by
  rw [toFloat_div_pow, toFloat_idem, ← toFloat_div_pow]

/-- Constants stored by a successful calibration load, each as the `float` nearest to its raw
value over its power of two. -/
theorem calibAfter_full [LinearOrderedField K] [FloorRing K] (c : MLXCalib_s K)
    (w : Nat → Nat) (hl : ∀ i, w i < 2 ^ 16) :
    calibAfter c w 22 =
      { P_R := toFloat ((toInt32 ((w 1 <<< 16) ||| w 0) : K) / 2 ^ 8)
        P_G := toFloat ((toInt32 ((w 3 <<< 16) ||| w 2) : K) / 2 ^ 20)
        P_T := toFloat ((toInt32 ((w 5 <<< 16) ||| w 4) : K) / 2 ^ 44)
        P_O := toFloat ((toInt32 ((w 7 <<< 16) ||| w 6) : K) / 2 ^ 8)
        Ea := toFloat ((toInt32 ((w 9 <<< 16) ||| w 8) : K) / 2 ^ 16)
        Eb := toFloat ((toInt32 ((w 11 <<< 16) ||| w 10) : K) / 2 ^ 8)
        Fa := toFloat ((toInt32 ((w 13 <<< 16) ||| w 12) : K) / 2 ^ 46)
        Fb := toFloat ((toInt32 ((w 15 <<< 16) ||| w 14) : K) / 2 ^ 36)
        Ga := toFloat ((toInt32 ((w 17 <<< 16) ||| w 16) : K) / 2 ^ 36)
        Gb := (w 18 : K) / 2 ^ 10
        Ka := (w 19 : K) / 2 ^ 10
        Ha := (w 20 : K) / 2 ^ 14
        Hb := (w 21 : K) / 2 ^ 14 } := by
  simp only [calibAfter, Nat.reduceLeDiff, if_true, toFloat_toFloat_div, div_div, ← pow_add,
    Nat.reduceAdd, fun i s => toFloat_nat_div (K := K) (w i) s (hl i)]

/-- The `float` nearest to `2^25` is `2^25`. -/
theorem toFloat_two_pow_25 : toFloat (33554432 : ℚ) = 33554432 := by
  have h := roundToPrecision_exact (K := ℚ) 24 1 25 (by norm_num)
  norm_num at h
  exact h

/-- Counterexample to C18: on `wideCalibBus` the words read for `P_R` are `0x0001` (low) and
`0x0200` (high); the load succeeds and stores `P_R = 131072`, and `131072 * 2^8` splits into the
words `0x0000` and `0x0200`: the low word is not recovered. On `roundCalibBus` the words
`0x0000` and `0x0200` store the same `P_R = 131072`, so the decode map is not injective. -/
theorem calib_reencode_loses_low_word :
    (wideCalibBus 3).map swap16 = some 0x0001 ∧ (wideCalibBus 4).map swap16 = some 0x0200 ∧
    (mlx90632_readCalib wideCalibBus 2 (Driver.initial : Driver ℚ)).map
      (fun r => (r.1, r.2.MLX_K.P_R, encodeWords r.2.MLX_K.P_R 8)) =
        some (0, 131072, (0x0000, 0x0200)) ∧
    (roundCalibBus 3).map swap16 = some 0x0000 ∧ (roundCalibBus 4).map swap16 = some 0x0200 ∧
    (mlx90632_readCalib roundCalibBus 2 (Driver.initial : Driver ℚ)).map
      (fun r => (r.1, r.2.MLX_K.P_R)) = some (0, 131072) := by
  obtain ⟨st3, h, hK, _⟩ :=
    readCalib_all_reads_ok wideCalibBus 2 (Driver.initial : Driver ℚ)
      { (Driver.initial : Driver ℚ) with nops := 1, trace := [Event.read MLX90632_REG_STATUS] }
      { (Driver.initial : Driver ℚ) with
        nops := 3
        trace := [Event.read MLX90632_REG_STATUS, Event.write MLX90632_REG_CTRL 2,
          Event.read MLX90632_REG_CTRL] }
      0 (by decide) (by decide)
      (fun i => if i = 0 then 0x0100 else if i = 1 then 0x0002 else 0x0200)
      (fun i hi => by interval_cases i <;> rfl)
  obtain ⟨st4, h', hK', _⟩ :=
    readCalib_all_reads_ok roundCalibBus 2 (Driver.initial : Driver ℚ)
      { (Driver.initial : Driver ℚ) with nops := 1, trace := [Event.read MLX90632_REG_STATUS] }
      { (Driver.initial : Driver ℚ) with
        nops := 3
        trace := [Event.read MLX90632_REG_STATUS, Event.write MLX90632_REG_CTRL 2,
          Event.read MLX90632_REG_CTRL] }
      0 (by decide) (by decide)
      (fun i => if i = 0 then 0x0000 else if i = 1 then 0x0002 else 0x0200)
      (fun i hi => by interval_cases i <;> rfl)
  have h32 : toInt32 ((swap16 0x0002 <<< 16) ||| swap16 0x0100) = 33554433 := by decide
  have h32' : toInt32 ((swap16 0x0002 <<< 16) ||| swap16 0x0000) = 33554432 := by decide
  have hPR : st3.MLX_K.P_R = _ := congrArg MLXCalib_s.P_R hK
  have hPR' : st4.MLX_K.P_R = _ := congrArg MLXCalib_s.P_R hK'
  simp only [calibAfter, Nat.reduceLeDiff, if_true, show ¬ ((1 : Nat) = 0) by decide, if_false,
    h32, h32'] at hPR hPR'
  have hcast : ((33554433 : Int) : ℚ) = 33554433 := by norm_num
  have hcast' : ((33554432 : Int) : ℚ) = 33554432 := by norm_num
  rw [hcast, toFloat_div_pow, toFloat_wide] at hPR
  rw [hcast', toFloat_div_pow, toFloat_two_pow_25] at hPR'
  have hv : (33554432 / 2 ^ 8 : ℚ) = 131072 := by norm_num
  rw [hv] at hPR hPR'
  have henc : encodeWords (131072 : ℚ) 8 = (0x0000, 0x0200) := by
    have hm : (131072 : ℚ) * 2 ^ 8 = ((33554432 : Int) : ℚ) := by norm_num
    unfold encodeWords
    simp only [hm, Int.floor_intCast]
    decide
  refine ⟨by decide, by decide, ?_, by decide, by decide, ?_⟩
  · rw [h, Option.map_some', hPR, henc]
  · rw [h', Option.map_some', hPR']

/-- Claim C18, amended: decoding is a function of the words read, and after a successful
calibration load it is reversible for the four single-word constants (`Gb`, `Ka`, `Ha`, `Hb`:
the stored constant times its scale factor is the word read, for every word) and for each of
the nine two-word constants whose signed 32-bit raw value has magnitude below `2^24`: then the
stored constant times its scale factor splits back into the low and the high word read. -/
theorem calib_decode_reversible_narrow [LinearOrderedField K] [FloorRing K] (bus : Bus)
    (fuel : Nat) (st st1 st2 : Driver K) (r : Int)
    (hwait : mlx90632_readCalib_wait bus fuel st = some st1)
    (hmode : i2c_melexis_setmode bus fuel MLX90632_PWR_STATUS_SLEEP_STEP st1 = some (r, st2))
    (w : Nat → Nat) (hreads : ∀ i, i < 22 → bus (st2.nops + i) = some (w i)) :
    ∃ st3, mlx90632_readCalib bus fuel st = some (0, st3) ∧
      (|toInt32 ((swap16 (w 1) <<< 16) ||| swap16 (w 0))| < 2 ^ 24 →
        encodeWords st3.MLX_K.P_R 8 = (swap16 (w 0), swap16 (w 1))) ∧
      (|toInt32 ((swap16 (w 3) <<< 16) ||| swap16 (w 2))| < 2 ^ 24 →
        encodeWords st3.MLX_K.P_G 20 = (swap16 (w 2), swap16 (w 3))) ∧
      (|toInt32 ((swap16 (w 5) <<< 16) ||| swap16 (w 4))| < 2 ^ 24 →
        encodeWords st3.MLX_K.P_T 44 = (swap16 (w 4), swap16 (w 5))) ∧
      (|toInt32 ((swap16 (w 7) <<< 16) ||| swap16 (w 6))| < 2 ^ 24 →
        encodeWords st3.MLX_K.P_O 8 = (swap16 (w 6), swap16 (w 7))) ∧
      (|toInt32 ((swap16 (w 9) <<< 16) ||| swap16 (w 8))| < 2 ^ 24 →
        encodeWords st3.MLX_K.Ea 16 = (swap16 (w 8), swap16 (w 9))) ∧
      (|toInt32 ((swap16 (w 11) <<< 16) ||| swap16 (w 10))| < 2 ^ 24 →
        encodeWords st3.MLX_K.Eb 8 = (swap16 (w 10), swap16 (w 11))) ∧
      (|toInt32 ((swap16 (w 13) <<< 16) ||| swap16 (w 12))| < 2 ^ 24 →
        encodeWords st3.MLX_K.Fa 46 = (swap16 (w 12), swap16 (w 13))) ∧
      (|toInt32 ((swap16 (w 15) <<< 16) ||| swap16 (w 14))| < 2 ^ 24 →
        encodeWords st3.MLX_K.Fb 36 = (swap16 (w 14), swap16 (w 15))) ∧
      (|toInt32 ((swap16 (w 17) <<< 16) ||| swap16 (w 16))| < 2 ^ 24 →
        encodeWords st3.MLX_K.Ga 36 = (swap16 (w 16), swap16 (w 17))) ∧
      encodeWords st3.MLX_K.Gb 10 = (swap16 (w 18), 0) ∧
      encodeWords st3.MLX_K.Ka 10 = (swap16 (w 19), 0) ∧
      encodeWords st3.MLX_K.Ha 14 = (swap16 (w 20), 0) ∧
      encodeWords st3.MLX_K.Hb 14 = (swap16 (w 21), 0) := by
  obtain ⟨st3, h, hK, _⟩ :=
    readCalib_all_reads_ok bus fuel st st1 st2 r hwait hmode w hreads
  have hl := fun i => swap16_lt (w i)
  rw [calibAfter_full _ _ hl] at hK
  have h1 : st3.MLX_K.P_R = _ := congrArg MLXCalib_s.P_R hK
  have h2 : st3.MLX_K.P_G = _ := congrArg MLXCalib_s.P_G hK
  have h3 : st3.MLX_K.P_T = _ := congrArg MLXCalib_s.P_T hK
  have h4 : st3.MLX_K.P_O = _ := congrArg MLXCalib_s.P_O hK
  have h5 : st3.MLX_K.Ea = _ := congrArg MLXCalib_s.Ea hK
  have h6 : st3.MLX_K.Eb = _ := congrArg MLXCalib_s.Eb hK
  have h7 : st3.MLX_K.Fa = _ := congrArg MLXCalib_s.Fa hK
  have h8 : st3.MLX_K.Fb = _ := congrArg MLXCalib_s.Fb hK
  have h9 : st3.MLX_K.Ga = _ := congrArg MLXCalib_s.Ga hK
  have h10 : st3.MLX_K.Gb = _ := congrArg MLXCalib_s.Gb hK
  have h11 : st3.MLX_K.Ka = _ := congrArg MLXCalib_s.Ka hK
  have h12 : st3.MLX_K.Ha = _ := congrArg MLXCalib_s.Ha hK
  have h13 : st3.MLX_K.Hb = _ := congrArg MLXCalib_s.Hb hK
  simp only at h1 h2 h3 h4 h5 h6 h7 h8 h9 h10 h11 h12 h13
  refine ⟨st3, h, ?_, ?_, ?_, ?_, ?_, ?_, ?_, ?_, ?_, ?_, ?_, ?_, ?_⟩
  · intro hm; rw [h1, toFloat_int_div _ _ hm]; exact encodeWords_decode32 _ _ _ (hl _) (hl _)
  · intro hm; rw [h2, toFloat_int_div _ _ hm]; exact encodeWords_decode32 _ _ _ (hl _) (hl _)
  · intro hm; rw [h3, toFloat_int_div _ _ hm]; exact encodeWords_decode32 _ _ _ (hl _) (hl _)
  · intro hm; rw [h4, toFloat_int_div _ _ hm]; exact encodeWords_decode32 _ _ _ (hl _) (hl _)
  · intro hm; rw [h5, toFloat_int_div _ _ hm]; exact encodeWords_decode32 _ _ _ (hl _) (hl _)
  · intro hm; rw [h6, toFloat_int_div _ _ hm]; exact encodeWords_decode32 _ _ _ (hl _) (hl _)
  · intro hm; rw [h7, toFloat_int_div _ _ hm]; exact encodeWords_decode32 _ _ _ (hl _) (hl _)
  · intro hm; rw [h8, toFloat_int_div _ _ hm]; exact encodeWords_decode32 _ _ _ (hl _) (hl _)
  · intro hm; rw [h9, toFloat_int_div _ _ hm]; exact encodeWords_decode32 _ _ _ (hl _) (hl _)
  · rw [h10]; exact encodeWords_decode16 _ _ (hl _)
  · rw [h11]; exact encodeWords_decode16 _ _ (hl _)
  · rw [h12]; exact encodeWords_decode16 _ _ (hl _)
  · rw [h13]; exact encodeWords_decode16 _ _ (hl _)

/-- Witness for the amended C18: on a bus whose every read delivers `0x0002`, from the initial
state, the load succeeds, the raw integer of `P_R` is 131074, below `2^24`, and the words
`(2, 2)` of `P_R` and `(2, 0)` of `Hb` are recovered. -/
theorem calib_decode_reversible_narrow_witness :
    ∃ st3, mlx90632_readCalib sleepStepBus 2 (Driver.initial : Driver ℚ) = some (0, st3) ∧
      encodeWords st3.MLX_K.P_R 8 = (swap16 0x0200, swap16 0x0200) ∧
      encodeWords st3.MLX_K.Hb 14 = (swap16 0x0200, 0) := by
  obtain ⟨st3, h, hPR, _, _, _, _, _, _, _, _, _, _, _, hHb⟩ :=
    calib_decode_reversible_narrow sleepStepBus 2 (Driver.initial : Driver ℚ)
      { (Driver.initial : Driver ℚ) with nops := 1, trace := [Event.read MLX90632_REG_STATUS] }
      { (Driver.initial : Driver ℚ) with
        nops := 3
        trace := [Event.read MLX90632_REG_STATUS, Event.write MLX90632_REG_CTRL 2,
          Event.read MLX90632_REG_CTRL] }
      0 (by decide) (by decide) (fun _ => 0x0200) (fun _ _ => rfl)
  exact ⟨st3, h, hPR (by decide), hHb⟩

/-! ## Object raw read and object path (C21, C30, C24) -/

/-- The object raw read never touches the ambient raw channels, the temperatures or the
calibration, whatever the bus does. -/
theorem getObjTempRaw_frame (bus : Bus) (cycle_pos : Int) (st : Driver K) :
    (mlx90632_getObjTempRaw bus cycle_pos st).2.MLX_T_RAW.ambient_ram_6 =
      st.MLX_T_RAW.ambient_ram_6 ∧
    (mlx90632_getObjTempRaw bus cycle_pos st).2.MLX_T_RAW.ambient_ram_9 =
      st.MLX_T_RAW.ambient_ram_9 ∧
    (mlx90632_getObjTempRaw bus cycle_pos st).2.MLX_T = st.MLX_T ∧
    (mlx90632_getObjTempRaw bus cycle_pos st).2.MLX_K = st.MLX_K := by
  unfold mlx90632_getObjTempRaw
  split
  · cases h1 : bus st.nops with
    | none =>
      simp only [i2c_read_none bus _ _ st h1]
      simp only [show ((-1 : Int) < 0) = True from eq_true (by norm_num), if_true, and_self]
    | some b1 =>
      simp only [i2c_read_some bus _ _ st b1 h1, lt_irrefl, if_false]
      cases h2 : bus (st.nops + 1) with
      | none =>
        rw [i2c_read_none bus _ _ _ h2]
        simp only [show ((-1 : Int) < 0) = True from eq_true (by norm_num), if_true, and_self]
      | some b2 =>
        rw [i2c_read_some bus _ _ _ b2 h2]
        simp only [lt_irrefl, if_false, and_self]
  · split
    · cases h1 : bus st.nops with
      | none =>
        simp only [i2c_read_none bus _ _ st h1]
        simp only [show ((-1 : Int) < 0) = True from eq_true (by norm_num), if_true, and_self]
      | some b1 =>
        simp only [i2c_read_some bus _ _ st b1 h1, lt_irrefl, if_false]
        cases h2 : bus (st.nops + 1) with
        | none =>
          rw [i2c_read_none bus _ _ _ h2]
          simp only [show ((-1 : Int) < 0) = True from eq_true (by norm_num), if_true, and_self]
        | some b2 =>
          rw [i2c_read_some bus _ _ _ b2 h2]
          simp only [lt_irrefl, if_false, and_self]
    · simp only [and_self]

/-- The object raw read for a slot `c` (1 or 2) when both reads succeed. -/
theorem getObjTempRaw_slot (bus : Bus) (c : Int) (hc : c = 1 ∨ c = 2) (st : Driver K)
    (b1 b2 : Nat) (h1 : bus st.nops = some b1) (h2 : bus (st.nops + 1) = some b2) :
    mlx90632_getObjTempRaw bus c st =
      (0, { st with
        MLX_T_RAW := { st.MLX_T_RAW with
          object_ram_4_7 := toInt16 (swap16 b1), object_ram_5_8 := toInt16 (swap16 b2) }
        nops := st.nops + 1 + 1
        trace := st.trace ++ [Event.read (MLX90632_RAM_1 c.toNat)] ++
          [Event.read (MLX90632_RAM_2 c.toNat)]
        error_melexis90632 :=
          ((st.error_melexis90632 &&& not8 ERROR_MLX_READ) % 2 ^ 8 &&&
            not8 ERROR_MLX_READ) % 2 ^ 8 }) := by
  rcases hc with rfl | rfl
  · simp only [mlx90632_getObjTempRaw, if_true, i2c_read_some bus _ _ st b1 h1, lt_irrefl,
      if_false]
    rw [i2c_read_some bus _ _ _ b2 h2]
    simp only [lt_irrefl, if_false]
  · simp only [mlx90632_getObjTempRaw, show ¬ ((2 : Int) = 1) by decide, if_false, if_true,
      i2c_read_some bus _ _ st b1 h1, lt_irrefl]
    rw [i2c_read_some bus _ _ _ b2 h2]
    simp only [lt_irrefl, if_false]

/-- The cast `(int16_t)` of a word delivered by the bus: the word itself below `2^15`, the word
minus `2^16` from `2^15` on. -/
theorem toInt16_swap16 (b : Nat) :
    toInt16 (swap16 b) =
      if swap16 b < 2 ^ 15 then (swap16 b : Int) else (swap16 b : Int) - 2 ^ 16 := by
  unfold toInt16
  rw [Nat.mod_eq_of_lt (swap16_lt b)]

/-- Claim C21: when its two reads succeed, `mlx90632_getObjTempRaw` reads the RAM addresses
`0x4003` and `0x4004` for cycle position 1 and `0x4006` and `0x4007` for cycle position 2, in
that order, and stores the two words as signed 16-bit values in `object_ram_4_7` and
`object_ram_5_8`: a word below `0x8000` as itself, a word from `0x8000` on as the word minus
`65536` (so `0xFFFF` is stored as -1); for every other cycle position it returns 0 and leaves
the whole state as it was (no bus read, object raw fields unchanged); the ambient raw fields are
the same after the call for every cycle position and every bus. -/
theorem getObjTempRaw_reads_slot (bus : Bus) (st : Driver K) :
    (∀ b1 b2, bus st.nops = some b1 → bus (st.nops + 1) = some b2 →
      (mlx90632_getObjTempRaw bus 1 st).1 = 0 ∧
      (mlx90632_getObjTempRaw bus 1 st).2.trace =
        st.trace ++ [Event.read 0x4003, Event.read 0x4004] ∧
      (mlx90632_getObjTempRaw bus 1 st).2.MLX_T_RAW.object_ram_4_7 =
        (if swap16 b1 < 32768 then (swap16 b1 : Int) else (swap16 b1 : Int) - 65536) ∧
      (mlx90632_getObjTempRaw bus 1 st).2.MLX_T_RAW.object_ram_5_8 =
        (if swap16 b2 < 32768 then (swap16 b2 : Int) else (swap16 b2 : Int) - 65536) ∧
      (mlx90632_getObjTempRaw bus 2 st).1 = 0 ∧
      (mlx90632_getObjTempRaw bus 2 st).2.trace =
        st.trace ++ [Event.read 0x4006, Event.read 0x4007] ∧
      (mlx90632_getObjTempRaw bus 2 st).2.MLX_T_RAW.object_ram_4_7 =
        (if swap16 b1 < 32768 then (swap16 b1 : Int) else (swap16 b1 : Int) - 65536) ∧
      (mlx90632_getObjTempRaw bus 2 st).2.MLX_T_RAW.object_ram_5_8 =
        (if swap16 b2 < 32768 then (swap16 b2 : Int) else (swap16 b2 : Int) - 65536) ∧
      -32768 ≤ (mlx90632_getObjTempRaw bus 1 st).2.MLX_T_RAW.object_ram_4_7 ∧
      (mlx90632_getObjTempRaw bus 1 st).2.MLX_T_RAW.object_ram_4_7 < 32768 ∧
      -32768 ≤ (mlx90632_getObjTempRaw bus 1 st).2.MLX_T_RAW.object_ram_5_8 ∧
      (mlx90632_getObjTempRaw bus 1 st).2.MLX_T_RAW.object_ram_5_8 < 32768) ∧
    (∀ cycle_pos : Int, cycle_pos ≠ 1 → cycle_pos ≠ 2 →
      mlx90632_getObjTempRaw bus cycle_pos st = (0, st)) ∧
    (∀ cycle_pos : Int,
      (mlx90632_getObjTempRaw bus cycle_pos st).2.MLX_T_RAW.ambient_ram_6 =
        st.MLX_T_RAW.ambient_ram_6 ∧
      (mlx90632_getObjTempRaw bus cycle_pos st).2.MLX_T_RAW.ambient_ram_9 =
        st.MLX_T_RAW.ambient_ram_9) := by
  refine ⟨?_, ?_, ?_⟩
  · intro b1 b2 h1 h2
    rw [getObjTempRaw_slot bus 1 (Or.inl rfl) st b1 b2 h1 h2,
      getObjTempRaw_slot bus 2 (Or.inr rfl) st b1 b2 h1 h2]
    have e1 := toInt16_swap16 b1
    have e2 := toInt16_swap16 b2
    have l1 := swap16_lt b1
    have l2 := swap16_lt b2
    norm_num at e1 e2 l1 l2
    refine ⟨rfl, ?_, e1, e2, rfl, ?_, e1, e2, ?_, ?_, ?_, ?_⟩
    · simp [MLX90632_RAM_1, MLX90632_RAM_2, MLX90632_ADDR_RAM]
    · simp [MLX90632_RAM_1, MLX90632_RAM_2, MLX90632_ADDR_RAM]
    · show -32768 ≤ toInt16 (swap16 b1)
      rw [e1]; split <;> omega
    · show toInt16 (swap16 b1) < 32768
      rw [e1]; split <;> omega
    · show -32768 ≤ toInt16 (swap16 b2)
      rw [e2]; split <;> omega
    · show toInt16 (swap16 b2) < 32768
      rw [e2]; split <;> omega
  · intro cycle_pos h1 h2
    simp only [mlx90632_getObjTempRaw, h1, h2, if_false]
  · intro cycle_pos
    exact ⟨(getObjTempRaw_frame bus cycle_pos st).1, (getObjTempRaw_frame bus cycle_pos st).2.1⟩

set_option maxRecDepth 10000 in
/-- Every value `p` of the 5-bit cycle-position field is returned by
`mlx90632_start_measurement` on the bus whose status register reads `4 * p + 1`. -/
theorem start_measurement_reaches_cycle_pos : ∀ p, p ≤ 31 →
    (mlx90632_start_measurement (cyclePosBus p) 1 commUp).map Prod.fst = some (p : Int) := by
  intro p hp
  interval_cases p <;> decide

/-- Claim C30: for every cycle position other than 1 and 2, `mlx90632_readObjTemp` returns 0
without any bus operation, leaves the raw fields and the ambient temperature unchanged, and
overwrites `MLX_T.object` with `mlx90632_calc_temp_object` evaluated on the raw fields as they
were before the call; every value 0..31 (so 0 and 3..31) is returned by
`mlx90632_start_measurement` for a suitable status word. -/
theorem readObjTemp_outside_slots [LinearOrderedField K] [FloorRing K] (sqrt : K → K) (bus : Bus)
    (cycle_pos : Int) (st : Driver K) (h1 : cycle_pos ≠ 1) (h2 : cycle_pos ≠ 2) :
    (mlx90632_readObjTemp sqrt bus cycle_pos st).1 = 0 ∧
    (mlx90632_readObjTemp sqrt bus cycle_pos st).2.nops = st.nops ∧
    (mlx90632_readObjTemp sqrt bus cycle_pos st).2.trace = st.trace ∧
    (mlx90632_readObjTemp sqrt bus cycle_pos st).2.MLX_T_RAW = st.MLX_T_RAW ∧
    (mlx90632_readObjTemp sqrt bus cycle_pos st).2.MLX_T.object =
      mlx90632_calc_temp_object sqrt st st.MLX_K.Ka st.MLX_K.Gb st.MLX_K.Ea st.MLX_K.Eb
        st.MLX_K.Fa st.MLX_K.Ha st.MLX_K.Ga st.MLX_K.Fb st.MLX_K.Hb ∧
    (mlx90632_readObjTemp sqrt bus cycle_pos st).2.MLX_T.ambient = st.MLX_T.ambient ∧
    (∀ p, p ≤ 31 →
      (mlx90632_start_measurement (cyclePosBus p) 1 commUp).map Prod.fst = some (p : Int)) := by
  have hraw : mlx90632_getObjTempRaw bus cycle_pos st = (0, st) := by
    simp only [mlx90632_getObjTempRaw, h1, h2, if_false]
  simp only [mlx90632_readObjTemp, hraw, lt_irrefl, if_false, true_and]
  exact start_measurement_reaches_cycle_pos

/-- The ambient raw read never touches the temperatures, whatever the bus does. -/
theorem ambTempRaw_MLX_T (bus : Bus) (st : Driver K) :
    (mlx90632_ambTempRaw bus st).2.MLX_T = st.MLX_T := by
  have hneg : ((-1 : Int) < 0) = True := eq_true (by norm_num)
  unfold mlx90632_ambTempRaw
  cases h1 : bus st.nops with
  | none => simp only [i2c_read_none bus _ _ st h1, hneg, if_true]
  | some b1 =>
    simp only [i2c_read_some bus _ _ st b1 h1, lt_irrefl, if_false]
    cases h2 : bus (st.nops + 1) with
    | none =>
      rw [i2c_read_none bus _ _ _ h2]
      simp only [hneg, if_true]
    | some b2 =>
      rw [i2c_read_some bus _ _ _ b2 h2]
      simp only [lt_irrefl, if_false]

/-- A failed ambient raw read makes `mlx90632_gatherAmbTemp` return without computing. -/
theorem gatherAmbTemp_of_raw_failure [LinearOrderedField K] (bus : Bus) (st : Driver K)
    (h : (mlx90632_ambTempRaw bus st).1 < 0) :
    mlx90632_gatherAmbTemp bus st = mlx90632_ambTempRaw bus st := by
  rcases hr : mlx90632_ambTempRaw bus st with ⟨r, s⟩
  rw [hr] at h
  simp only [mlx90632_gatherAmbTemp, hr, h, if_true]

/-- The object path: ambient temperature kept, object temperature recomputed from the raw
channels left by the object raw read whenever that read does not fail. -/
theorem readObjTemp_effect [LinearOrderedField K] (sqrt : K → K) (bus : Bus) (c : Int)
    (st : Driver K) :
    (mlx90632_readObjTemp sqrt bus c st).1 = (mlx90632_getObjTempRaw bus c st).1 ∧
    (mlx90632_readObjTemp sqrt bus c st).2.MLX_T.ambient = st.MLX_T.ambient ∧
    (mlx90632_readObjTemp sqrt bus c st).2.MLX_T_RAW =
      (mlx90632_getObjTempRaw bus c st).2.MLX_T_RAW ∧
    (mlx90632_readObjTemp sqrt bus c st).2.trace = (mlx90632_getObjTempRaw bus c st).2.trace ∧
    (0 ≤ (mlx90632_getObjTempRaw bus c st).1 →
      (mlx90632_readObjTemp sqrt bus c st).2.MLX_T.object =
        mlx90632_calc_temp_object sqrt (mlx90632_readObjTemp sqrt bus c st).2
          (mlx90632_readObjTemp sqrt bus c st).2.MLX_K.Ka
          (mlx90632_readObjTemp sqrt bus c st).2.MLX_K.Gb
          (mlx90632_readObjTemp sqrt bus c st).2.MLX_K.Ea
          (mlx90632_readObjTemp sqrt bus c st).2.MLX_K.Eb
          (mlx90632_readObjTemp sqrt bus c st).2.MLX_K.Fa
          (mlx90632_readObjTemp sqrt bus c st).2.MLX_K.Ha
          (mlx90632_readObjTemp sqrt bus c st).2.MLX_K.Ga
          (mlx90632_readObjTemp sqrt bus c st).2.MLX_K.Fb
          (mlx90632_readObjTemp sqrt bus c st).2.MLX_K.Hb) := by
  have hf := (getObjTempRaw_frame bus c st).2.2.1
  rcases hr : mlx90632_getObjTempRaw bus c st with ⟨r, s⟩
  rw [hr] at hf
  simp only at hf
  simp only [mlx90632_readObjTemp, hr]
  split
  · rename_i hneg
    refine ⟨rfl, by rw [hf], rfl, rfl, ?_⟩
    intro h0
    omega
  · refine ⟨rfl, by rw [← hf], rfl, rfl, ?_⟩
    intro _
    rfl

/-- A failed object raw read makes `mlx90632_readObjTemp` return without computing. -/
theorem readObjTemp_of_raw_failure [LinearOrderedField K] (sqrt : K → K) (bus : Bus) (c : Int)
    (st : Driver K) (h : (mlx90632_getObjTempRaw bus c st).1 < 0) :
    mlx90632_readObjTemp sqrt bus c st = mlx90632_getObjTempRaw bus c st := by
  rcases hr : mlx90632_getObjTempRaw bus c st with ⟨r, s⟩
  rw [hr] at h
  simp only [mlx90632_readObjTemp, hr, h, if_true]

/-- Claim C24, amended: when `mlx90632_start_measurement` returns a non-negative value `ret`
and the ambient raw read then fails (leaving the state `s2`), `mlx90632_read` returns the state
left by `mlx90632_readObjTemp ret` run on `s2`: `MLX_T.ambient` is the value before the call;
`MLX_T.object` is recomputed from the raw fields of the final state when the object raw read
returns no error, and keeps the value it had before the call when the object raw read fails;
for `ret` 1 or 2 with both object reads succeeding, those two reads are at the addresses of
slot `ret` and their words are the object raw fields used. -/
theorem read_runs_object_path_after_ambient_failure [LinearOrderedField K] [FloorRing K]
    (sqrt : K → K)
    (bus : Bus) (fuel : Nat) (st : Driver K) (ret : Int) (st1 : Driver K)
    (hsm : mlx90632_start_measurement bus fuel st = some (ret, st1)) (hret : 0 ≤ ret)
    (hamb : (mlx90632_ambTempRaw bus (mlx90632_searchWaitTime bus ret st1)).1 < 0) :
    ∃ s2 robj st',
      (mlx90632_ambTempRaw bus (mlx90632_searchWaitTime bus ret st1)).2 = s2 ∧
      mlx90632_readObjTemp sqrt bus ret s2 = (robj, st') ∧
      mlx90632_read sqrt bus fuel st = some st' ∧
      st'.MLX_T.ambient = st.MLX_T.ambient ∧
      (0 ≤ robj →
        st'.MLX_T.object =
          mlx90632_calc_temp_object sqrt st' st'.MLX_K.Ka st'.MLX_K.Gb st'.MLX_K.Ea
            st'.MLX_K.Eb st'.MLX_K.Fa st'.MLX_K.Ha st'.MLX_K.Ga st'.MLX_K.Fb st'.MLX_K.Hb) ∧
      (robj < 0 → st'.MLX_T.object = st.MLX_T.object) ∧
      (ret = 1 ∨ ret = 2 → ∀ b1 b2, bus s2.nops = some b1 → bus (s2.nops + 1) = some b2 →
        robj = 0 ∧
        st'.trace = s2.trace ++
          [Event.read (0x4000 + 3 * ret.toNat), Event.read (0x4000 + 3 * ret.toNat + 1)] ∧
        st'.MLX_T_RAW.object_ram_4_7 =
          (if swap16 b1 < 32768 then (swap16 b1 : Int) else (swap16 b1 : Int) - 65536) ∧
        st'.MLX_T_RAW.object_ram_5_8 =
          (if swap16 b2 < 32768 then (swap16 b2 : Int) else (swap16 b2 : Int) - 65536)) := by
  have hge : ret ≥ 0 := hret
  have hT0 : (mlx90632_searchWaitTime bus ret st1).MLX_T = st.MLX_T :=
    congrArg Prod.fst
      ((searchWaitTime_temps bus ret st1).trans (start_measurement_temps bus fuel st ret st1 hsm))
  have hT1 := ambTempRaw_MLX_T bus (mlx90632_searchWaitTime bus ret st1)
  have hg := gatherAmbTemp_of_raw_failure bus (mlx90632_searchWaitTime bus ret st1) hamb
  obtain ⟨e1, e2, e3, e4, e5⟩ := readObjTemp_effect sqrt bus ret
    (mlx90632_ambTempRaw bus (mlx90632_searchWaitTime bus ret st1)).2
  refine ⟨(mlx90632_ambTempRaw bus (mlx90632_searchWaitTime bus ret st1)).2,
    (mlx90632_readObjTemp sqrt bus ret
      (mlx90632_ambTempRaw bus (mlx90632_searchWaitTime bus ret st1)).2).1,
    (mlx90632_readObjTemp sqrt bus ret
      (mlx90632_ambTempRaw bus (mlx90632_searchWaitTime bus ret st1)).2).2,
    rfl, rfl, ?_, ?_, ?_, ?_, ?_⟩
  · simp only [mlx90632_read, hsm, hge, if_true, hg]
  · rw [e2, hT1, hT0]
  · intro h0
    rw [e1] at h0
    exact e5 h0
  · intro hneg
    rw [e1] at hneg
    rw [readObjTemp_of_raw_failure sqrt bus ret _ hneg,
      (getObjTempRaw_frame bus ret _).2.2.1, hT1, hT0]
  · intro hc b1 b2 h1 h2
    have hs := getObjTempRaw_slot bus ret hc _ b1 b2 h1 h2
    have c1 := toInt16_swap16 b1
    have c2 := toInt16_swap16 b2
    norm_num at c1 c2
    rw [e1, e3, e4, hs]
    refine ⟨rfl, ?_, c1, c2⟩
    simp [MLX90632_RAM_1, MLX90632_RAM_2, MLX90632_ADDR_RAM]

/-! ## Cycle position returned by the state machine (C22, C27) -/

/-- The cycle-position field `(s & GENMASK(6, 2)) >> 2` of a status word is at most 31. -/
theorem cycle_pos_field_le (s : Nat) : (s &&& (MLX90632_STAT_CYCLE_POS % 2 ^ 16)) >>> 2 ≤ 31 := by
  have hmask : MLX90632_STAT_CYCLE_POS % 2 ^ 16 = 124 := by decide
  rw [hmask, Nat.shiftRight_eq_div_pow]
  have h : s &&& 124 ≤ 124 := Nat.and_le_right
  omega

set_option maxRecDepth 10000 in
/-- Counterexample to C22: on a bus whose status register reads `0x007D` (data ready set),
started with the communication flag set, `mlx90632_start_measurement` returns 31, which is not
between 0 and 3. -/
theorem start_measurement_returns_31 :
    (cyclePosBus 31 4).map swap16 = some 0x007D ∧
    0x007D &&& MLX90632_STAT_DATA_RDY ≠ 0 ∧
    (mlx90632_start_measurement (cyclePosBus 31) 1 commUp).map Prod.fst = some 31 ∧
    ¬ ((31 : Int) ≤ 3) := by
  decide

/-- Claim C22, amended: whenever `mlx90632_start_measurement` returns a non-negative value (a
cycle position), that value is at most 31: the cycle position is the 5-bit field in bits 6..2
of the status word. -/
theorem start_measurement_cycle_pos_range [LinearOrderedField K] [FloorRing K]
    (bus : Bus) (fuel : Nat)
    (st : Driver K) (ret : Int) (st' : Driver K)
    (h : mlx90632_start_measurement bus fuel st = some (ret, st')) (hret : 0 ≤ ret) :
    ret ≤ 31 := by
  simp only [mlx90632_start_measurement] at h
  split at h
  · simp at h
  split at h
  · simp at h
  split at h
  · simp only [Option.some.injEq, Prod.mk.injEq] at h; omega
  rename_i r0 s0 _ _
  rcases h1 : mlx90632_i2c_read bus MLX90632_REG_STATUS 0 s0 with ⟨r1, v1, s1⟩
  simp only [h1] at h
  split at h
  · simp only [Option.some.injEq, Prod.mk.injEq] at h; omega
  rcases h2 : mlx90632_i2c_write bus MLX90632_REG_STATUS
    (v1 &&& not16 MLX90632_STAT_DATA_RDY) s1 with ⟨r2, s2⟩
  simp only [h2] at h
  split at h
  · simp only [Option.some.injEq, Prod.mk.injEq] at h; omega
  rcases h3 : mlx90632_start_measurement_poll bus MLX90632_MAX_NUMBER_MESUREMENT_READ_TRIES
    v1 s2 with ⟨t3, v3, s3⟩
  simp only [h3] at h
  split at h
  · simp only [Option.some.injEq, Prod.mk.injEq, ETIMEDOUT] at h; omega
  · simp only [Option.some.injEq, Prod.mk.injEq] at h
    have hle := cycle_pos_field_le v3
    omega

set_option maxRecDepth 10000 in
/-- Claim C27: there is a bus behaviour (status read before the polling loop delivering
`0x0005`, data ready set; first poll read failing) on which `mlx90632_start_measurement`,
started with the communication flag set, makes a single poll read, which fails, and returns 1,
the cycle position of the word read before the loop. -/
theorem start_measurement_returns_stale_cycle_pos :
    (staleReadyBus 2).map swap16 = some 0x0005 ∧
    0x0005 &&& MLX90632_STAT_DATA_RDY ≠ 0 ∧
    staleReadyBus 4 = none ∧
    (mlx90632_start_measurement staleReadyBus 1 commUp).map
      (fun r => (r.1, r.2.nops, r.2.trace)) =
        some (1, 5, [Event.read MLX90632_REG_STATUS, Event.read MLX90632_REG_CTRL,
          Event.read MLX90632_REG_STATUS, Event.write MLX90632_REG_STATUS 0x0004,
          Event.read MLX90632_REG_STATUS]) := by
  decide

/-! ## Addressed reset (C23) -/

/-- The control word written first by the reset: power-mode bits cleared, then step mode. -/
theorem reset_ctrl_word (v : Nat) (hv : v < 2 ^ 16) :
    (v &&& not16 MLX90632_CFG_PWR_MASK ||| MLX90632_PWR_STATUS_STEP) % 2 ^ 16 =
      (v &&& 0xFFF9) ||| 4 := by
  have h1 : not16 MLX90632_CFG_PWR_MASK = 0xFFF9 := by decide
  have h2 : MLX90632_PWR_STATUS_STEP = 4 := by decide
  rw [h1, h2]
  apply Nat.mod_eq_of_lt
  apply Nat.or_lt_two_pow
  · exact lt_of_le_of_lt Nat.and_le_left hv
  · norm_num

/-- Claim C23: when the read of the control register and the three writes succeed and the
control register reads `v`, `mlx90632_addressed_reset` returns 0 and its bus traffic is, in
order, the read of `0x3001`, a write of `(v & 0xFFF9) | 4` to `0x3001`, a write of `0x0006` to
`0x3005`, `usleep(150, 200)` (which asks for 175 microseconds, at least 150), and a write of
`v` to `0x3001`; when the read, the first write or the second write fails it returns -1 and
that failing operation is its last one. -/
theorem addressed_reset_sequence (bus : Bus) (st : Driver K) :
    (∀ bv b1 b2 b3, bus st.nops = some bv → bus (st.nops + 1) = some b1 →
      bus (st.nops + 2) = some b2 → bus (st.nops + 3) = some b3 →
      (mlx90632_addressed_reset bus st).1 = 0 ∧
      (mlx90632_addressed_reset bus st).2.trace = st.trace ++
        [Event.read 0x3001, Event.write 0x3001 ((swap16 bv &&& 0xFFF9) ||| 4),
          Event.write 0x3005 0x0006, Event.usleep 150 200,
          Event.write 0x3001 (swap16 bv)] ∧
      150 ≤ (Event.usleep 150 200).sleepMicros) ∧
    (bus st.nops = none →
      (mlx90632_addressed_reset bus st).1 = -1 ∧
      (mlx90632_addressed_reset bus st).2.trace = st.trace ++ [Event.read 0x3001]) ∧
    (∀ bv, bus st.nops = some bv → bus (st.nops + 1) = none →
      (mlx90632_addressed_reset bus st).1 = -1 ∧
      (mlx90632_addressed_reset bus st).2.trace = st.trace ++
        [Event.read 0x3001, Event.write 0x3001 ((swap16 bv &&& 0xFFF9) ||| 4)]) ∧
    (∀ bv b1, bus st.nops = some bv → bus (st.nops + 1) = some b1 →
      bus (st.nops + 2) = none →
      (mlx90632_addressed_reset bus st).1 = -1 ∧
      (mlx90632_addressed_reset bus st).2.trace = st.trace ++
        [Event.read 0x3001, Event.write 0x3001 ((swap16 bv &&& 0xFFF9) ||| 4),
          Event.write 0x3005 0x0006]) := by
  have hneg : ((-1 : Int) < 0) = True := eq_true (by norm_num)
  refine ⟨?_, ?_, ?_, ?_⟩
  · intro bv b1 b2 b3 h0 h1 h2 h3
    simp only [mlx90632_addressed_reset, i2c_read_some bus _ _ st bv h0, lt_irrefl, if_false,
      reset_ctrl_word _ (swap16_lt bv)]
    rw [i2c_write_some bus _ _ _ b1 h1]
    simp only [lt_irrefl, if_false]
    rw [i2c_write_some bus _ _ _ b2 (by simpa [Nat.add_assoc] using h2)]
    simp only [lt_irrefl, if_false]
    rw [i2c_write_some bus _ _ _ b3 (by simpa [usleep, Nat.add_assoc] using h3)]
    refine ⟨rfl, ?_, by decide⟩
    simp [usleep, MLX90632_REG_CTRL, MLX90632_RESET_CMD]
  · intro h0
    simp only [mlx90632_addressed_reset, i2c_read_none bus _ _ st h0, hneg, if_true]
    exact ⟨trivial, by simp [MLX90632_REG_CTRL]⟩
  · intro bv h0 h1
    simp only [mlx90632_addressed_reset, i2c_read_some bus _ _ st bv h0, lt_irrefl, if_false,
      reset_ctrl_word _ (swap16_lt bv)]
    rw [i2c_write_none bus _ _ _ h1]
    simp only [hneg, if_true]
    exact ⟨trivial, by simp [MLX90632_REG_CTRL]⟩
  · intro bv b1 h0 h1 h2
    simp only [mlx90632_addressed_reset, i2c_read_some bus _ _ st bv h0, lt_irrefl, if_false,
      reset_ctrl_word _ (swap16_lt bv)]
    rw [i2c_write_some bus _ _ _ b1 h1]
    simp only [lt_irrefl, if_false]
    rw [i2c_write_none bus _ _ _ (by simpa [Nat.add_assoc] using h2)]
    simp only [hneg, if_true]
    exact ⟨trivial, by simp [MLX90632_REG_CTRL, MLX90632_RESET_CMD]⟩

/-- One call of the backoff controller keeps the wait interval a multiple of 250 between 250
and 4750, for every outcome and every bus. -/
theorem searchWaitTime_wait_invariant (bus : Bus) (meas_ret : Int) (st : Driver K)
    (h : 250 ∣ st.MLX_STS.wait_time_meas ∧ 250 ≤ st.MLX_STS.wait_time_meas ∧
      st.MLX_STS.wait_time_meas ≤ 4750) :
    250 ∣ (mlx90632_searchWaitTime bus meas_ret st).MLX_STS.wait_time_meas ∧
    250 ≤ (mlx90632_searchWaitTime bus meas_ret st).MLX_STS.wait_time_meas ∧
    (mlx90632_searchWaitTime bus meas_ret st).MLX_STS.wait_time_meas ≤ 4750 := by
  obtain ⟨⟨q, hq⟩, h2, h3⟩ := h
  by_cases hm : meas_ret = -ETIMEDOUT
  · subst hm
    rw [searchWaitTime_timeout_MLX_STS]
    simp only [MLX90632_MAX_NUM_CHECK_MEAS, MLX90632_STEP_WAIT_TIME, MLX90632_MAX_WAIT_TIME]
    split
    · split
      · exact ⟨⟨1, rfl⟩, le_refl _, by norm_num⟩
      · rename_i hne
        have hmod : (st.MLX_STS.wait_time_meas + 250) % 2 ^ 16 =
            st.MLX_STS.wait_time_meas + 250 := Nat.mod_eq_of_lt (by omega)
        rw [hmod] at hne
        show 250 ∣ (st.MLX_STS.wait_time_meas + 250) % 2 ^ 16 ∧
          250 ≤ (st.MLX_STS.wait_time_meas + 250) % 2 ^ 16 ∧
          (st.MLX_STS.wait_time_meas + 250) % 2 ^ 16 ≤ 4750
        rw [hmod]
        refine ⟨⟨q + 1, by omega⟩, by omega, by omega⟩
    · exact ⟨⟨q, hq⟩, h2, h3⟩
  · simp only [mlx90632_searchWaitTime, hm, if_false]
    exact ⟨⟨q, hq⟩, h2, h3⟩

/-- The wait-interval invariant holds after any sequence of outcomes. -/
theorem searchWaitTime_wait_invariant_fold (bus : Bus) :
    ∀ (outcomes : List Int) (st : Driver K),
      (250 ∣ st.MLX_STS.wait_time_meas ∧ 250 ≤ st.MLX_STS.wait_time_meas ∧
        st.MLX_STS.wait_time_meas ≤ 4750) →
      250 ∣ (outcomes.foldl (fun s r => mlx90632_searchWaitTime bus r s)
        st).MLX_STS.wait_time_meas ∧
      250 ≤ (outcomes.foldl (fun s r => mlx90632_searchWaitTime bus r s)
        st).MLX_STS.wait_time_meas ∧
      (outcomes.foldl (fun s r => mlx90632_searchWaitTime bus r s)
        st).MLX_STS.wait_time_meas ≤ 4750 := by
  intro outcomes
  induction outcomes with
  | nil => intro st h; exact h
  | cons r rs ih =>
    intro st h
    exact ih _ (searchWaitTime_wait_invariant bus r st h)

/-- Claim C25: from a status with wait interval 1000 (whatever the counter, so in particular
from the initial status), after any finite sequence of `mlx90632_searchWaitTime` calls with
arbitrary outcomes on an arbitrary bus (arbitrary reset results), the wait interval is a
multiple of 250 between 250 and 4750: it is not 0 and it is below 5000. -/
theorem searchWaitTime_reachable_wait (bus : Bus) (outcomes : List Int) (st : Driver K)
    (hw : st.MLX_STS.wait_time_meas = 1000) :
    250 ∣ (outcomes.foldl (fun s r => mlx90632_searchWaitTime bus r s)
      st).MLX_STS.wait_time_meas ∧
    250 ≤ (outcomes.foldl (fun s r => mlx90632_searchWaitTime bus r s)
      st).MLX_STS.wait_time_meas ∧
    (outcomes.foldl (fun s r => mlx90632_searchWaitTime bus r s)
      st).MLX_STS.wait_time_meas ≤ 4750 ∧
    (outcomes.foldl (fun s r => mlx90632_searchWaitTime bus r s)
      st).MLX_STS.wait_time_meas ≠ 0 ∧
    (outcomes.foldl (fun s r => mlx90632_searchWaitTime bus r s)
      st).MLX_STS.wait_time_meas < 5000 := by
  have h := searchWaitTime_wait_invariant_fold bus outcomes st
    ⟨⟨4, by rw [hw]⟩, by rw [hw]; norm_num, by rw [hw]; norm_num⟩
  obtain ⟨h1, h2, h3⟩ := h
  exact ⟨h1, h2, h3, by omega, by omega⟩

/-- Claim C8: on every status reachable from the initial wait interval 1000 by calls of
`mlx90632_searchWaitTime` (any outcomes, any bus), a timeout outcome that triggers an
escalation and brings the wait interval to exactly 5000 leaves it at 250; the interval left by
an escalation is never 5000 and never 5250, and an escalation that does not reach 5000 adds
250. The interval is never 5000 when the function is entered. -/
theorem searchWaitTime_ceiling_resets (bus : Bus) (outcomes : List Int) (st : Driver K)
    (hw : st.MLX_STS.wait_time_meas = 1000)
    (hesc : MLX90632_MAX_NUM_CHECK_MEAS ≤
      ((outcomes.foldl (fun s r => mlx90632_searchWaitTime bus r s)
        st).MLX_STS.count_check_meas + 1) % 2 ^ 8) :
    ((outcomes.foldl (fun s r => mlx90632_searchWaitTime bus r s)
        st).MLX_STS.wait_time_meas + MLX90632_STEP_WAIT_TIME = MLX90632_MAX_WAIT_TIME →
      (mlx90632_searchWaitTime bus (-ETIMEDOUT)
        (outcomes.foldl (fun s r => mlx90632_searchWaitTime bus r s)
          st)).MLX_STS.wait_time_meas = 250) ∧
    ((outcomes.foldl (fun s r => mlx90632_searchWaitTime bus r s)
        st).MLX_STS.wait_time_meas + MLX90632_STEP_WAIT_TIME ≠ MLX90632_MAX_WAIT_TIME →
      (mlx90632_searchWaitTime bus (-ETIMEDOUT)
        (outcomes.foldl (fun s r => mlx90632_searchWaitTime bus r s)
          st)).MLX_STS.wait_time_meas =
        (outcomes.foldl (fun s r => mlx90632_searchWaitTime bus r s)
          st).MLX_STS.wait_time_meas + 250) ∧
    (mlx90632_searchWaitTime bus (-ETIMEDOUT)
      (outcomes.foldl (fun s r => mlx90632_searchWaitTime bus r s)
        st)).MLX_STS.wait_time_meas ≠ 5000 ∧
    (mlx90632_searchWaitTime bus (-ETIMEDOUT)
      (outcomes.foldl (fun s r => mlx90632_searchWaitTime bus r s)
        st)).MLX_STS.wait_time_meas ≠ 5250 ∧
    (outcomes.foldl (fun s r => mlx90632_searchWaitTime bus r s)
      st).MLX_STS.wait_time_meas ≠ 5000 := by
  obtain ⟨⟨q, hq⟩, h2, h3⟩ := searchWaitTime_wait_invariant_fold bus outcomes st
    ⟨⟨4, by rw [hw]⟩, by rw [hw]; norm_num, by rw [hw]; norm_num⟩
  generalize outcomes.foldl (fun s r => mlx90632_searchWaitTime bus r s) st = s at *
  rw [searchWaitTime_timeout_MLX_STS, if_pos hesc]
  simp only [MLX90632_STEP_WAIT_TIME, MLX90632_MAX_WAIT_TIME]
  have hmod : (s.MLX_STS.wait_time_meas + 250) % 2 ^ 16 = s.MLX_STS.wait_time_meas + 250 :=
    Nat.mod_eq_of_lt (by omega)
  rw [hmod]
  refine ⟨?_, ?_, ?_, ?_, by omega⟩
  · intro h
    rw [if_pos h]
  · intro h
    rw [if_neg h]
  · split
    · show (250 : Nat) ≠ 5000
      decide
    · rename_i hne
      show s.MLX_STS.wait_time_meas + 250 ≠ 5000
      exact hne
  · split
    · show (250 : Nat) ≠ 5250
      decide
    · show s.MLX_STS.wait_time_meas + 250 ≠ 5250
      omega

set_option maxRecDepth 100000 in
/-- Witness for C8: from the initial state on a dead bus the wait interval is 4750 after 64
consecutive timeouts; the 65th escalates, reaches 5000 and leaves 250. -/
theorem searchWaitTime_ceiling_resets_witness :
    ((List.replicate 64 (-ETIMEDOUT)).foldl (fun s r => mlx90632_searchWaitTime deadBus r s)
      (Driver.initial : Driver ℚ)).MLX_STS.wait_time_meas = 4750 ∧
    (mlx90632_searchWaitTime deadBus (-ETIMEDOUT)
      ((List.replicate 64 (-ETIMEDOUT)).foldl (fun s r => mlx90632_searchWaitTime deadBus r s)
        (Driver.initial : Driver ℚ))).MLX_STS.wait_time_meas = 250 :=
  ⟨by decide,
    (searchWaitTime_ceiling_resets deadBus (List.replicate 64 (-ETIMEDOUT))
      (Driver.initial : Driver ℚ) rfl (by decide)).1 (by decide)⟩

/-- Sign of a decoded two-word raw value: negative exactly when bit 15 of the high word is
set. -/
theorem toInt32_neg_iff (lo hi : Nat) (hlo : lo < 2 ^ 16) (hhi : hi < 2 ^ 16) :
    toInt32 ((hi <<< 16) ||| lo) < 0 ↔ hi.testBit 15 = true := by
  have hor : (hi <<< 16) ||| lo = 2 ^ 16 * hi + lo := by
    rw [Nat.mul_add_lt_is_or hlo, Nat.shiftLeft_eq, Nat.mul_comm]
  have hbit : hi.testBit 15 = true ↔ 2 ^ 15 ≤ hi := by
    rw [Nat.testBit_to_div_mod]
    simp only [decide_eq_true_eq]
    norm_num at hhi ⊢
    omega
  rw [hor, hbit]
  unfold toInt32
  norm_num at hlo hhi ⊢
  have hm : (65536 * hi + lo) % 4294967296 = 65536 * hi + lo := Nat.mod_eq_of_lt (by omega)
  rw [hm]
  split <;> omega

/-- A decoded two-word constant is negative exactly when bit 15 of its high word is set. -/
theorem decode32_neg_iff [LinearOrderedField K] (lo hi s : Nat) (hlo : lo < 2 ^ 16)
    (hhi : hi < 2 ^ 16) :
    (toInt32 ((hi <<< 16) ||| lo) : K) / 2 ^ s < 0 ↔ hi.testBit 15 = true := by
  rw [← toInt32_neg_iff lo hi hlo hhi]
  have hp : (0 : K) < 2 ^ s := by positivity
  rw [div_lt_iff₀ hp, zero_mul]
  exact Int.cast_lt_zero

/-- A decoded single-word constant `w / 2^s` with `w < 2^(s + t)` lies in `[0, 2^t)`. -/
theorem decode16_range [LinearOrderedField K] (w s t : Nat) (hw : w < 2 ^ (s + t)) :
    (0 : K) ≤ (w : K) / 2 ^ s ∧ (w : K) / 2 ^ s < 2 ^ t := by
  have hp : (0 : K) < 2 ^ s := by positivity
  constructor
  · positivity
  · rw [div_lt_iff₀ hp, ← pow_add, Nat.add_comm t s]
    exact_mod_cast hw

/-- Claim C28: after a successful calibration load, whatever the 22 words read, `Gb` and `Ka`
are in `[0, 64)` and `Ha` and `Hb` in `[0, 4)`, so none of them is negative, and each of the
nine two-word constants `P_R`, `P_G`, `P_T`, `P_O`, `Ea`, `Eb`, `Fa`, `Fb`, `Ga` is negative
exactly when bit 15 of its high word is set. -/
theorem readCalib_constant_signs [LinearOrderedField K] [FloorRing K] (bus : Bus) (fuel : Nat)
    (st st1 st2 : Driver K) (r : Int)
    (hwait : mlx90632_readCalib_wait bus fuel st = some st1)
    (hmode : i2c_melexis_setmode bus fuel MLX90632_PWR_STATUS_SLEEP_STEP st1 = some (r, st2))
    (w : Nat → Nat) (hreads : ∀ i, i < 22 → bus (st2.nops + i) = some (w i)) :
    ∃ st3, mlx90632_readCalib bus fuel st = some (0, st3) ∧
      0 ≤ st3.MLX_K.Gb ∧ st3.MLX_K.Gb < 64 ∧
      0 ≤ st3.MLX_K.Ka ∧ st3.MLX_K.Ka < 64 ∧
      0 ≤ st3.MLX_K.Ha ∧ st3.MLX_K.Ha < 4 ∧
      0 ≤ st3.MLX_K.Hb ∧ st3.MLX_K.Hb < 4 ∧
      (st3.MLX_K.P_R < 0 ↔ (swap16 (w 1)).testBit 15 = true) ∧
      (st3.MLX_K.P_G < 0 ↔ (swap16 (w 3)).testBit 15 = true) ∧
      (st3.MLX_K.P_T < 0 ↔ (swap16 (w 5)).testBit 15 = true) ∧
      (st3.MLX_K.P_O < 0 ↔ (swap16 (w 7)).testBit 15 = true) ∧
      (st3.MLX_K.Ea < 0 ↔ (swap16 (w 9)).testBit 15 = true) ∧
      (st3.MLX_K.Eb < 0 ↔ (swap16 (w 11)).testBit 15 = true) ∧
      (st3.MLX_K.Fa < 0 ↔ (swap16 (w 13)).testBit 15 = true) ∧
      (st3.MLX_K.Fb < 0 ↔ (swap16 (w 15)).testBit 15 = true) ∧
      (st3.MLX_K.Ga < 0 ↔ (swap16 (w 17)).testBit 15 = true) := by
  obtain ⟨st3, h, hK, _⟩ :=
    readCalib_all_reads_ok bus fuel st st1 st2 r hwait hmode w hreads
  have hl := fun i => swap16_lt (w i)
  have hP_R : st3.MLX_K.P_R = _ := congrArg MLXCalib_s.P_R hK
  have hP_G : st3.MLX_K.P_G = _ := congrArg MLXCalib_s.P_G hK
  have hP_T : st3.MLX_K.P_T = _ := congrArg MLXCalib_s.P_T hK
  have hP_O : st3.MLX_K.P_O = _ := congrArg MLXCalib_s.P_O hK
  have hEa : st3.MLX_K.Ea = _ := congrArg MLXCalib_s.Ea hK
  have hEb : st3.MLX_K.Eb = _ := congrArg MLXCalib_s.Eb hK
  have hFa : st3.MLX_K.Fa = _ := congrArg MLXCalib_s.Fa hK
  have hFb : st3.MLX_K.Fb = _ := congrArg MLXCalib_s.Fb hK
  have hGa : st3.MLX_K.Ga = _ := congrArg MLXCalib_s.Ga hK
  have hGb : st3.MLX_K.Gb = _ := congrArg MLXCalib_s.Gb hK
  have hKa : st3.MLX_K.Ka = _ := congrArg MLXCalib_s.Ka hK
  have hHa : st3.MLX_K.Ha = _ := congrArg MLXCalib_s.Ha hK
  have hHb : st3.MLX_K.Hb = _ := congrArg MLXCalib_s.Hb hK
  simp only [calibAfter, Nat.reduceLeDiff, if_true]
    at hP_R hP_G hP_T hP_O hEa hEb hFa hFb hGa hGb hKa hHa hHb
  have hx16 : ∀ i s, toFloat ((swap16 (w i) : K) / 2 ^ s) = (swap16 (w i) : K) / 2 ^ s :=
    fun i s => toFloat_nat_div (swap16 (w i)) s (hl i)
  simp only [hx16] at hGb hKa hHa hHb
  have g64 := fun i => decode16_range (K := K) (swap16 (w i)) 10 6 (hl i)
  have g4 := fun i => decode16_range (K := K) (swap16 (w i)) 14 2 (hl i)
  have e6 : (2 : K) ^ 6 = 64 := by norm_num
  have e2 : (2 : K) ^ 2 = 4 := by norm_num
  simp only [e6] at g64
  simp only [e2] at g4
  refine ⟨st3, h, ?_⟩
  rw [hP_R, hP_G, hP_T, hP_O, hEa, hEb, hFa, hFb, hGa, hGb, hKa, hHa, hHb]
  refine ⟨(g64 18).1, (g64 18).2, (g64 19).1, (g64 19).2, (g4 20).1, (g4 20).2,
    (g4 21).1, (g4 21).2, ?_, ?_, ?_, ?_, ?_, ?_, ?_, ?_, ?_⟩
  all_goals
    simp only [toFloat_neg_iff, div_two_pow_neg_iff, Int.cast_lt_zero]
    exact toInt32_neg_iff _ _ (hl _) (hl _)

/-! ## Zero object signal (C29) -/

/-- The three iterations with a zero object signal `Sto = 0`, for a square root that inverts
squaring on non-negative values. -/
theorem calc_temp_object_iteration_zero [LinearOrderedField K] (sqrt : K → K)
    (hsqrt : ∀ x : K, 0 ≤ x → sqrt (x * x) = x) (emi Fa Ha Ga Fb TAdut Hb : K)
    (hT : 0 ≤ TAdut + 273.15) :
    mlx90632_calc_temp_object_iteration sqrt 0 emi Fa Ha Ga Fb TAdut
      ((TAdut + 273.15) * (TAdut + 273.15) * (TAdut + 273.15) * (TAdut + 273.15)) Hb =
      TAdut - Hb := by
  have h4 : (TAdut + 273.15) * (TAdut + 273.15) * (TAdut + 273.15) * (TAdut + 273.15) =
      ((TAdut + 273.15) * (TAdut + 273.15)) * ((TAdut + 273.15) * (TAdut + 273.15)) := by ring
  have hstep : ∀ d : K,
      sqrt (sqrt (0 / d +
        (TAdut + 273.15) * (TAdut + 273.15) * (TAdut + 273.15) * (TAdut + 273.15)))
        - 273.15 - Hb = TAdut - Hb := by
    intro d
    rw [zero_div, zero_add, h4, hsqrt _ (mul_nonneg hT hT), hsqrt _ hT]
    ring
  simp only [mlx90632_calc_temp_object_iteration, List.range, List.range.loop, List.foldl,
    hstep]

/-- Claim C29: over the reals with the real square root, if
`object_ram_4_7 + object_ram_5_8 = 0`, the divisors `VRto`, `VRta`, `Ea` and
`emi*Fa*Ha*(1 + Ga*(T - 25) + Fb*(TAdut - 25))` (at `T = 25` and at `T = TAdut - Hb`, the
values of `TOdut` at the three iterations) are non-zero and `TAdut + 273.15 ≥ 0`, then
`mlx90632_calc_temp_object` returns `TAdut - Hb`, whatever the emissivity, `Fa`, `Ha`, `Ga`
and `Fb`. -/
theorem calc_temp_object_zero_signal (st : Driver ℝ) (Ka Gb Ea Eb Fa Ha Ga Fb Hb : ℝ)
    (hS : st.MLX_T_RAW.object_ram_4_7 + st.MLX_T_RAW.object_ram_5_8 = 0) :
    let VRto : ℝ :=
      (st.MLX_T_RAW.ambient_ram_9 : ℝ) + Ka * ((st.MLX_T_RAW.ambient_ram_6 : ℝ) / 12)
    let VRta : ℝ :=
      (st.MLX_T_RAW.ambient_ram_9 : ℝ) + Gb * ((st.MLX_T_RAW.ambient_ram_6 : ℝ) / 12)
    let AMB : ℝ := ((st.MLX_T_RAW.ambient_ram_6 : ℝ) / 12) / VRta * 2 ^ 19
    let TAdut : ℝ := (AMB - Eb) / Ea + 25
    let emi : ℝ := mlx90632_get_emissivity st
    VRto ≠ 0 → VRta ≠ 0 → Ea ≠ 0 →
    emi * Fa * Ha * (1 + Ga * (25 - 25) + Fb * (TAdut - 25)) ≠ 0 →
    emi * Fa * Ha * (1 + Ga * ((TAdut - Hb) - 25) + Fb * (TAdut - 25)) ≠ 0 →
    0 ≤ TAdut + 273.15 →
    mlx90632_calc_temp_object Real.sqrt st Ka Gb Ea Eb Fa Ha Ga Fb Hb = TAdut - Hb := by
  intro VRto VRta AMB TAdut emi _ _ _ _ _ hT
  have h12 : (12.0 : ℝ) = 12 := by norm_num
  have h19 : ((1 <<< 19 : Nat) : ℝ) = 2 ^ 19 := by norm_num [Nat.shiftLeft_eq]
  have hAMB : ((st.MLX_T_RAW.ambient_ram_6 : ℝ) / MLX90632_REF_3) /
      ((st.MLX_T_RAW.ambient_ram_9 : ℝ) +
        Gb * ((st.MLX_T_RAW.ambient_ram_6 : ℝ) / MLX90632_REF_3)) *
      ((1 <<< 19 : Nat) : ℝ) = AMB := by
    simp only [AMB, VRta, MLX90632_REF_3, h12, h19]
  have hSto : ∀ d : ℝ,
      (((st.MLX_T_RAW.object_ram_4_7 + st.MLX_T_RAW.object_ram_5_8 : Int) : ℝ)
        / (2.0 : ℝ)) / (12.0 : ℝ) / d * ((1 <<< 19 : Nat) : ℝ) = 0 := by
    intro d
    rw [hS]
    simp
  simp only [mlx90632_calc_temp_object, hSto, hAMB]
  exact calc_temp_object_iteration_zero Real.sqrt (fun x hx => Real.sqrt_mul_self hx)
    _ Fa Ha Ga Fb TAdut Hb hT

/-- Witness for C29: with ambient raw channels 12 and 1, object raw channels 5 and -5,
`Ka = Gb = Ea = 1`, `Eb = 2^18`, `Fa = Ha = 1`, `Ga = Fb = 0`, `Hb = 1`, `TAdut` is 25 and the
result is 24. -/
theorem calc_temp_object_zero_signal_witness :
    mlx90632_calc_temp_object Real.sqrt
      { (Driver.initial : Driver ℝ) with
        MLX_T_RAW :=
          { ambient_ram_6 := 12, ambient_ram_9 := 1, object_ram_4_7 := 5, object_ram_5_8 := -5 } }
      1 1 1 262144 1 1 0 0 1 = 24 := by
  have h := calc_temp_object_zero_signal
    { (Driver.initial : Driver ℝ) with
      MLX_T_RAW :=
        { ambient_ram_6 := 12, ambient_ram_9 := 1, object_ram_4_7 := 5, object_ram_5_8 := -5 } }
    1 1 1 262144 1 1 0 0 1 (by decide)
    (by norm_num) (by norm_num) (by norm_num)
    (by norm_num [mlx90632_get_emissivity, Driver.initial])
    (by norm_num [mlx90632_get_emissivity, Driver.initial])
    (by norm_num)
  rw [h]
  norm_num

/-! ## Instances on concrete buses (C21 to C30) -/

/-- Witness for C21: on a bus delivering the words `0xFFFF` and `0xFFFE`, from the initial
state, slot 1 is read at `0x4003` and `0x4004` and the values stored are -1 and -2. -/
theorem getObjTempRaw_reads_slot_witness :
    (mlx90632_getObjTempRaw signedWordsBus 1 (Driver.initial : Driver ℚ)).2.trace =
      (Driver.initial : Driver ℚ).trace ++ [Event.read 0x4003, Event.read 0x4004] ∧
    (mlx90632_getObjTempRaw signedWordsBus 1
      (Driver.initial : Driver ℚ)).2.MLX_T_RAW.object_ram_4_7 = -1 ∧
    (mlx90632_getObjTempRaw signedWordsBus 1
      (Driver.initial : Driver ℚ)).2.MLX_T_RAW.object_ram_5_8 = -2 ∧
    (mlx90632_getObjTempRaw signedWordsBus 2
      (Driver.initial : Driver ℚ)).2.MLX_T_RAW.object_ram_4_7 = -1 := by
  obtain ⟨_, h2, h3, h4, _, _, h7, _⟩ :=
    (getObjTempRaw_reads_slot signedWordsBus (Driver.initial : Driver ℚ)).1
      0xFFFF 0xFEFF rfl rfl
  exact ⟨h2, h3.trans (by decide), h4.trans (by decide), h7.trans (by decide)⟩

/-- Witness for C22: the run that returns 31 satisfies the bound. -/
theorem start_measurement_cycle_pos_range_witness :
    ∃ st', mlx90632_start_measurement (cyclePosBus 31) 1 commUp = some (31, st') ∧
      (31 : Int) ≤ 31 := by
  obtain ⟨⟨r, st'⟩, h, hr⟩ :=
    Option.map_eq_some'.mp (start_measurement_reaches_cycle_pos 31 (le_refl 31))
  have hr' : r = 31 := hr
  subst hr'
  exact ⟨st', h, start_measurement_cycle_pos_range (cyclePosBus 31) 1 commUp 31 st' h
    (by decide)⟩

/-- Witness for C23: on a bus whose every transfer succeeds with the word `0x0002`, from the
initial state, the reset leaves the five events in order. -/
theorem addressed_reset_sequence_witness :
    (mlx90632_addressed_reset sleepStepBus (Driver.initial : Driver ℚ)).1 = 0 ∧
    (mlx90632_addressed_reset sleepStepBus (Driver.initial : Driver ℚ)).2.trace =
      (Driver.initial : Driver ℚ).trace ++
        [Event.read 0x3001, Event.write 0x3001 ((swap16 0x0200 &&& 0xFFF9) ||| 4),
          Event.write 0x3005 0x0006, Event.usleep 150 200,
          Event.write 0x3001 (swap16 0x0200)] ∧
    150 ≤ (Event.usleep 150 200).sleepMicros :=
  (addressed_reset_sequence sleepStepBus (Driver.initial : Driver ℚ)).1
    0x0200 0x0200 0x0200 0x0200 rfl rfl rfl rfl

/-- Start of a measurement on `ambFailBus` with the communication flag set: data ready at the
first poll read, cycle position 1, after 5 bus operations. -/
theorem ambFailBus_start :
    mlx90632_start_measurement ambFailBus 1 commUp =
      some (1, { commUp with
        nops := 5
        trace := [Event.read MLX90632_REG_STATUS, Event.read MLX90632_REG_CTRL,
          Event.read MLX90632_REG_STATUS, Event.write MLX90632_REG_STATUS 0x0004,
          Event.read MLX90632_REG_STATUS] }) := by
  decide

/-- Witness for the amended C24: on `ambFailBus` the measurement starts with cycle position 1,
the first ambient raw read fails, and the object path runs: both object raw fields become 5 and
the ambient temperature is kept. -/
theorem read_runs_object_path_after_ambient_failure_witness :
    ∃ st', mlx90632_read (fun x => x) ambFailBus 1 commUp = some st' ∧
      st'.MLX_T.ambient = commUp.MLX_T.ambient ∧
      st'.MLX_T_RAW.object_ram_4_7 = 5 ∧ st'.MLX_T_RAW.object_ram_5_8 = 5 := by
  obtain ⟨s2, robj, st', hs2, _, hread, hambient, _, _, hslot⟩ :=
    read_runs_object_path_after_ambient_failure (fun x => x) ambFailBus 1 commUp 1 _
      ambFailBus_start (by decide) (by decide)
  have hn : s2.nops = 6 := by rw [← hs2]; decide
  obtain ⟨_, _, h47, h58⟩ := hslot (Or.inl rfl) 0x0500 0x0500
    (by rw [hn]; rfl) (by rw [hn]; rfl)
  exact ⟨st', hread, hambient, h47.trans (by decide), h58.trans (by decide)⟩

set_option maxRecDepth 10000 in
/-- Counterexample to C24: on `ambObjFailBus`, from a state whose stored object temperature is
7, `mlx90632_start_measurement` succeeds with cycle position 1, the ambient raw read (transfer
5) fails and the object raw read (transfer 6) fails too: `mlx90632_read` runs the object path
but `mlx90632_readObjTemp` returns -1 before the computation, so `MLX_T.object` is still 7
after the call. -/
theorem read_keeps_object_when_object_read_fails :
    (mlx90632_start_measurement ambObjFailBus 1 staleObject).map (fun r => (r.1, r.2.nops)) =
      some (1, 5) ∧
    ambObjFailBus 5 = none ∧ ambObjFailBus 6 = none ∧
    (mlx90632_read (fun x => x) ambObjFailBus 1 staleObject).map
      (fun s => (s.nops, s.trace.drop 5)) =
        some (7, [Event.read 0x4005, Event.read 0x4003]) ∧
    (mlx90632_read (fun x => x) ambObjFailBus 1 staleObject).map
      (fun s => s.MLX_T) = some { ambient := 3, object := 7 } := by
  refine ⟨by decide, by decide, by decide, by decide, ?_⟩
  decide

/-- Witness for C25: sixty timeouts on a dead bus from the initial state. -/
theorem searchWaitTime_reachable_wait_witness :
    250 ∣ ((List.replicate 60 (-ETIMEDOUT)).foldl
      (fun s r => mlx90632_searchWaitTime deadBus r s)
      (Driver.initial : Driver ℚ)).MLX_STS.wait_time_meas ∧
    ((List.replicate 60 (-ETIMEDOUT)).foldl
      (fun s r => mlx90632_searchWaitTime deadBus r s)
      (Driver.initial : Driver ℚ)).MLX_STS.wait_time_meas < 5000 :=
  ⟨(searchWaitTime_reachable_wait deadBus (List.replicate 60 (-ETIMEDOUT))
      (Driver.initial : Driver ℚ) rfl).1,
    (searchWaitTime_reachable_wait deadBus (List.replicate 60 (-ETIMEDOUT))
      (Driver.initial : Driver ℚ) rfl).2.2.2.2⟩

/-- Witness for C28: on a bus whose every read delivers `0x0002`, from the initial state, the
load succeeds with `Gb` in `[0, 64)` and `P_R` not negative (bit 15 of `0x0002` is clear). -/
theorem readCalib_constant_signs_witness :
    ∃ st3, mlx90632_readCalib sleepStepBus 2 (Driver.initial : Driver ℚ) = some (0, st3) ∧
      0 ≤ st3.MLX_K.Gb ∧ st3.MLX_K.Gb < 64 ∧
      (st3.MLX_K.P_R < 0 ↔ (swap16 0x0200).testBit 15 = true) := by
  obtain ⟨st3, h, h1, h2, _, _, _, _, _, _, hPR, _⟩ :=
    readCalib_constant_signs sleepStepBus 2 (Driver.initial : Driver ℚ)
      { (Driver.initial : Driver ℚ) with nops := 1, trace := [Event.read MLX90632_REG_STATUS] }
      { (Driver.initial : Driver ℚ) with
        nops := 3
        trace := [Event.read MLX90632_REG_STATUS, Event.write MLX90632_REG_CTRL 2,
          Event.read MLX90632_REG_CTRL] }
      0 (by decide) (by decide) (fun _ => 0x0200) (fun _ _ => rfl)
  exact ⟨st3, h, h1, h2, hPR⟩

/-- Witness for C30: cycle position 3 on a dead bus from the initial state. -/
theorem readObjTemp_outside_slots_witness :
    (mlx90632_readObjTemp (fun x => x) deadBus 3 (Driver.initial : Driver ℚ)).1 = 0 ∧
    (mlx90632_readObjTemp (fun x => x) deadBus 3 (Driver.initial : Driver ℚ)).2.trace =
      (Driver.initial : Driver ℚ).trace :=
  ⟨(readObjTemp_outside_slots (fun x => x) deadBus 3 (Driver.initial : Driver ℚ)
      (by decide) (by decide)).1,
    (readObjTemp_outside_slots (fun x => x) deadBus 3 (Driver.initial : Driver ℚ)
      (by decide) (by decide)).2.2.1⟩

end Proofs

end MLX90632
